import Mathlib

/-!
# go-microRNA-deep

A shallow embedding of `main.go`: six analyzers that parse the text output of a
microRNA target-prediction tool, load a FASTA file, join the two on the
sequence identifier and slice the matched sequence around the predicted
coordinates.

Conventions of the embedding.

* A Go `string` is a byte sequence; it is modelled as a `List Char`, one list
  element per byte.
* The loops over a file take the list of lines that `bufio.Scanner` yields
  for it; `scanLines` gives that list for the lines of a file.
* A Go `int` is a 64 bit signed integer; it is modelled as an `Int` with the
  bounds of the type, and `+` and `-` wrap around modulo `2^64`.
* A `float64` is modelled by its IEEE 754 bit pattern. `strconv.ParseFloat`
  is a parameter of the embedding.
* A run-time panic (index out of range, slice bounds out of range) is the
  result `none`.
-/

namespace MicroRNA

/-! ## Strings -/

/-- A Go string, one list element per byte. -/
abbrev GoString := List Char

/-- The call `strings.HasPrefix(s, p)`. -/
def hasPrefix (s p : GoString) : Bool :=
  p.isPrefixOf s

/-- The call `strings.Split(s, sep)` for a separator `sep` of one byte: the
pieces of `s` between the occurrences of `sep`. The result is never empty. -/
def split : GoString → Char → List GoString
  | [], _ => [[]]
  | c :: cs, sep =>
    if c = sep then [] :: split cs sep
    else
      match split cs sep with
      | [] => [[c]]
      | f :: fs => (c :: f) :: fs

/-- Worker of `replaceAll`: `skip` counts the bytes of a matched occurrence of
`old` that are still to be dropped. -/
def replaceAllAux (old new : GoString) : GoString → Nat → GoString
  | [], _ => []
  | _ :: cs, skip + 1 => replaceAllAux old new cs skip
  | c :: cs, 0 =>
    if old.isPrefixOf (c :: cs) then new ++ replaceAllAux old new cs (old.length - 1)
    else c :: replaceAllAux old new cs 0

/-- The call `strings.ReplaceAll(s, old, new)` for a non-empty `old`: every
non-overlapping occurrence of `old`, found from left to right, is replaced by
`new`. -/
def replaceAll (s old new : GoString) : GoString :=
  replaceAllAux old new s 0

/-! ## Integers -/

/-- A Go `int`: a 64 bit signed integer. -/
abbrev GoInt := { x : Int // -(2 ^ 63) ≤ x ∧ x < 2 ^ 63 }

/-- The value of a mathematical integer as a Go `int` (two's complement,
64 bits): the conversion to `int`, and the result of an operation that
overflows. -/
def wrapInt (x : Int) : GoInt :=
  ⟨(x + 2 ^ 63) % 2 ^ 64 - 2 ^ 63, by omega⟩

instance (n : Nat) : OfNat GoInt n := ⟨wrapInt n⟩

/-- Go `a + b` on `int`. -/
def addInt (a b : GoInt) : GoInt := wrapInt (a.val + b.val)

/-- Go `a - b` on `int`. -/
def subInt (a b : GoInt) : GoInt := wrapInt (a.val - b.val)

/-- Go `-a` on `int`. -/
def negInt (a : GoInt) : GoInt := wrapInt (-a.val)

/-- The value of a decimal digit byte. -/
def digitVal (c : Char) : Option Nat :=
  if '0' ≤ c ∧ c ≤ '9' then some (c.toNat - '0'.toNat) else none

/-- The digit loop of `strconv.ParseUint(s, 10, 64)`: `none` is a syntax error,
`some none` a range error (the value does not fit 64 bits), `some (some n)` the
value. The loop returns at the first byte that gives an error. -/
def parseUintLoop : GoString → Nat → Option (Option Nat)
  | [], n => some (some n)
  | c :: cs, n =>
    match digitVal c with
    | none => none
    | some d =>
      if n * 10 + d > 2 ^ 64 - 1 then some none
      else parseUintLoop cs (n * 10 + d)

/-- The result of `strconv.ParseInt(s, 10, 0)` from the sign and the result of
the digit loop: an error of syntax gives 0, an error of range the nearest
bound of `int`, and a value `un` below the cutoff `1 << 63` gives `int64(un)`,
negated under a minus sign. -/
def parseIntValue (neg : Bool) : Option (Option Nat) → GoInt
  | none => 0
  | some none => if neg then wrapInt (-(2 ^ 63)) else wrapInt (2 ^ 63 - 1)
  | some (some un) =>
    if !neg && decide (un ≥ 2 ^ 63) then wrapInt (2 ^ 63 - 1)
    else if neg && decide (un > 2 ^ 63) then wrapInt (-(2 ^ 63))
    else if neg then negInt (wrapInt un) else wrapInt un

/-- The value `v` of `v, _ := strconv.Atoi(s)`: the error is discarded. The
empty string and a lone sign are errors of syntax. -/
def atoi (s : GoString) : GoInt :=
  match s with
  | [] => 0
  | c :: cs =>
    if c = '+' then
      (if cs = [] then 0 else parseIntValue false (parseUintLoop cs 0))
    else if c = '-' then
      (if cs = [] then 0 else parseIntValue true (parseUintLoop cs 0))
    else parseIntValue false (parseUintLoop (c :: cs) 0)

/-! ## Floating point -/

/-- A `float64`, given by its IEEE 754 bit pattern: bit 63 is the sign, bits
52 to 62 the exponent, bits 0 to 51 the fraction. -/
structure Float64 where
  bits : Nat
deriving DecidableEq, Repr

namespace Float64

/-- NaN: the exponent is all ones and the fraction is not zero. -/
def isNaN (x : Float64) : Bool :=
  (x.bits / 2 ^ 52) % 2 ^ 11 == 2047 && x.bits % 2 ^ 52 != 0

/-- The place of a value that is not NaN in the order of `float64`: the low
63 bits read as an integer, negated when the sign bit is set. Both zeros have
place 0. -/
def key (x : Float64) : Int :=
  if (x.bits / 2 ^ 63) % 2 = 1 then -((x.bits % 2 ^ 63 : Nat) : Int)
  else ((x.bits % 2 ^ 63 : Nat) : Int)

/-- Go `x <= y` on `float64`. -/
def le (x y : Float64) : Bool :=
  !x.isNaN && !y.isNaN && decide (x.key ≤ y.key)

/-- Go `x == y` on `float64`. -/
def eq (x y : Float64) : Bool :=
  !x.isNaN && !y.isNaN && decide (x.key = y.key)

/-- Go `x > y` on `float64`. -/
def gt (x y : Float64) : Bool :=
  !x.isNaN && !y.isNaN && decide (x.key > y.key)

end Float64

/-! ### A reference for decimal numerals -/

/-- The number of bits of `n`: the least `k` with `n < 2^k`, found in at most
`fuel` halvings. -/
def bitLength : Nat → Nat → Nat
  | 0, _ => 0
  | fuel + 1, n => if n = 0 then 0 else bitLength fuel (n / 2) + 1

/-- The quotient `a / b` rounded to the nearest integer, a tie to the even
one. -/
def divRoundEven (a b : Nat) : Nat :=
  let q := a / b
  let r := a % b
  if 2 * r > b ∨ (2 * r = b ∧ q % 2 = 1) then q + 1 else q

/-- The float64 nearest to the rational `a / b` (`b` positive), a tie to the
even fraction, as a bit pattern; a value past the largest finite one gives
`+Inf`. The argument `fuel` bounds the bit lengths of `a` and `b`. In the
body, `a / b` lies in `[2^t, 2^(t+1))` and the unit in the last place of the
result is `2^e`. -/
def nearestFloat64 (fuel a b : Nat) : Float64 :=
  if a = 0 then ⟨0⟩
  else
    let l : Int := (bitLength fuel a : Int) - (bitLength fuel b : Int)
    let t : Int := if a * 2 ^ (-l).toNat ≥ b * 2 ^ l.toNat then l else l - 1
    let e : Int := max (t - 52) (-1074)
    let m0 := divRoundEven (a * 2 ^ (-e).toNat) (b * 2 ^ e.toNat)
    let m := if m0 = 2 ^ 53 then 2 ^ 52 else m0
    let e1 : Int := if m0 = 2 ^ 53 then e + 1 else e
    if m < 2 ^ 52 then ⟨m⟩
    else if e1 + 1075 ≥ 2047 then ⟨2047 * 2 ^ 52⟩
    else ⟨(e1 + 1075).toNat * 2 ^ 52 + (m - 2 ^ 52)⟩

/-- The value of a string of decimal digits, `none` when a byte is not a
digit. -/
def digitsValue : GoString → Nat → Option Nat
  | [], n => some n
  | c :: cs, n =>
    match digitVal c with
    | none => none
    | some d => digitsValue cs (n * 10 + d)

/-- A reference for `strconv.ParseFloat(s, 64)` on the plain decimal numerals
`digits`, `digits.digits`, `digits.` and `.digits`: the nearest float64. It is
`none` on every other string (a sign, an exponent, an underscore, a hexadecimal
or a special value, an error of syntax), where it says nothing. -/
def decimalFloat (s : GoString) : Option Float64 :=
  match split s '.' with
  | [ip] =>
    if ip = [] then none
    else (digitsValue ip 0).map (fun a => nearestFloat64 (4 * s.length + 4) a 1)
  | [ip, fp] =>
    if ip = [] ∧ fp = [] then none
    else
      (digitsValue (ip ++ fp) 0).map
        (fun a => nearestFloat64 (4 * s.length + 4) a (10 ^ fp.length))
  | _ => none

/-! ## Slices of strings -/

/-- The bytes of `s` from position `lo` up to, not including, position `hi`. -/
def substr (s : GoString) (lo hi : Nat) : GoString :=
  (s.drop lo).take (hi - lo)

/-- The slice expression `s[lo:hi]` on a string. It panics unless
`0 <= lo <= hi <= len(s)`. -/
def slice (s : GoString) (lo hi : GoInt) : Option GoString :=
  if 0 ≤ lo.val ∧ lo.val ≤ hi.val ∧ hi.val ≤ (s.length : Int) then
    some (substr s lo.val.toNat hi.val.toNat)
  else none

/-! ## Loops that append to a slice -/

/-- The loop `for i := range xs` whose body may append to the slice `out` or
panic: the body gets the index, the element and the slice built so far, and
gives the slice after the iteration. The index of the first element is the
second argument. -/
def forRange {α β : Type} (body : Nat → α → List β → Option (List β)) :
    List α → Nat → List β → Option (List β)
  | [], _, out => some out
  | x :: xs, i, out =>
    match body i x out with
    | none => none
    | some out1 => forRange body xs (i + 1) out1

/-- The statement `out = append(out, lit)` where evaluating the composite
literal `lit` may panic. -/
def appendLit {β : Type} (lit : Option β) (out : List β) : Option (List β) :=
  match lit with
  | none => none
  | some v => some (out ++ [v])

/-! ## The FASTA loader -/

structure fastPredID where
  id : GoString
deriving DecidableEq, Repr

structure fastPredSeq where
  seq : GoString
deriving DecidableEq, Repr

/-- The FASTA loop, the same in the six analyzers: a line that starts with `>`
appends an identifier, a line that does not appends a sequence. -/
def fastaRead (lines : List GoString) : List fastPredID × List fastPredSeq :=
  lines.foldl
    (fun st line =>
      let st1 :=
        if hasPrefix line ['>'] then (st.1 ++ [⟨replaceAll line ['>'] []⟩], st.2) else st
      if !hasPrefix line ['>'] then (st1.1, st1.2 ++ [⟨line⟩]) else st1)
    ([], [])

/-- The constant `bufio.MaxScanTokenSize`: the size in bytes of the largest
buffer of a scanner that was given no buffer of its own. -/
def maxScanTokenSize : Nat := 64 * 1024

/-- The function `dropCR` of `bufio`: a carriage return at the end of a line
is dropped. -/
def dropCR (line : GoString) : GoString :=
  if line.getLast? = some '\r' then line.dropLast else line

/-- The texts that the loop `for s.Scan() { line := s.Text() ... }` visits
when `s` is `bufio.NewScanner` of a file, as in the twelve loops of `main.go`:
no loop sets a buffer or reads `s.Err()`. The file is given line by line, a
line being the bytes before a line feed, or the bytes after the last line feed
when there are any. A line and its line feed have to fit into the buffer of
`maxScanTokenSize` bytes: at the first line of `maxScanTokenSize` bytes or
more `Scan` gives `false`, so the loop ends and neither that line nor a line
after it is visited. -/
def scanLines : List GoString → List GoString
  | [] => []
  | line :: rest =>
    if line.length < maxScanTokenSize then dropCR line :: scanLines rest else []

/-! ## psRNAFunc -/

structure psRNAStruct where
  miRNA : GoString
  target : GoString
  evalue : Float64
  targetStart : GoInt
  targetEnd : GoInt
  miRNAAligned : GoString
  targetAligned : GoString
deriving DecidableEq, Repr

structure psRNAStructFiltered where
  miRNA : GoString
  target : GoString
  evalue : Float64
  targetStart : GoInt
  targetEnd : GoInt
  miRNAAligned : GoString
  targetAligned : GoString
deriving DecidableEq, Repr

structure extractSeq where
  target : GoString
  targetSeq : GoString
  targetcomp : GoString
  targetStart : GoInt
  targetEnd : GoInt
  upstream : GoString
  downstream : GoString
deriving DecidableEq, Repr

namespace psRNAFunc

/-- The record built from a prediction line that is not a comment. The
fields are indexed in the order of the source: 2, 6, 7, then 0, 1, 8, 9. An
index past the last field panics. -/
def lineRecord (parseFloat : GoString → Float64) (line : GoString) : Option psRNAStruct := do
  let f2 ← (split line ' ')[2]?
  let evalueMid := parseFloat f2
  let f6 ← (split line ' ')[6]?
  let targetStartMid := atoi f6
  let f7 ← (split line ' ')[7]?
  let targetEndMid := atoi f7
  let f0 ← (split line ' ')[0]?
  let f1 ← (split line ' ')[1]?
  let f8 ← (split line ' ')[8]?
  let f9 ← (split line ' ')[9]?
  pure
    { miRNA := f0, target := f1, evalue := evalueMid, targetStart := targetStartMid,
      targetEnd := targetEndMid, miRNAAligned := f8, targetAligned := f9 }

/-- The prediction loop: a line that starts with `#` is skipped, any other
line appends one record. -/
def storemiRNA (parseFloat : GoString → Float64) (lines : List GoString) :
    Option (List psRNAStruct) :=
  forRange
    (fun _ line out =>
      if hasPrefix line ['#'] then some out
      else if !hasPrefix line ['#'] then appendLit (lineRecord parseFloat line) out
      else some out)
    lines 0 []

/-- The filter loop: the records whose e-value is `<=` the cutoff are copied,
field by field, to the filtered slice. -/
def filteredmiRNA (storemiRNA : List psRNAStruct) (evalue : Float64) :
    List psRNAStructFiltered :=
  storemiRNA.foldl
    (fun out r =>
      if r.evalue.le evalue then
        out ++ [{ miRNA := r.miRNA, target := r.target, evalue := r.evalue,
                  targetStart := r.targetStart, targetEnd := r.targetEnd,
                  miRNAAligned := r.miRNAAligned, targetAligned := r.targetAligned }]
      else out)
    []

/-- The composite literal of the join, for the filtered record `r` and the
index `j` of the matching identifier: `fastSeq[j]` may be out of range, and
each of the three slices of `fastSeq[j].seq` may be out of bounds. -/
def joinLit (fastSeq : List fastPredSeq) (upstream downstream : GoInt)
    (r : psRNAStructFiltered) (j : Nat) : Option extractSeq := do
  let s ← fastSeq[j]?
  let targetSeq ← slice s.seq r.targetStart r.targetEnd
  let up ← slice s.seq (subInt r.targetStart upstream) r.targetEnd
  let down ← slice s.seq r.targetEnd (addInt r.targetEnd downstream)
  pure
    { target := r.target, targetSeq := targetSeq, targetStart := r.targetStart,
      targetEnd := r.targetEnd, targetcomp := s.seq, upstream := up, downstream := down }

/-- The join loop: every filtered record is compared with every identifier,
and each pair with equal strings appends one joined record. -/
def targetExtract (fastID : List fastPredID) (fastSeq : List fastPredSeq)
    (filteredmiRNA : List psRNAStructFiltered) (upstream downstream : GoInt) :
    Option (List extractSeq) :=
  forRange
    (fun _ r out =>
      forRange
        (fun j f out =>
          if r.target = f.id then appendLit (joinLit fastSeq upstream downstream r j) out
          else some out)
        fastID 0 out)
    filteredmiRNA 0 []

/-- The analyzer up to the joined records: load the FASTA file, parse the
predictions, filter, join. -/
def run (parseFloat : GoString → Float64) (fastaLines predLines : List GoString)
    (evalue : Float64) (upstream downstream : GoInt) : Option (List extractSeq) :=
  match storemiRNA parseFloat predLines with
  | none => none
  | some store =>
    targetExtract (fastaRead fastaLines).1 (fastaRead fastaLines).2
      (filteredmiRNA store evalue) upstream downstream

end psRNAFunc

/-! ## tapirFunc -/

structure tapirExtract where
  tapid : GoString
  tapseq : GoString
  tapcomp : GoString
  upstream : GoString
  downstream : GoString
deriving DecidableEq, Repr

namespace tapirFunc

/-- The composite literal of the join, for the index `i` of the target name
`t` and the index `j` of the matching identifier: `fastSeq[j]`, `start[i]` and
`end[i]` may be out of range, the slices out of bounds. -/
def joinLit (fastSeq : List fastPredSeq) (start end_ : List GoInt) (upstream downstream : GoInt)
    (i : Nat) (t : GoString) (j : Nat) : Option tapirExtract := do
  let s ← fastSeq[j]?
  let st ← start[i]?
  let en ← end_[i]?
  let tapseq ← slice s.seq st en
  let up ← slice s.seq (subInt st upstream) st
  let down ← slice s.seq en (addInt en downstream)
  pure { tapid := t, tapseq := tapseq, tapcomp := s.seq, upstream := up, downstream := down }

/-- The join loop over the slices `target`, `start` and `end`. -/
def tapSeq (fastID : List fastPredID) (fastSeq : List fastPredSeq) (target : List GoString)
    (start end_ : List GoInt) (upstream downstream : GoInt) : Option (List tapirExtract) :=
  forRange
    (fun i t out =>
      forRange
        (fun j f out =>
          if t = f.id then
            appendLit (joinLit fastSeq start end_ upstream downstream i t j) out
          else some out)
        fastID 0 out)
    target 0 []

end tapirFunc

/-! ## psRNAMapFunc -/

structure psRNAfunc where
  id : GoString
  ref : GoString
  strand : GoString
  start : GoInt
  stop : GoInt
  read : GoString
deriving DecidableEq, Repr

structure readMapSeq where
  read : GoString
  start : GoInt
  stop : GoInt
  refseq : GoString
  refcomp : GoString
  upstream : GoString
  downstream : GoString
deriving DecidableEq, Repr

namespace psRNAMapFunc

/-- The composite literal of the join, for the mapped read `r` and the index
`j` of the inner loop. -/
def joinLit (fastSeq : List fastPredSeq) (upstream downstream : GoInt)
    (r : psRNAfunc) (j : Nat) : Option readMapSeq := do
  let s ← fastSeq[j]?
  let refseq ← slice s.seq r.start r.stop
  let up ← slice s.seq (subInt r.start upstream) r.start
  let down ← slice s.seq r.stop (addInt r.stop downstream)
  pure
    { read := r.read, start := r.start, stop := r.stop, refseq := refseq,
      refcomp := s.seq, upstream := up, downstream := down }

/-- The join loop. The test reads `fastID[i]`, with the index `i` of the outer
loop, in every iteration of the inner loop; it panics when `i` is out of range
for `fastID`. -/
def readMapSeqStore (fastID : List fastPredID) (fastSeq : List fastPredSeq)
    (readMap : List psRNAfunc) (upstream downstream : GoInt) : Option (List readMapSeq) :=
  forRange
    (fun i r out =>
      forRange
        (fun j _ out =>
          match fastID[i]? with
          | none => none
          | some fi =>
            if r.id = fi.id then appendLit (joinLit fastSeq upstream downstream r j) out
            else some out)
        fastID 0 out)
    readMap 0 []

end psRNAMapFunc

/-! ## tarFunc -/

structure tarAnalyze where
  targetID : GoString
  targetSeq : GoString
  miRID : GoString
  miRSeq : GoString
  start : GoInt
  end_ : GoInt
deriving DecidableEq, Repr

structure tarSeqStore where
  targetID : GoString
  targetSeq : GoString
  miRNAID : GoString
  miRANSeq : GoString
  targetSeqComp : GoString
  targetUpstream : GoString
  targetdownStream : GoString
deriving DecidableEq, Repr

namespace tarFunc

/-- The composite literal of the join. The fields `miRNAID` and `miRANSeq`
are not set and keep the zero value, the empty string. -/
def joinLit (fastSeq : List fastPredSeq) (upstream downstream : GoInt)
    (r : tarAnalyze) (j : Nat) : Option tarSeqStore := do
  let s ← fastSeq[j]?
  let up ← slice s.seq r.start (subInt r.start upstream)
  let down ← slice s.seq r.end_ (addInt r.end_ downstream)
  pure
    { targetID := r.targetID, targetSeq := r.targetSeq, miRNAID := [], miRANSeq := [],
      targetSeqComp := s.seq, targetUpstream := up, targetdownStream := down }

/-- The join loop; the key of a record is its field `targetSeq`. -/
def tarStoreCapture (fastID : List fastPredID) (fastSeq : List fastPredSeq)
    (tarStore : List tarAnalyze) (upstream downstream : GoInt) : Option (List tarSeqStore) :=
  forRange
    (fun _ r out =>
      forRange
        (fun j f out =>
          if r.targetSeq = f.id then appendLit (joinLit fastSeq upstream downstream r j) out
          else some out)
        fastID 0 out)
    tarStore 0 []

end tarFunc

/-! ## tarFinderFunc -/

structure tarFinderCap where
  miRNA : GoString
  sequence : GoString
  start : GoInt
  end_ : GoInt
  mfe : Float64
deriving DecidableEq, Repr

structure tarFinderSeqStore where
  miRNA : GoString
  sequence : GoString
  compseq : GoString
  upstream : GoString
  downstream : GoString
deriving DecidableEq, Repr

namespace tarFinderFunc

/-- The composite literal of the join. -/
def joinLit (fastSeq : List fastPredSeq) (upstream downstream : GoInt)
    (r : tarFinderCap) (j : Nat) : Option tarFinderSeqStore := do
  let s ← fastSeq[j]?
  let up ← slice s.seq (subInt r.start upstream) r.start
  let down ← slice s.seq r.end_ (addInt r.end_ downstream)
  pure
    { miRNA := r.miRNA, sequence := r.sequence, compseq := s.seq, upstream := up,
      downstream := down }

/-- The join loop; the key of a record is its field `sequence`. -/
def tarFinderSeqAdd (fastID : List fastPredID) (fastSeq : List fastPredSeq)
    (tarFinderAdd : List tarFinderCap) (upstream downstream : GoInt) :
    Option (List tarFinderSeqStore) :=
  forRange
    (fun _ r out =>
      forRange
        (fun j f out =>
          if r.sequence = f.id then appendLit (joinLit fastSeq upstream downstream r j) out
          else some out)
        fastID 0 out)
    tarFinderAdd 0 []

end tarFinderFunc

/-! ## psRobotFunc -/

structure psRobotCapture where
  query : GoString
  score : Float64
  queryStart : GoInt
  queryEnd : GoInt
  subjectStart : GoInt
  subjectEnd : GoInt
deriving DecidableEq, Repr

structure psRobotSeq where
  query : GoString
  score : Float64
  subjectString : GoString
  subjectComp : GoString
  upstream : GoString
  downstream : GoString
deriving DecidableEq, Repr

namespace psRobotFunc

/-- The composite literal of the join. -/
def joinLit (fastSeq : List fastPredSeq) (upstream downstream : GoInt)
    (r : psRobotCapture) (j : Nat) : Option psRobotSeq := do
  let s ← fastSeq[j]?
  let subjectString ← slice s.seq r.subjectStart r.subjectEnd
  let up ← slice s.seq (subInt r.subjectStart upstream) r.subjectStart
  let down ← slice s.seq r.subjectEnd (addInt r.subjectEnd downstream)
  pure
    { query := r.query, score := r.score, subjectString := subjectString,
      subjectComp := s.seq, upstream := up, downstream := down }

/-- The join loop; the key of a record is its field `query`. -/
def finalpsRobotSeq (fastID : List fastPredID) (fastSeq : List fastPredSeq)
    (psRobotC : List psRobotCapture) (upstream downstream : GoInt) : Option (List psRobotSeq) :=
  forRange
    (fun _ r out =>
      forRange
        (fun j f out =>
          if f.id = r.query then appendLit (joinLit fastSeq upstream downstream r j) out
          else some out)
        fastID 0 out)
    psRobotC 0 []

end psRobotFunc

/-! ## The error of `strconv.Atoi` -/

/-- The two kinds of error of `strconv.Atoi`. -/
inductive NumError where
  | ErrSyntax
  | ErrRange
deriving DecidableEq, Repr

/-- The error of `strconv.ParseInt(s, 10, 0)` from the sign and the result of
the digit loop; `none` is the `nil` error. -/
def parseIntErr (neg : Bool) : Option (Option Nat) → Option NumError
  | none => some NumError.ErrSyntax
  | some none => some NumError.ErrRange
  | some (some un) =>
    if !neg && decide (un ≥ 2 ^ 63) then some NumError.ErrRange
    else if neg && decide (un > 2 ^ 63) then some NumError.ErrRange
    else none

/-- The error `err` of `v, err := strconv.Atoi(s)`, which the analyzers
discard. -/
def atoiErr (s : GoString) : Option NumError :=
  match s with
  | [] => some NumError.ErrSyntax
  | c :: cs =>
    if c = '+' then
      (if cs = [] then some NumError.ErrSyntax else parseIntErr false (parseUintLoop cs 0))
    else if c = '-' then
      (if cs = [] then some NumError.ErrSyntax else parseIntErr true (parseUintLoop cs 0))
    else parseIntErr false (parseUintLoop (c :: cs) 0)

/-! ## The parsers and the writer -/

/-- The record built from a TargetFinder line. The fields are indexed in the
order of the source: 15, 16, 18, then 0 and 11. An index past the last field
panics. -/
def tarFinderFunc.lineRecord (parseFloat : GoString → Float64) (line : GoString) :
    Option tarFinderCap := do
  let f15 ← (split line ' ')[15]?
  let startConvert := atoi f15
  let f16 ← (split line ' ')[16]?
  let endConvert := atoi f16
  let f18 ← (split line ' ')[18]?
  let mfeConvert := parseFloat f18
  let f0 ← (split line ' ')[0]?
  let f11 ← (split line ' ')[11]?
  pure
    { miRNA := f0, sequence := f11, start := startConvert, end_ := endConvert,
      mfe := mfeConvert }

/-- The TargetFinder prediction loop: every line appends one record. -/
def tarFinderFunc.tarFinderAdd (parseFloat : GoString → Float64) (lines : List GoString) :
    Option (List tarFinderCap) :=
  forRange (fun _ line out => appendLit (tarFinderFunc.lineRecord parseFloat line) out)
    lines 0 []

/-- The record built from a TarHunter line. The fields are indexed in the
order of the source: 9, 10, then 0, 1, 2 and 3; field 1 is the join key. -/
def tarFunc.lineRecord (line : GoString) : Option tarAnalyze := do
  let f9 ← (split line ' ')[9]?
  let startAppend := atoi f9
  let f10 ← (split line ' ')[10]?
  let endAppend := atoi f10
  let f0 ← (split line ' ')[0]?
  let f1 ← (split line ' ')[1]?
  let f2 ← (split line ' ')[2]?
  let f3 ← (split line ' ')[3]?
  pure
    { targetID := f0, targetSeq := f1, miRID := f2, miRSeq := f3, start := startAppend,
      end_ := endAppend }

/-- The TarHunter prediction loop: every line appends one record. -/
def tarFunc.tarStore (lines : List GoString) : Option (List tarAnalyze) :=
  forRange (fun _ line out => appendLit (tarFunc.lineRecord line) out) lines 0 []

/-- The argument of the `WriteString` call for one joined psRNATarget record. -/
def psRNAFunc.writeArg (r : extractSeq) : GoString :=
  r.target ++ ['\t'] ++ ['>'] ++ r.targetSeq ++ ['\t'] ++ r.targetcomp ++ ['\t'] ++
    r.upstream ++ ['\t'] ++ r.downstream

/-- The text of `psRNANeural.fasta` after the write loop: the file is created
empty and each `WriteString` call appends its argument. -/
def psRNAFunc.written (targetExtract : List extractSeq) : GoString :=
  targetExtract.foldl (fun file r => file ++ psRNAFunc.writeArg r) []

/-- The six slices that the TAPIR prediction loop fills. -/
structure tapirFunc.Parsed where
  target : List GoString
  miRNA : List GoString
  score : List GoInt
  mfe : List GoInt
  start : List GoInt
  end_ : List GoInt
deriving DecidableEq, Repr

/-- The statement `if strings.HasPrefix(line, "target")` of the TAPIR loop. -/
def tapirFunc.targetStep (st : tapirFunc.Parsed) (line : GoString) : Option tapirFunc.Parsed :=
  if hasPrefix line "target".toList then
    ((split line ' ')[1]?).bind (fun f => some { st with target := st.target ++ [f] })
  else some st

/-- The statement `if strings.HasPrefix(line, "miRNA")` of the TAPIR loop. -/
def tapirFunc.miRNAStep (st : tapirFunc.Parsed) (line : GoString) : Option tapirFunc.Parsed :=
  if hasPrefix line "miRNA".toList then
    ((split line ':')[3]?).bind
      (fun a => ((split a '=')[2]?).bind (fun b => some { st with miRNA := st.miRNA ++ [b] }))
  else some st

/-- The statement `if strings.HasPrefix(line, "score")` of the TAPIR loop. -/
def tapirFunc.scoreStep (st : tapirFunc.Parsed) (line : GoString) : Option tapirFunc.Parsed :=
  if hasPrefix line "score".toList then
    ((split line ' ')[1]?).bind (fun f => some { st with score := st.score ++ [atoi f] })
  else some st

/-- The statement `if strings.HasPrefix(line, "mfe")` of the TAPIR loop. -/
def tapirFunc.mfeStep (st : tapirFunc.Parsed) (line : GoString) : Option tapirFunc.Parsed :=
  if hasPrefix line "mfe".toList then
    ((split line ' ')[1]?).bind (fun f => some { st with mfe := st.mfe ++ [atoi f] })
  else some st

/-- The statement `if strings.HasPrefix(line, "start")` of the TAPIR loop. -/
def tapirFunc.startStep (st : tapirFunc.Parsed) (line : GoString) : Option tapirFunc.Parsed :=
  if hasPrefix line "start".toList then
    ((split line ' ')[1]?).bind (fun f => some { st with start := st.start ++ [atoi f] })
  else some st

/-- The statement `if strings.HasPrefix(line, "target_5'")` of the TAPIR loop:
the end coordinate is the length of field 1. -/
def tapirFunc.endStep (st : tapirFunc.Parsed) (line : GoString) : Option tapirFunc.Parsed :=
  if hasPrefix line "target_5'".toList then
    ((split line ' ')[1]?).bind
      (fun f => some { st with end_ := st.end_ ++ [wrapInt f.length] })
  else some st

/-- One iteration of the TAPIR prediction loop: the six `if` statements in a
row, one per line prefix; a line may satisfy more than one of them. -/
def tapirFunc.scanLine (st : tapirFunc.Parsed) (line : GoString) : Option tapirFunc.Parsed :=
  (tapirFunc.targetStep st line).bind fun st1 =>
  (tapirFunc.miRNAStep st1 line).bind fun st2 =>
  (tapirFunc.scoreStep st2 line).bind fun st3 =>
  (tapirFunc.mfeStep st3 line).bind fun st4 =>
  (tapirFunc.startStep st4 line).bind fun st5 =>
  tapirFunc.endStep st5 line

/-- The TAPIR prediction loop, from the six empty slices. -/
def tapirFunc.scan : List GoString → tapirFunc.Parsed → Option tapirFunc.Parsed
  | [], st => some st
  | line :: rest, st =>
    match tapirFunc.scanLine st line with
    | none => none
    | some st1 => tapirFunc.scan rest st1

/-- The TAPIR analyzer up to the joined records: parse the predictions, load
the FASTA file, join. -/
def tapirFunc.run (fastaLines predLines : List GoString) (upstream downstream : GoInt) :
    Option (List tapirExtract) :=
  match tapirFunc.scan predLines ⟨[], [], [], [], [], []⟩ with
  | none => none
  | some p =>
    tapirFunc.tapSeq (fastaRead fastaLines).1 (fastaRead fastaLines).2 p.target p.start
      p.end_ upstream downstream

/-- The six slices that the psRobot prediction loop fills. -/
structure psRobotFunc.Sorted where
  sortedID : List GoString
  sortedScore : List Float64
  sortedQueryStart : List GoInt
  sortedQueryEnd : List GoInt
  sortedSubjectStart : List GoInt
  sortedSubjectEnd : List GoInt
deriving DecidableEq, Repr

/-- The statement `if strings.HasPrefix(line, ">")` of the psRobot loop: the
identifier is field 0 without its `>` bytes, the score is read after the colon
of field 1. -/
def psRobotFunc.headerStep (parseFloat : GoString → Float64) (st : psRobotFunc.Sorted)
    (line : GoString) : Option psRobotFunc.Sorted :=
  if hasPrefix line ['>'] then
    ((split line '\t')[0]?).bind fun capStore =>
    ((split line '\t')[1]?).bind fun f1 =>
    ((split f1 ':')[1]?).bind fun capScore =>
    some
      { st with
        sortedID := st.sortedID ++ [replaceAll capStore ['>'] []]
        sortedScore := st.sortedScore ++ [parseFloat capScore] }
  else some st

/-- The statement `if strings.HasPrefix(line, "Query")` of the psRobot loop:
field 1 of the line, split on the tab once more, is read at the indices 0 and
2. -/
def psRobotFunc.queryStep (st : psRobotFunc.Sorted) (line : GoString) :
    Option psRobotFunc.Sorted :=
  if hasPrefix line "Query".toList then
    ((split line '\t')[1]?).bind fun f1 =>
    ((split f1 '\t')[0]?).bind fun a =>
    ((split line '\t')[1]?).bind fun g1 =>
    ((split g1 '\t')[2]?).bind fun b =>
    some
      { st with
        sortedQueryStart := st.sortedQueryStart ++ [atoi a]
        sortedQueryEnd := st.sortedQueryEnd ++ [atoi b] }
  else some st

/-- The statement `if strings.HasPrefix(line, "Sbjct")` of the psRobot loop. -/
def psRobotFunc.sbjctStep (st : psRobotFunc.Sorted) (line : GoString) :
    Option psRobotFunc.Sorted :=
  if hasPrefix line "Sbjct".toList then
    ((split line '\t')[1]?).bind fun f1 =>
    ((split f1 '\t')[0]?).bind fun a =>
    ((split line '\t')[1]?).bind fun g1 =>
    ((split g1 '\t')[2]?).bind fun b =>
    some
      { st with
        sortedSubjectStart := st.sortedSubjectStart ++ [atoi a]
        sortedSubjectEnd := st.sortedSubjectEnd ++ [atoi b] }
  else some st

/-- One iteration of the psRobot prediction loop: the three `if` statements
in a row. -/
def psRobotFunc.scanLine (parseFloat : GoString → Float64) (st : psRobotFunc.Sorted)
    (line : GoString) : Option psRobotFunc.Sorted :=
  (psRobotFunc.headerStep parseFloat st line).bind fun st1 =>
  (psRobotFunc.queryStep st1 line).bind fun st2 =>
  psRobotFunc.sbjctStep st2 line

/-- The psRobot prediction loop, from the six empty slices. -/
def psRobotFunc.scan (parseFloat : GoString → Float64) :
    List GoString → psRobotFunc.Sorted → Option psRobotFunc.Sorted
  | [], st => some st
  | line :: rest, st =>
    match psRobotFunc.scanLine parseFloat st line with
    | none => none
    | some st1 => psRobotFunc.scan parseFloat rest st1

/-- The loop that builds one record per element of `sortedID`; each of the
other five slices is indexed with the same `i`, which may be out of range. -/
def psRobotFunc.psRobotC (st : psRobotFunc.Sorted) : Option (List psRobotCapture) :=
  forRange
    (fun i id out =>
      appendLit
        (do
          let score ← st.sortedScore[i]?
          let queryStart ← st.sortedQueryStart[i]?
          let queryEnd ← st.sortedQueryEnd[i]?
          let subjectStart ← st.sortedSubjectStart[i]?
          let subjectEnd ← st.sortedSubjectEnd[i]?
          pure
            { query := id, score := score, queryStart := queryStart, queryEnd := queryEnd,
              subjectStart := subjectStart, subjectEnd := subjectEnd })
        out)
    st.sortedID 0 []

/-- The psRobot parser: the prediction loop, then the records. -/
def psRobotFunc.parse (parseFloat : GoString → Float64) (lines : List GoString) :
    Option (List psRobotCapture) :=
  match psRobotFunc.scan parseFloat lines ⟨[], [], [], [], [], []⟩ with
  | none => none
  | some st => psRobotFunc.psRobotC st

/-! ## Reference descriptions used in the statements -/

/-- The filtered record `o` has the seven fields of the parsed record `r`. -/
def sameFields (o : psRNAStructFiltered) (r : psRNAStruct) : Prop :=
  o.miRNA = r.miRNA ∧ o.target = r.target ∧ o.evalue = r.evalue ∧
    o.targetStart = r.targetStart ∧ o.targetEnd = r.targetEnd ∧
    o.miRNAAligned = r.miRNAAligned ∧ o.targetAligned = r.targetAligned

/-- The string `w` is the window of `s` that starts at position `e` and has
`width` bytes: `s[e : e+width]`. -/
def IsWindowFrom (s : GoString) (e width : Int) (w : GoString) : Prop :=
  0 ≤ e ∧ 0 ≤ width ∧ e + width ≤ (s.length : Int) ∧
    w = substr s e.toNat (e + width).toNat ∧ (w.length : Int) = width

/-- The string `w` is the window of `s` that ends at position `e` and has
`width` bytes: `s[e-width : e]`. -/
def IsWindowTo (s : GoString) (e width : Int) (w : GoString) : Prop :=
  0 ≤ width ∧ 0 ≤ e - width ∧ e ≤ (s.length : Int) ∧
    w = substr s (e - width).toNat e.toNat ∧ (w.length : Int) = width

/-- The records that a loop appends when its iterations do not read the
output slice: iteration `i` on element `x` appends `g i x`, or panics. -/
def collect {α β : Type} (g : Nat → α → Option (List β)) : List α → Nat → Option (List β)
  | [], _ => some []
  | x :: xs, i =>
    (g i x).bind (fun ys => (collect g xs (i + 1)).map (fun zs => ys ++ zs))

/-- The positions, ascending, of the identifiers equal to `key`. -/
def idPositions (fastID : List fastPredID) (key : GoString) : List Nat :=
  (fastID.enum.filter (fun p => decide (key = p.2.id))).map (fun p => p.1)

/-- The pairs that a join visits with equal strings, in the order of the two
loops: each record, with its index, and the position of an identifier equal to
its key. -/
def matchedPairs {α : Type} (key : α → GoString) (recs : List α) (fastID : List fastPredID) :
    List ((Nat × α) × Nat) :=
  recs.enum.flatMap (fun r => (idPositions fastID (key r.2)).map (fun j => (r, j)))

/-- The positions `j` at which the test of the psRNA-map join holds for the
record `r` of index `i`: the test compares the id of the record with the
identifier at the same index `i`, so it holds at every `j` or at none. -/
def psRNAMapFunc.positions (fastID : List fastPredID) (i : Nat) (r : psRNAfunc) : List Nat :=
  (fastID.enum.filter
    (fun _ => decide ((fastID[i]?).map (fun f => f.id) = some r.id))).map (fun p => p.1)

/-- The pairs that the psRNA-map join visits with a true test, in the order of
the two loops. -/
def psRNAMapFunc.matchedPairs (readMap : List psRNAfunc) (fastID : List fastPredID) :
    List ((Nat × psRNAfunc) × Nat) :=
  readMap.enum.flatMap
    (fun r => (psRNAMapFunc.positions fastID r.1 r.2).map (fun j => (r, j)))

/-- The lines of a FASTA file in which each header line is followed by exactly
one sequence line: an entry is a pair (header line, sequence line). -/
def fastaLinesOf (entries : List (GoString × GoString)) : List GoString :=
  entries.flatMap (fun e => [e.1, e.2])

/-- In each entry the header line starts with `>` and the sequence line does
not. -/
def WellFormedEntries (entries : List (GoString × GoString)) : Prop :=
  ∀ e ∈ entries, hasPrefix e.1 ['>'] = true ∧ hasPrefix e.2 ['>'] = false

instance (entries : List (GoString × GoString)) : Decidable (WellFormedEntries entries) :=
  inferInstanceAs
    (Decidable (∀ e ∈ entries, hasPrefix e.1 ['>'] = true ∧ hasPrefix e.2 ['>'] = false))

/-- The entries of a FASTA file as the scanner gives them: each line without
the carriage return at its end, if it has one. -/
def scannedEntries (entries : List (GoString × GoString)) : List (GoString × GoString) :=
  entries.map (fun e => (dropCR e.1, dropCR e.2))

/-- The pairs (record with its index, entry) in which the key of the record
equals the identifier of the entry, in the order of the two loops of a join. -/
def matchedEntries {α : Type} (key : α → GoString) (recs : List α)
    (entries : List (GoString × GoString)) : List ((Nat × α) × (GoString × GoString)) :=
  recs.enum.flatMap
    (fun r =>
      (entries.filter (fun e => decide (key r.2 = replaceAll e.1 ['>'] []))).map
        (fun e => (r, e)))

/-- The sequences of a FASTA file in the words of the specification: for each
header line, in order, the concatenation of the lines that follow it up to the
next header line or the end of the file. -/
def specSequences : List GoString → List GoString
  | [] => []
  | l :: rest =>
    if hasPrefix l ['>'] then
      (rest.takeWhile (fun x => !hasPrefix x ['>'])).flatten :: specSequences rest
    else specSequences rest

/-- The identifiers of a FASTA file in the words of the specification: the
header lines, in order, each without its leading `>` marker. -/
def specIdentifiers (lines : List GoString) : List GoString :=
  (lines.filter (fun l => hasPrefix l ['>'])).map (fun l => l.drop 1)

/-! ## The data of the round-trip scenario -/

namespace Scenario

/-- The FASTA file of the scenario, line by line. -/
def fastaLines : List GoString :=
  [">seq1".toList, "ACGTACGTACGTACGT".toList, ">seq2".toList, "TTTTAAAACCCCGGGG".toList]

/-- The prediction file of the scenario: one line. -/
def predLines : List GoString :=
  ["miR1 seq1 0.2 . . . 4 8 AAUU UUAA".toList]

/-- The float64 nearest to 0.2. -/
def evalue02 : Float64 := ⟨0x3FC999999999999A⟩

/-- The e-value cutoff of the scenario, 0.5. -/
def cutoff : Float64 := ⟨0x3FE0000000000000⟩

/-- The filtered record of the scenario. -/
def filtered : psRNAStructFiltered :=
  { miRNA := "miR1".toList, target := "seq1".toList, evalue := evalue02, targetStart := 4,
    targetEnd := 8, miRNAAligned := "AAUU".toList, targetAligned := "UUAA".toList }

/-- The joined record that the code builds in the scenario. -/
def joined : extractSeq :=
  { target := "seq1".toList, targetSeq := "ACGT".toList,
    targetcomp := "ACGTACGTACGTACGT".toList, targetStart := 4, targetEnd := 8,
    upstream := "GTACGT".toList, downstream := "AC".toList }

/-- A FASTA file in which the identifier `a` occurs in two header lines. -/
def dupLines : List GoString :=
  [">a".toList, "ACGT".toList, ">a".toList, "TTTT".toList]

/-- A filtered record for the identifier `a`, with `targetStart` 1 and
`targetEnd` 2. -/
def dupRecord : psRNAStructFiltered :=
  { miRNA := "m".toList, target := "a".toList, evalue := ⟨0⟩, targetStart := 1,
    targetEnd := 2, miRNAAligned := [], targetAligned := [] }

/-- The joined records that the code builds from `dupLines` and `dupRecord`
with both widths 0: one from each of the two entries. -/
def dupJoined : List extractSeq :=
  [{ target := "a".toList, targetSeq := "C".toList, targetcomp := "ACGT".toList,
     targetStart := 1, targetEnd := 2, upstream := "C".toList, downstream := [] },
   { target := "a".toList, targetSeq := "T".toList, targetcomp := "TTTT".toList,
     targetStart := 1, targetEnd := 2, upstream := "T".toList, downstream := [] }]

/-- A FASTA file in which the entry of `a` has two sequence lines. -/
def multiLines : List GoString :=
  [">a".toList, "AC".toList, "GT".toList, ">b".toList, "TT".toList]

/-- A filtered record for the identifier `b`, with `targetStart` 0 and
`targetEnd` 2. -/
def multiRecord : psRNAStructFiltered :=
  { miRNA := "m".toList, target := "b".toList, evalue := ⟨0⟩, targetStart := 0,
    targetEnd := 2, miRNAAligned := [], targetAligned := [] }

/-- The joined record that the code builds from `multiLines` and `multiRecord`
with both widths 0. -/
def multiJoined : extractSeq :=
  { target := "b".toList, targetSeq := "GT".toList, targetcomp := "GT".toList,
    targetStart := 0, targetEnd := 2, upstream := "GT".toList, downstream := [] }

/-- A filtered record whose target is no identifier of the scenario, with
coordinates that are out of bounds for every sequence. -/
def missRecord : psRNAStructFiltered :=
  { miRNA := "miR9".toList, target := "seq9".toList, evalue := evalue02, targetStart := 100,
    targetEnd := 5, miRNAAligned := [], targetAligned := [] }

/-- A filtered record for `seq1` whose `targetStart` 1 is less than the
upstream width 2 of the scenario. -/
def lowRecord : psRNAStructFiltered :=
  { miRNA := "miR2".toList, target := "seq1".toList, evalue := evalue02, targetStart := 1,
    targetEnd := 8, miRNAAligned := [], targetAligned := [] }

/-- A psRNA-map record whose id is `seq1`, the first identifier of the
scenario. -/
def mapRecordA : psRNAfunc :=
  { id := "seq1".toList, ref := "chr1".toList, strand := "+".toList, start := 4, stop := 8,
    read := "readA".toList }

/-- A psRNA-map record whose id is `seq2`, the second identifier of the
scenario. -/
def mapRecordB : psRNAfunc :=
  { id := "seq2".toList, ref := "chr1".toList, strand := "+".toList, start := 4, stop := 8,
    read := "readB".toList }

/-- A prediction line whose field 6 is the numeral `9223372036854775808`, one
more than the largest `int`. -/
def rangeLine : GoString :=
  "miR1 seq1 0.2 . . . 9223372036854775808 8 AAUU UUAA".toList

/-- A TargetFinder line with 19 fields: the join key `seq1` in field 11, the
coordinates 4 and 8 in the fields 15 and 16, the number 0.5 in field 18. -/
def finderLine : GoString :=
  "miR1 b c d e f g h i j k seq1 m n o 4 8 r 0.5".toList

/-- A TargetFinder line with 2 fields. -/
def shortLine : GoString := "miR1 b".toList

/-- A TAPIR input of two logical records, for the targets `seq1` and `seq2`:
one line for each of the six prefixes, in the order of the claim. -/
def tapirLines : List GoString :=
  ["target seq1".toList, "miRNA a:b:c:x=y=miR1".toList, "score 4".toList, "mfe 1".toList,
   "start 2".toList, "target_5' ACGU".toList,
   "target seq2".toList, "miRNA a:b:c:x=y=miR2".toList, "score 5".toList, "mfe 1".toList,
   "start 3".toList, "target_5' ACGUAC".toList]

/-- A psRobot input of one logical record of three lines. -/
def robotLines : List GoString :=
  [">seq1	score:2.5".toList, "Query	1 UGACAGAAGAGAGUGAGCAC 20".toList,
   "Sbjct	4 ACUGUCUUCUCUCACUCGUG 24".toList]

/-- A sequence line of 70000 bytes. -/
def longLine : GoString := List.replicate 70000 'A'

/-- A sequence line of 65536 bytes, the least length that the scanner does not
take. -/
def limitLine : GoString := List.replicate 65536 'A'

end Scenario

end MicroRNA

/-! # Theorems -/

namespace MicroRNA

/-! ## Loops -/

theorem forRange_nil {α β : Type} (body : Nat → α → List β → Option (List β)) (i : Nat)
    (out : List β) : forRange body [] i out = some out := rfl

theorem forRange_cons {α β : Type} (body : Nat → α → List β → Option (List β)) (x : α)
    (xs : List α) (i : Nat) (out : List β) :
    forRange body (x :: xs) i out =
      (body i x out).bind (fun out1 => forRange body xs (i + 1) out1) := by
  simp only [forRange]
  cases body i x out <;> rfl

theorem collect_nil {α β : Type} (g : Nat → α → Option (List β)) (i : Nat) :
    collect g [] i = some [] := rfl

theorem collect_cons {α β : Type} (g : Nat → α → Option (List β)) (x : α) (xs : List α)
    (i : Nat) :
    collect g (x :: xs) i =
      (g i x).bind (fun ys => (collect g xs (i + 1)).map (fun zs => ys ++ zs)) := rfl

theorem forRange_eq_collect {α β : Type} (body : Nat → α → List β → Option (List β))
    (g : Nat → α → Option (List β))
    (h : ∀ i x out, body i x out = (g i x).map (fun ys => out ++ ys)) :
    ∀ (xs : List α) (i : Nat) (out : List β),
      forRange body xs i out = (collect g xs i).map (fun ys => out ++ ys) := by
  intro xs
  induction xs with
  | nil => intro i out; simp [forRange_nil, collect_nil]
  | cons x xs ih =>
    intro i out
    rw [forRange_cons, collect_cons, h]
    cases hg : g i x with
    | none => simp
    | some ys =>
      simp only [Option.map_some', Option.some_bind]
      rw [ih]
      cases collect g xs (i + 1) <;> simp

theorem collect_append {α β : Type} (g : Nat → α → Option (List β)) :
    ∀ (xs ys : List α) (i : Nat),
      collect g (xs ++ ys) i =
        (collect g xs i).bind
          (fun a => (collect g ys (i + xs.length)).map (fun b => a ++ b)) := by
  intro xs
  induction xs with
  | nil =>
    intro ys i
    cases h : collect g ys i <;> simp [collect_nil, h]
  | cons x xs ih =>
    intro ys i
    have e : i + (xs.length + 1) = i + 1 + xs.length := by omega
    rw [List.cons_append, collect_cons, collect_cons, List.length_cons, e, ih]
    cases g i x <;> cases collect g xs (i + 1) <;>
      cases collect g ys (i + 1 + xs.length) <;> simp

theorem collect_congr {α β : Type} (g g2 : Nat → α → Option (List β)) :
    ∀ (xs : List α) (i i2 : Nat),
      (∀ k x, xs[k]? = some x → g (i + k) x = g2 (i2 + k) x) →
      collect g xs i = collect g2 xs i2 := by
  intro xs
  induction xs with
  | nil => intro i i2 _; simp [collect_nil]
  | cons x xs ih =>
    intro i i2 h
    have h0 := h 0 x (by simp)
    have ht : collect g xs (i + 1) = collect g2 xs (i2 + 1) := by
      apply ih
      intro k y hk
      have := h (k + 1) y (by simpa using hk)
      simpa [Nat.add_assoc, Nat.add_comm 1 k] using this
    simp only [Nat.add_zero] at h0
    rw [collect_cons, collect_cons, ht, h0]

theorem collect_isSome {α β : Type} (g : Nat → α → Option (List β)) :
    ∀ (xs : List α) (i : Nat),
      (∀ k x, xs[k]? = some x → (g (i + k) x).isSome = true) →
      (collect g xs i).isSome = true := by
  intro xs
  induction xs with
  | nil => intro i _; simp [collect_nil]
  | cons x xs ih =>
    intro i h
    have h0 := h 0 x (by simp)
    have ht : (collect g xs (i + 1)).isSome = true := by
      apply ih
      intro k y hk
      have := h (k + 1) y (by simpa using hk)
      simpa [Nat.add_assoc, Nat.add_comm 1 k] using this
    simp only [Nat.add_zero] at h0
    obtain ⟨ys, hys⟩ := Option.isSome_iff_exists.mp h0
    obtain ⟨zs, hzs⟩ := Option.isSome_iff_exists.mp ht
    simp [collect_cons, hys, hzs]

theorem collect_cons_eq_some {α β : Type} (g : Nat → α → Option (List β)) (x : α)
    (xs : List α) (i : Nat) (out : List β) :
    collect g (x :: xs) i = some out ↔
      ∃ ys zs, g i x = some ys ∧ collect g xs (i + 1) = some zs ∧ out = ys ++ zs := by
  rw [collect_cons]
  cases g i x with
  | none => simp
  | some ys =>
    cases collect g xs (i + 1) with
    | none => simp
    | some zs => simp [eq_comm]

theorem collect_guard_forall2 {γ β : Type} (c : γ → Bool) (lit : Nat → Option β)
    (g : Nat → γ → Option (List β))
    (hg : ∀ j f ys, g j f = some ys →
      (c f = true ∧ ∃ o, lit j = some o ∧ ys = [o]) ∨ (c f = false ∧ ys = [])) :
    ∀ (ids : List γ) (j0 : Nat) (ys : List β), collect g ids j0 = some ys →
      List.Forall₂ (fun o j => lit j = some o) ys
        (((ids.enumFrom j0).filter (fun p => c p.2)).map (fun p => p.1)) := by
  intro ids
  induction ids with
  | nil =>
    intro j0 ys h
    simp [collect_nil] at h
    subst h
    simp
  | cons f ids ih =>
    intro j0 ys h
    obtain ⟨ys1, zs, h1, h2, rfl⟩ := (collect_cons_eq_some g f ids j0 ys).mp h
    have iht := ih (j0 + 1) zs h2
    rcases hg j0 f ys1 h1 with ⟨hc, o, ho, rfl⟩ | ⟨hc, rfl⟩
    · simp only [List.enumFrom_cons, List.filter_cons, hc, if_true, List.map_cons,
        List.singleton_append]
      exact List.Forall₂.cons ho iht
    · simpa [List.enumFrom_cons, List.filter_cons, hc] using iht

theorem collect_forall2_flatMap {α β ι : Type} (G : Nat → α → Option (List β))
    (P : Nat → α → List ι) (R : Nat → α → β → ι → Prop)
    (hG : ∀ i r ys, G i r = some ys → List.Forall₂ (R i r) ys (P i r)) :
    ∀ (recs : List α) (i0 : Nat) (out : List β), collect G recs i0 = some out →
      List.Forall₂ (fun o (q : (Nat × α) × ι) => R q.1.1 q.1.2 o q.2) out
        ((recs.enumFrom i0).flatMap (fun ir => (P ir.1 ir.2).map (fun j => (ir, j)))) := by
  intro recs
  induction recs with
  | nil =>
    intro i0 out h
    simp [collect_nil] at h
    subst h
    simp
  | cons r recs ih =>
    intro i0 out h
    obtain ⟨ys, zs, h1, h2, rfl⟩ := (collect_cons_eq_some G r recs i0 out).mp h
    have iht := ih (i0 + 1) zs h2
    have hr := hG i0 r ys h1
    simp only [List.enumFrom_cons, List.flatMap_cons]
    refine List.rel_append ?_ iht
    rw [List.forall₂_map_right_iff]
    exact hr

/-! ## The threshold filter -/

theorem float64_le_of_eq (x c : Float64) (h : x.eq c = true) : x.le c = true := by
  simp only [Float64.eq, Float64.le, Bool.and_eq_true, decide_eq_true_eq] at h ⊢
  exact ⟨h.1, le_of_eq h.2⟩

theorem float64_not_le_of_gt (x c : Float64) (h : x.gt c = true) : x.le c = false := by
  simp only [Float64.gt, Bool.and_eq_true, decide_eq_true_eq] at h
  simp only [Float64.le, Bool.and_eq_false_iff, decide_eq_false_iff_not, not_le]
  exact Or.inr h.2

theorem filteredmiRNA_foldl (c : Float64) :
    ∀ (store : List psRNAStruct) (out : List psRNAStructFiltered),
      store.foldl
        (fun out r =>
          if r.evalue.le c then
            out ++ [{ miRNA := r.miRNA, target := r.target, evalue := r.evalue,
                      targetStart := r.targetStart, targetEnd := r.targetEnd,
                      miRNAAligned := r.miRNAAligned, targetAligned := r.targetAligned }]
          else out)
        out =
      out ++ (store.filter (fun r => r.evalue.le c)).map
        (fun r => { miRNA := r.miRNA, target := r.target, evalue := r.evalue,
                    targetStart := r.targetStart, targetEnd := r.targetEnd,
                    miRNAAligned := r.miRNAAligned, targetAligned := r.targetAligned }) := by
  intro store
  induction store with
  | nil => intro out; simp
  | cons r store ih =>
    intro out
    rw [List.foldl_cons, ih]
    by_cases h : r.evalue.le c = true
    · simp [h, List.filter_cons]
    · simp [h, List.filter_cons]

theorem filteredmiRNA_eq (store : List psRNAStruct) (c : Float64) :
    psRNAFunc.filteredmiRNA store c =
      (store.filter (fun r => r.evalue.le c)).map
        (fun r => { miRNA := r.miRNA, target := r.target, evalue := r.evalue,
                    targetStart := r.targetStart, targetEnd := r.targetEnd,
                    miRNAAligned := r.miRNAAligned, targetAligned := r.targetAligned }) := by
  unfold psRNAFunc.filteredmiRNA
  rw [filteredmiRNA_foldl]
  simp

/-- C1. The filtered slice holds, in the order of the input and with the seven
fields unchanged, exactly the parsed records whose e-value is `<=` the cutoff:
a record whose e-value `==` the cutoff is kept, a record whose e-value is `>`
the cutoff is dropped. -/
theorem psRNA_threshold_filter (store : List psRNAStruct) (c : Float64) :
    List.Forall₂ sameFields (psRNAFunc.filteredmiRNA store c)
        (store.filter (fun r => r.evalue.le c)) ∧
      (∀ r ∈ store, r.evalue.eq c = true →
        ∃ o ∈ psRNAFunc.filteredmiRNA store c, sameFields o r) ∧
      (∀ r ∈ store, r.evalue.gt c = true →
        ∀ o ∈ psRNAFunc.filteredmiRNA store c, ¬ sameFields o r) := by
  rw [filteredmiRNA_eq]
  refine ⟨?_, ?_, ?_⟩
  · rw [List.forall₂_map_left_iff]
    exact List.forall₂_same.mpr (fun r _ => ⟨rfl, rfl, rfl, rfl, rfl, rfl, rfl⟩)
  · intro r hr he
    refine ⟨_, List.mem_map.mpr ⟨r, ?_, rfl⟩, ⟨rfl, rfl, rfl, rfl, rfl, rfl, rfl⟩⟩
    exact List.mem_filter.mpr ⟨hr, float64_le_of_eq _ _ he⟩
  · intro r _ hg o ho hs
    obtain ⟨r2, hr2, rfl⟩ := List.mem_map.mp ho
    have hle := (List.mem_filter.mp hr2).2
    have he : r2.evalue = r.evalue := hs.2.2.1
    rw [he, float64_not_le_of_gt _ _ hg] at hle
    exact Bool.false_ne_true hle

/-- C1 at a concrete input: of three records with the e-values 0.2, 0.5 and
0.7, the one whose e-value equals the cutoff 0.5 is kept. -/
theorem psRNA_threshold_filter_witness :
    ∃ o ∈ psRNAFunc.filteredmiRNA
        [⟨['a'], ['t'], ⟨0x3FC999999999999A⟩, 1, 2, [], []⟩,
         ⟨['b'], ['t'], ⟨0x3FE0000000000000⟩, 3, 4, [], []⟩,
         ⟨['c'], ['t'], ⟨0x3FE6666666666666⟩, 5, 6, [], []⟩]
        ⟨0x3FE0000000000000⟩,
      sameFields o ⟨['b'], ['t'], ⟨0x3FE0000000000000⟩, 3, 4, [], []⟩ :=
  (psRNA_threshold_filter
    [⟨['a'], ['t'], ⟨0x3FC999999999999A⟩, 1, 2, [], []⟩,
     ⟨['b'], ['t'], ⟨0x3FE0000000000000⟩, 3, 4, [], []⟩,
     ⟨['c'], ['t'], ⟨0x3FE6666666666666⟩, 5, 6, [], []⟩]
    ⟨0x3FE0000000000000⟩).2.1 _ (by decide) (by decide)

/-! ## The join loops -/

theorem forRange_join {α γ β : Type} (c : Nat → α → Nat → γ → Prop)
    [∀ i r j f, Decidable (c i r j f)] (lit : Nat → α → Nat → γ → Option β)
    (ids : List γ) (recs : List α) (i0 : Nat) :
    forRange
        (fun i r out =>
          forRange
            (fun j f out => if c i r j f then appendLit (lit i r j f) out else some out)
            ids 0 out)
        recs i0 [] =
      collect
        (fun i r =>
          collect (fun j f => if c i r j f then (lit i r j f).map (fun o => [o]) else some [])
            ids 0)
        recs i0 := by
  rw [forRange_eq_collect _
    (fun i r =>
      collect (fun j f => if c i r j f then (lit i r j f).map (fun o => [o]) else some [])
        ids 0)]
  · cases collect
      (fun i r =>
        collect (fun j f => if c i r j f then (lit i r j f).map (fun o => [o]) else some [])
          ids 0)
      recs i0 <;> simp
  · intro i r out
    apply forRange_eq_collect
    intro j f out
    by_cases h : c i r j f
    · cases hl : lit i r j f <;> simp [h, hl, appendLit]
    · simp [h]

theorem psRNA_targetExtract_eq (ids : List fastPredID) (seqs : List fastPredSeq)
    (recs : List psRNAStructFiltered) (up down : GoInt) :
    psRNAFunc.targetExtract ids seqs recs up down =
      collect
        (fun _ r =>
          collect
            (fun j f =>
              if r.target = f.id then
                (psRNAFunc.joinLit seqs up down r j).map (fun o => [o])
              else some [])
            ids 0)
        recs 0 :=
  forRange_join (fun _ (r : psRNAStructFiltered) _ (f : fastPredID) => r.target = f.id)
    (fun _ r j _ => psRNAFunc.joinLit seqs up down r j) ids recs 0

theorem tapir_tapSeq_eq (ids : List fastPredID) (seqs : List fastPredSeq)
    (target : List GoString) (start end_ : List GoInt) (up down : GoInt) :
    tapirFunc.tapSeq ids seqs target start end_ up down =
      collect
        (fun i t =>
          collect
            (fun j f =>
              if t = f.id then
                (tapirFunc.joinLit seqs start end_ up down i t j).map (fun o => [o])
              else some [])
            ids 0)
        target 0 :=
  forRange_join (fun _ (t : GoString) _ (f : fastPredID) => t = f.id)
    (fun i t j _ => tapirFunc.joinLit seqs start end_ up down i t j) ids target 0

theorem tarFunc_tarStoreCapture_eq (ids : List fastPredID) (seqs : List fastPredSeq)
    (recs : List tarAnalyze) (up down : GoInt) :
    tarFunc.tarStoreCapture ids seqs recs up down =
      collect
        (fun _ r =>
          collect
            (fun j f =>
              if r.targetSeq = f.id then
                (tarFunc.joinLit seqs up down r j).map (fun o => [o])
              else some [])
            ids 0)
        recs 0 :=
  forRange_join (fun _ (r : tarAnalyze) _ (f : fastPredID) => r.targetSeq = f.id)
    (fun _ r j _ => tarFunc.joinLit seqs up down r j) ids recs 0

theorem tarFinder_tarFinderSeqAdd_eq (ids : List fastPredID) (seqs : List fastPredSeq)
    (recs : List tarFinderCap) (up down : GoInt) :
    tarFinderFunc.tarFinderSeqAdd ids seqs recs up down =
      collect
        (fun _ r =>
          collect
            (fun j f =>
              if r.sequence = f.id then
                (tarFinderFunc.joinLit seqs up down r j).map (fun o => [o])
              else some [])
            ids 0)
        recs 0 :=
  forRange_join (fun _ (r : tarFinderCap) _ (f : fastPredID) => r.sequence = f.id)
    (fun _ r j _ => tarFinderFunc.joinLit seqs up down r j) ids recs 0

theorem psRobot_finalpsRobotSeq_eq (ids : List fastPredID) (seqs : List fastPredSeq)
    (recs : List psRobotCapture) (up down : GoInt) :
    psRobotFunc.finalpsRobotSeq ids seqs recs up down =
      collect
        (fun _ r =>
          collect
            (fun j f =>
              if f.id = r.query then
                (psRobotFunc.joinLit seqs up down r j).map (fun o => [o])
              else some [])
            ids 0)
        recs 0 :=
  forRange_join (fun _ (r : psRobotCapture) _ (f : fastPredID) => f.id = r.query)
    (fun _ r j _ => psRobotFunc.joinLit seqs up down r j) ids recs 0

theorem psRNAMap_readMapSeqStore_eq (ids : List fastPredID) (seqs : List fastPredSeq)
    (recs : List psRNAfunc) (up down : GoInt) :
    psRNAMapFunc.readMapSeqStore ids seqs recs up down =
      collect
        (fun i r =>
          collect
            (fun j _ =>
              match ids[i]? with
              | none => none
              | some fi =>
                if r.id = fi.id then
                  (psRNAMapFunc.joinLit seqs up down r j).map (fun o => [o])
                else some [])
            ids 0)
        recs 0 := by
  unfold psRNAMapFunc.readMapSeqStore
  rw [forRange_eq_collect _
    (fun i r =>
      collect
        (fun j _ =>
          match ids[i]? with
          | none => none
          | some fi =>
            if r.id = fi.id then (psRNAMapFunc.joinLit seqs up down r j).map (fun o => [o])
            else some [])
        ids 0)]
  · cases collect
      (fun i r =>
        collect
          (fun j _ =>
            match ids[i]? with
            | none => none
            | some fi =>
              if r.id = fi.id then (psRNAMapFunc.joinLit seqs up down r j).map (fun o => [o])
              else some [])
          ids 0)
      recs 0 <;> simp
  · intro i r out
    apply forRange_eq_collect
    intro j f out
    cases ids[i]? with
    | none => simp
    | some fi =>
      by_cases h : r.id = fi.id
      · cases hl : psRNAMapFunc.joinLit seqs up down r j <;> simp [h, hl, appendLit]
      · simp [h]

theorem guard_lit_cases {β : Type} (p : Prop) [Decidable p] (lit : Option β) (ys : List β)
    (h : (if p then lit.map (fun o => [o]) else some []) = some ys) :
    (decide p = true ∧ ∃ o, lit = some o ∧ ys = [o]) ∨ (decide p = false ∧ ys = []) := by
  by_cases hp : p
  · rw [if_pos hp] at h
    cases hl : lit with
    | none => rw [hl] at h; simp at h
    | some o =>
      rw [hl] at h
      simp only [Option.map_some', Option.some.injEq] at h
      exact Or.inl ⟨by simpa using hp, o, rfl, h.symm⟩
  · rw [if_neg hp] at h
    simp only [Option.some.injEq] at h
    exact Or.inr ⟨by simpa using hp, h.symm⟩

theorem collect_join_forall2 {α β : Type} (key : α → GoString) (c : α → fastPredID → Prop)
    [∀ r f, Decidable (c r f)] (hc : ∀ r f, c r f ↔ key r = f.id)
    (lit : Nat → α → Nat → Option β) (ids : List fastPredID) (recs : List α)
    (out : List β)
    (h : collect
        (fun i r =>
          collect (fun j f => if c r f then (lit i r j).map (fun o => [o]) else some [])
            ids 0)
        recs 0 = some out) :
    List.Forall₂ (fun o (q : (Nat × α) × Nat) => lit q.1.1 q.1.2 q.2 = some o) out
      (matchedPairs key recs ids) := by
  unfold matchedPairs
  rw [List.enum]
  refine collect_forall2_flatMap _ (fun _ r => idPositions ids (key r))
    (fun i r o j => lit i r j = some o) ?_ recs 0 out h
  intro i r ys hys
  unfold idPositions
  rw [List.enum]
  refine collect_guard_forall2 (fun f => decide (key r = f.id)) (lit i r) _ ?_ ids 0 ys hys
  intro j f zs hz
  have := guard_lit_cases (c r f) (lit i r j) zs hz
  simpa [hc] using this

theorem collect_guard_isSome {γ β : Type} (c : γ → Prop) [∀ f, Decidable (c f)]
    (lit : Nat → Option β) (ids : List γ) (j0 : Nat)
    (h : ∀ k f, ids[k]? = some f → c f → (lit (j0 + k)).isSome = true) :
    (collect (fun j f => if c f then (lit j).map (fun o => [o]) else some []) ids j0).isSome
      = true := by
  apply collect_isSome
  intro k f hk
  by_cases hcf : c f
  · have := h k f hk hcf
    obtain ⟨o, ho⟩ := Option.isSome_iff_exists.mp this
    simp [hcf, ho]
  · simp [hcf]

theorem collect_guard_none {γ β : Type} (c : γ → Prop) [∀ f, Decidable (c f)]
    (lit : Nat → Option β) :
    ∀ (ids : List γ) (j0 : Nat), (∀ f ∈ ids, ¬ c f) →
      collect (fun j f => if c f then (lit j).map (fun o => [o]) else some []) ids j0
        = some [] := by
  intro ids
  induction ids with
  | nil => intro j0 _; rfl
  | cons f ids ih =>
    intro j0 h
    have hf : ¬ c f := h f (by simp)
    have ht := ih (j0 + 1) (fun g hg => h g (by simp [hg]))
    rw [collect_cons, ht]
    simp [hf]

/-! ## Slices -/

theorem slice_eq_some (s : GoString) (lo hi : GoInt) (w : GoString) :
    slice s lo hi = some w ↔
      (0 ≤ lo.val ∧ lo.val ≤ hi.val ∧ hi.val ≤ (s.length : Int)) ∧
        w = substr s lo.val.toNat hi.val.toNat := by
  unfold slice
  by_cases h : 0 ≤ lo.val ∧ lo.val ≤ hi.val ∧ hi.val ≤ (s.length : Int)
  · rw [if_pos h]
    constructor
    · intro hw
      exact ⟨h, (Option.some.inj hw).symm⟩
    · intro hw
      rw [hw.2]
  · rw [if_neg h]
    constructor
    · intro hw
      exact absurd hw (by simp)
    · intro hw
      exact absurd hw.1 h

theorem slice_isSome (s : GoString) (lo hi : GoInt) :
    (slice s lo hi).isSome = true ↔
      0 ≤ lo.val ∧ lo.val ≤ hi.val ∧ hi.val ≤ (s.length : Int) := by
  unfold slice
  by_cases h : 0 ≤ lo.val ∧ lo.val ≤ hi.val ∧ hi.val ≤ (s.length : Int)
  · rw [if_pos h]
    exact ⟨fun _ => h, fun _ => rfl⟩
  · rw [if_neg h]
    exact ⟨fun hw => absurd hw (by simp), fun hw => absurd hw h⟩

theorem substr_length (s : GoString) (lo hi : Nat) (h1 : lo ≤ hi) (h2 : hi ≤ s.length) :
    (substr s lo hi).length = hi - lo := by
  unfold substr
  rw [List.length_take, List.length_drop]
  omega

theorem addInt_val (a b : GoInt) :
    (addInt a b).val = (a.val + b.val + 2 ^ 63) % 2 ^ 64 - 2 ^ 63 := rfl

theorem subInt_val (a b : GoInt) :
    (subInt a b).val = (a.val - b.val + 2 ^ 63) % 2 ^ 64 - 2 ^ 63 := rfl

theorem slice_addInt_window (s : GoString) (e d : GoInt) (w : GoString)
    (h : slice s e (addInt e d) = some w) : IsWindowFrom s e.val d.val w := by
  obtain ⟨⟨h0, h1, h2⟩, hw⟩ := (slice_eq_some s e (addInt e d) w).mp h
  have he := e.property
  have hd := d.property
  have hv : (addInt e d).val = e.val + d.val := by
    rw [addInt_val] at h1 ⊢
    omega
  rw [hv] at h1 h2 hw
  refine ⟨h0, by omega, h2, hw, ?_⟩
  rw [hw, substr_length _ _ _ (by omega) (by omega)]
  omega

theorem slice_subInt_window (s : GoString) (e u : GoInt) (w : GoString)
    (h : slice s (subInt e u) e = some w) : IsWindowTo s e.val u.val w := by
  obtain ⟨⟨h0, h1, h2⟩, hw⟩ := (slice_eq_some s (subInt e u) e w).mp h
  have he := e.property
  have hu := u.property
  have hv : (subInt e u).val = e.val - u.val := by
    rw [subInt_val] at h0 h1 ⊢
    omega
  rw [hv] at h0 h1 hw
  refine ⟨by omega, h0, h2, hw, ?_⟩
  rw [hw, substr_length _ _ _ (by omega) (by omega)]
  omega

/-! ## The composite literals of the joins -/

theorem psRNA_joinLit_eq_some (seqs : List fastPredSeq) (up down : GoInt)
    (r : psRNAStructFiltered) (j : Nat) (o : extractSeq) :
    psRNAFunc.joinLit seqs up down r j = some o ↔
      ∃ s, seqs[j]? = some s ∧
        ∃ core, slice s.seq r.targetStart r.targetEnd = some core ∧
        ∃ u, slice s.seq (subInt r.targetStart up) r.targetEnd = some u ∧
        ∃ d, slice s.seq r.targetEnd (addInt r.targetEnd down) = some d ∧
          { target := r.target, targetSeq := core, targetStart := r.targetStart,
            targetEnd := r.targetEnd, targetcomp := s.seq, upstream := u,
            downstream := d } = o := by
  simp only [psRNAFunc.joinLit, Option.bind_eq_bind, Option.bind_eq_some, Option.pure_def,
    Option.some.injEq]

theorem tapir_joinLit_eq_some (seqs : List fastPredSeq) (start end_ : List GoInt)
    (up down : GoInt) (i : Nat) (t : GoString) (j : Nat) (o : tapirExtract) :
    tapirFunc.joinLit seqs start end_ up down i t j = some o ↔
      ∃ s, seqs[j]? = some s ∧
        ∃ st, start[i]? = some st ∧
        ∃ en, end_[i]? = some en ∧
        ∃ core, slice s.seq st en = some core ∧
        ∃ u, slice s.seq (subInt st up) st = some u ∧
        ∃ d, slice s.seq en (addInt en down) = some d ∧
          { tapid := t, tapseq := core, tapcomp := s.seq, upstream := u,
            downstream := d } = o := by
  simp only [tapirFunc.joinLit, Option.bind_eq_bind, Option.bind_eq_some, Option.pure_def,
    Option.some.injEq]

theorem psRNAMap_joinLit_eq_some (seqs : List fastPredSeq) (up down : GoInt)
    (r : psRNAfunc) (j : Nat) (o : readMapSeq) :
    psRNAMapFunc.joinLit seqs up down r j = some o ↔
      ∃ s, seqs[j]? = some s ∧
        ∃ core, slice s.seq r.start r.stop = some core ∧
        ∃ u, slice s.seq (subInt r.start up) r.start = some u ∧
        ∃ d, slice s.seq r.stop (addInt r.stop down) = some d ∧
          { read := r.read, start := r.start, stop := r.stop, refseq := core,
            refcomp := s.seq, upstream := u, downstream := d } = o := by
  simp only [psRNAMapFunc.joinLit, Option.bind_eq_bind, Option.bind_eq_some,
    Option.pure_def, Option.some.injEq]

theorem tarFunc_joinLit_eq_some (seqs : List fastPredSeq) (up down : GoInt)
    (r : tarAnalyze) (j : Nat) (o : tarSeqStore) :
    tarFunc.joinLit seqs up down r j = some o ↔
      ∃ s, seqs[j]? = some s ∧
        ∃ u, slice s.seq r.start (subInt r.start up) = some u ∧
        ∃ d, slice s.seq r.end_ (addInt r.end_ down) = some d ∧
          { targetID := r.targetID, targetSeq := r.targetSeq, miRNAID := [],
            miRANSeq := [], targetSeqComp := s.seq, targetUpstream := u,
            targetdownStream := d } = o := by
  simp only [tarFunc.joinLit, Option.bind_eq_bind, Option.bind_eq_some, Option.pure_def,
    Option.some.injEq]

theorem tarFinder_joinLit_eq_some (seqs : List fastPredSeq) (up down : GoInt)
    (r : tarFinderCap) (j : Nat) (o : tarFinderSeqStore) :
    tarFinderFunc.joinLit seqs up down r j = some o ↔
      ∃ s, seqs[j]? = some s ∧
        ∃ u, slice s.seq (subInt r.start up) r.start = some u ∧
        ∃ d, slice s.seq r.end_ (addInt r.end_ down) = some d ∧
          { miRNA := r.miRNA, sequence := r.sequence, compseq := s.seq, upstream := u,
            downstream := d } = o := by
  simp only [tarFinderFunc.joinLit, Option.bind_eq_bind, Option.bind_eq_some,
    Option.pure_def, Option.some.injEq]

theorem psRobot_joinLit_eq_some (seqs : List fastPredSeq) (up down : GoInt)
    (r : psRobotCapture) (j : Nat) (o : psRobotSeq) :
    psRobotFunc.joinLit seqs up down r j = some o ↔
      ∃ s, seqs[j]? = some s ∧
        ∃ core, slice s.seq r.subjectStart r.subjectEnd = some core ∧
        ∃ u, slice s.seq (subInt r.subjectStart up) r.subjectStart = some u ∧
        ∃ d, slice s.seq r.subjectEnd (addInt r.subjectEnd down) = some d ∧
          { query := r.query, score := r.score, subjectString := core,
            subjectComp := s.seq, upstream := u, downstream := d } = o := by
  simp only [psRobotFunc.joinLit, Option.bind_eq_bind, Option.bind_eq_some,
    Option.pure_def, Option.some.injEq]

/-! ## The joined records, pair by pair -/

theorem psRNA_join_pairs (ids : List fastPredID) (seqs : List fastPredSeq)
    (recs : List psRNAStructFiltered) (up down : GoInt) (out : List extractSeq)
    (h : psRNAFunc.targetExtract ids seqs recs up down = some out) :
    List.Forall₂
      (fun o (q : (Nat × psRNAStructFiltered) × Nat) =>
        psRNAFunc.joinLit seqs up down q.1.2 q.2 = some o)
      out (matchedPairs (fun r => r.target) recs ids) := by
  rw [psRNA_targetExtract_eq] at h
  exact collect_join_forall2 (fun r => r.target)
    (fun (r : psRNAStructFiltered) (f : fastPredID) => r.target = f.id)
    (fun _ _ => Iff.rfl) (fun _ r j => psRNAFunc.joinLit seqs up down r j) ids recs out h

theorem tapir_join_pairs (ids : List fastPredID) (seqs : List fastPredSeq)
    (target : List GoString) (start end_ : List GoInt) (up down : GoInt)
    (out : List tapirExtract)
    (h : tapirFunc.tapSeq ids seqs target start end_ up down = some out) :
    List.Forall₂
      (fun o (q : (Nat × GoString) × Nat) =>
        tapirFunc.joinLit seqs start end_ up down q.1.1 q.1.2 q.2 = some o)
      out (matchedPairs (fun t => t) target ids) := by
  rw [tapir_tapSeq_eq] at h
  exact collect_join_forall2 (fun t => t)
    (fun (t : GoString) (f : fastPredID) => t = f.id)
    (fun _ _ => Iff.rfl) (fun i t j => tapirFunc.joinLit seqs start end_ up down i t j)
    ids target out h

theorem tarFunc_join_pairs (ids : List fastPredID) (seqs : List fastPredSeq)
    (recs : List tarAnalyze) (up down : GoInt) (out : List tarSeqStore)
    (h : tarFunc.tarStoreCapture ids seqs recs up down = some out) :
    List.Forall₂
      (fun o (q : (Nat × tarAnalyze) × Nat) =>
        tarFunc.joinLit seqs up down q.1.2 q.2 = some o)
      out (matchedPairs (fun r => r.targetSeq) recs ids) := by
  rw [tarFunc_tarStoreCapture_eq] at h
  exact collect_join_forall2 (fun r => r.targetSeq)
    (fun (r : tarAnalyze) (f : fastPredID) => r.targetSeq = f.id)
    (fun _ _ => Iff.rfl) (fun _ r j => tarFunc.joinLit seqs up down r j) ids recs out h

theorem tarFinder_join_pairs (ids : List fastPredID) (seqs : List fastPredSeq)
    (recs : List tarFinderCap) (up down : GoInt) (out : List tarFinderSeqStore)
    (h : tarFinderFunc.tarFinderSeqAdd ids seqs recs up down = some out) :
    List.Forall₂
      (fun o (q : (Nat × tarFinderCap) × Nat) =>
        tarFinderFunc.joinLit seqs up down q.1.2 q.2 = some o)
      out (matchedPairs (fun r => r.sequence) recs ids) := by
  rw [tarFinder_tarFinderSeqAdd_eq] at h
  exact collect_join_forall2 (fun r => r.sequence)
    (fun (r : tarFinderCap) (f : fastPredID) => r.sequence = f.id)
    (fun _ _ => Iff.rfl) (fun _ r j => tarFinderFunc.joinLit seqs up down r j) ids recs out h

theorem psRobot_join_pairs (ids : List fastPredID) (seqs : List fastPredSeq)
    (recs : List psRobotCapture) (up down : GoInt) (out : List psRobotSeq)
    (h : psRobotFunc.finalpsRobotSeq ids seqs recs up down = some out) :
    List.Forall₂
      (fun o (q : (Nat × psRobotCapture) × Nat) =>
        psRobotFunc.joinLit seqs up down q.1.2 q.2 = some o)
      out (matchedPairs (fun r => r.query) recs ids) := by
  rw [psRobot_finalpsRobotSeq_eq] at h
  exact collect_join_forall2 (fun r => r.query)
    (fun (r : psRobotCapture) (f : fastPredID) => f.id = r.query)
    (fun _ _ => eq_comm) (fun _ r j => psRobotFunc.joinLit seqs up down r j) ids recs out h

theorem psRNAMap_join_pairs (ids : List fastPredID) (seqs : List fastPredSeq)
    (recs : List psRNAfunc) (up down : GoInt) (out : List readMapSeq)
    (h : psRNAMapFunc.readMapSeqStore ids seqs recs up down = some out) :
    List.Forall₂
      (fun o (q : (Nat × psRNAfunc) × Nat) =>
        psRNAMapFunc.joinLit seqs up down q.1.2 q.2 = some o)
      out (psRNAMapFunc.matchedPairs recs ids) := by
  rw [psRNAMap_readMapSeqStore_eq] at h
  unfold psRNAMapFunc.matchedPairs
  rw [List.enum]
  refine collect_forall2_flatMap _ (fun i r => psRNAMapFunc.positions ids i r)
    (fun _ r o j => psRNAMapFunc.joinLit seqs up down r j = some o) ?_ recs 0 out h
  intro i r ys hys
  unfold psRNAMapFunc.positions
  rw [List.enum]
  refine collect_guard_forall2
    (fun _ => decide ((ids[i]?).map (fun f => f.id) = some r.id))
    (fun j => psRNAMapFunc.joinLit seqs up down r j) _ ?_ ids 0 ys hys
  intro j f zs hz
  cases hi : ids[i]? with
  | none => rw [hi] at hz; simp at hz
  | some fi =>
    rw [hi] at hz
    have := guard_lit_cases (r.id = fi.id) (psRNAMapFunc.joinLit seqs up down r j) zs hz
    simpa [eq_comm] using this

/-! ## The psRNATarget analyzer at the scenario of the specification -/

/-- C2. The code at the input of the round-trip scenario, given that
`ParseFloat` maps `0.2` to the float64 nearest to it: the analyzer gives one
joined record for `seq1`, with the core `ACGT` and the downstream `AC`, but its
upstream field is `GTACGT`, the positions 2 to 8 of `seq1`, not the positions 2
to 4. -/
theorem psRNA_roundtrip_scenario (parseFloat : GoString → Float64)
    (h : parseFloat "0.2".toList = Scenario.evalue02) :
    psRNAFunc.run parseFloat Scenario.fastaLines Scenario.predLines Scenario.cutoff 2 2 =
        some [Scenario.joined] ∧
      Scenario.joined.target = "seq1".toList ∧
      Scenario.joined.targetSeq = "ACGT".toList ∧
      Scenario.joined.upstream = "GTACGT".toList ∧
      Scenario.joined.upstream ≠ "GT".toList ∧
      Scenario.joined.downstream = "AC".toList := by
  have hs : psRNAFunc.storemiRNA parseFloat Scenario.predLines =
      some
        [{ miRNA := "miR1".toList, target := "seq1".toList,
           evalue := parseFloat "0.2".toList, targetStart := 4, targetEnd := 8,
           miRNAAligned := "AAUU".toList, targetAligned := "UUAA".toList }] := by
    rfl
  refine ⟨?_, rfl, rfl, rfl, by decide, rfl⟩
  unfold psRNAFunc.run
  rw [hs]
  simp only [psRNAFunc.filteredmiRNA, List.foldl_cons, List.foldl_nil, h]
  decide

/-- C2 with the reference for decimal numerals in the place of `ParseFloat`. -/
theorem psRNA_roundtrip_scenario_witness :
    psRNAFunc.run (fun s => (decimalFloat s).getD ⟨0⟩) Scenario.fastaLines
        Scenario.predLines Scenario.cutoff 2 2 =
      some [Scenario.joined] :=
  (psRNA_roundtrip_scenario _ (by decide)).1

/-! ## The upstream field of the psRNATarget join -/

/-- C4 (what the code does). Each joined record of the psRNATarget join has
as its upstream field the slice `s[targetStart-upstreamWidth : targetEnd]` of
the matched sequence `s`: the slice ends at `targetEnd`, not at `targetStart`,
and has `upstreamWidth + (targetEnd - targetStart)` bytes. -/
theorem psRNA_upstream_field (ids : List fastPredID) (seqs : List fastPredSeq)
    (recs : List psRNAStructFiltered) (up down : GoInt) (out : List extractSeq)
    (h : psRNAFunc.targetExtract ids seqs recs up down = some out) :
    List.Forall₂
      (fun o (q : (Nat × psRNAStructFiltered) × Nat) =>
        ∃ s, seqs[q.2]? = some s ∧
          0 ≤ q.1.2.targetStart.val - up.val ∧
          o.upstream =
            substr s.seq (q.1.2.targetStart.val - up.val).toNat q.1.2.targetEnd.val.toNat ∧
          (o.upstream.length : Int) =
            up.val + (q.1.2.targetEnd.val - q.1.2.targetStart.val))
      out (matchedPairs (fun r => r.target) recs ids) := by
  refine (psRNA_join_pairs ids seqs recs up down out h).imp ?_
  intro o q hq
  obtain ⟨s, hs, core, hcore, u, hu, d, _, rfl⟩ :=
    (psRNA_joinLit_eq_some seqs up down q.1.2 q.2 o).mp hq
  obtain ⟨⟨c0, c1, c2⟩, _⟩ := (slice_eq_some _ _ _ _).mp hcore
  obtain ⟨⟨u0, u1, u2⟩, hw⟩ := (slice_eq_some _ _ _ _).mp hu
  have hst := q.1.2.targetStart.property
  have hup := up.property
  have hv : (subInt q.1.2.targetStart up).val = q.1.2.targetStart.val - up.val := by
    rw [subInt_val] at u0 ⊢
    omega
  rw [hv] at u0 u1 hw
  refine ⟨s, hs, u0, hw, ?_⟩
  show ((u.length : Nat) : Int) = _
  rw [hw, substr_length _ _ _ (by omega) (by omega)]
  omega

/-- C4 at the input of the scenario: the sequence `ACGTACGTACGTACGT`, a
record with `targetStart` 4 and `targetEnd` 8, and the widths 2 and 2. The
upstream field is `GTACGT`: six bytes, where the width is 2. -/
theorem psRNA_upstream_field_witness :
    List.Forall₂
      (fun (o : extractSeq) (q : (Nat × psRNAStructFiltered) × Nat) =>
        ∃ s, [(⟨"ACGTACGTACGTACGT".toList⟩ : fastPredSeq)][q.2]? = some s ∧
          0 ≤ q.1.2.targetStart.val - (2 : GoInt).val ∧
          o.upstream =
            substr s.seq (q.1.2.targetStart.val - (2 : GoInt).val).toNat
              q.1.2.targetEnd.val.toNat ∧
          (o.upstream.length : Int) =
            (2 : GoInt).val + (q.1.2.targetEnd.val - q.1.2.targetStart.val))
      [Scenario.joined]
      (matchedPairs (fun r => r.target) [Scenario.filtered] [⟨"seq1".toList⟩]) :=
  psRNA_upstream_field [⟨"seq1".toList⟩] [⟨"ACGTACGTACGTACGT".toList⟩]
    [Scenario.filtered] 2 2 [Scenario.joined] (by decide)

/-! ## The downstream window -/

/-- C5. In each of the six joins, every joined record is built from a pair
(prediction record, position `j` of an identifier) that passed the test, and
its downstream field is the window of the sequence `fastSeq[j]` that starts at
the end coordinate of the record and has `downstreamWidth` bytes. The end
coordinate is `targetEnd` (psRNATarget), `end[i]` (TAPIR), `stop` (psRNA-map),
`end` (TarHunter, TargetFinder) and `subjectEnd` (psRobot). -/
theorem downstream_window (ids : List fastPredID) (seqs : List fastPredSeq)
    (up down : GoInt) :
    (∀ (recs : List psRNAStructFiltered) (out : List extractSeq),
      psRNAFunc.targetExtract ids seqs recs up down = some out →
      List.Forall₂
        (fun o (q : (Nat × psRNAStructFiltered) × Nat) =>
          ∃ s, seqs[q.2]? = some s ∧
            IsWindowFrom s.seq q.1.2.targetEnd.val down.val o.downstream)
        out (matchedPairs (fun r => r.target) recs ids)) ∧
    (∀ (target : List GoString) (start end_ : List GoInt) (out : List tapirExtract),
      tapirFunc.tapSeq ids seqs target start end_ up down = some out →
      List.Forall₂
        (fun o (q : (Nat × GoString) × Nat) =>
          ∃ s en, seqs[q.2]? = some s ∧ end_[q.1.1]? = some en ∧
            IsWindowFrom s.seq en.val down.val o.downstream)
        out (matchedPairs (fun t => t) target ids)) ∧
    (∀ (recs : List psRNAfunc) (out : List readMapSeq),
      psRNAMapFunc.readMapSeqStore ids seqs recs up down = some out →
      List.Forall₂
        (fun o (q : (Nat × psRNAfunc) × Nat) =>
          ∃ s, seqs[q.2]? = some s ∧
            IsWindowFrom s.seq q.1.2.stop.val down.val o.downstream)
        out (psRNAMapFunc.matchedPairs recs ids)) ∧
    (∀ (recs : List tarAnalyze) (out : List tarSeqStore),
      tarFunc.tarStoreCapture ids seqs recs up down = some out →
      List.Forall₂
        (fun o (q : (Nat × tarAnalyze) × Nat) =>
          ∃ s, seqs[q.2]? = some s ∧
            IsWindowFrom s.seq q.1.2.end_.val down.val o.targetdownStream)
        out (matchedPairs (fun r => r.targetSeq) recs ids)) ∧
    (∀ (recs : List tarFinderCap) (out : List tarFinderSeqStore),
      tarFinderFunc.tarFinderSeqAdd ids seqs recs up down = some out →
      List.Forall₂
        (fun o (q : (Nat × tarFinderCap) × Nat) =>
          ∃ s, seqs[q.2]? = some s ∧
            IsWindowFrom s.seq q.1.2.end_.val down.val o.downstream)
        out (matchedPairs (fun r => r.sequence) recs ids)) ∧
    (∀ (recs : List psRobotCapture) (out : List psRobotSeq),
      psRobotFunc.finalpsRobotSeq ids seqs recs up down = some out →
      List.Forall₂
        (fun o (q : (Nat × psRobotCapture) × Nat) =>
          ∃ s, seqs[q.2]? = some s ∧
            IsWindowFrom s.seq q.1.2.subjectEnd.val down.val o.downstream)
        out (matchedPairs (fun r => r.query) recs ids)) := by
  refine ⟨?_, ?_, ?_, ?_, ?_, ?_⟩
  · intro recs out h
    refine (psRNA_join_pairs ids seqs recs up down out h).imp ?_
    intro o q hq
    obtain ⟨s, hs, _, _, _, _, d, hd, rfl⟩ :=
      (psRNA_joinLit_eq_some seqs up down q.1.2 q.2 o).mp hq
    exact ⟨s, hs, slice_addInt_window _ _ _ _ hd⟩
  · intro target start end_ out h
    refine (tapir_join_pairs ids seqs target start end_ up down out h).imp ?_
    intro o q hq
    obtain ⟨s, hs, _, _, en, hen, _, _, _, _, d, hd, rfl⟩ :=
      (tapir_joinLit_eq_some seqs start end_ up down q.1.1 q.1.2 q.2 o).mp hq
    exact ⟨s, en, hs, hen, slice_addInt_window _ _ _ _ hd⟩
  · intro recs out h
    refine (psRNAMap_join_pairs ids seqs recs up down out h).imp ?_
    intro o q hq
    obtain ⟨s, hs, _, _, _, _, d, hd, rfl⟩ :=
      (psRNAMap_joinLit_eq_some seqs up down q.1.2 q.2 o).mp hq
    exact ⟨s, hs, slice_addInt_window _ _ _ _ hd⟩
  · intro recs out h
    refine (tarFunc_join_pairs ids seqs recs up down out h).imp ?_
    intro o q hq
    obtain ⟨s, hs, _, _, d, hd, rfl⟩ :=
      (tarFunc_joinLit_eq_some seqs up down q.1.2 q.2 o).mp hq
    exact ⟨s, hs, slice_addInt_window _ _ _ _ hd⟩
  · intro recs out h
    refine (tarFinder_join_pairs ids seqs recs up down out h).imp ?_
    intro o q hq
    obtain ⟨s, hs, _, _, d, hd, rfl⟩ :=
      (tarFinder_joinLit_eq_some seqs up down q.1.2 q.2 o).mp hq
    exact ⟨s, hs, slice_addInt_window _ _ _ _ hd⟩
  · intro recs out h
    refine (psRobot_join_pairs ids seqs recs up down out h).imp ?_
    intro o q hq
    obtain ⟨s, hs, _, _, _, _, d, hd, rfl⟩ :=
      (psRobot_joinLit_eq_some seqs up down q.1.2 q.2 o).mp hq
    exact ⟨s, hs, slice_addInt_window _ _ _ _ hd⟩

/-- C5 at the input of the scenario, for the psRNATarget join: the downstream
field `AC` is the window of 2 bytes that starts at position 8. -/
theorem downstream_window_witness :
    List.Forall₂
      (fun (o : extractSeq) (q : (Nat × psRNAStructFiltered) × Nat) =>
        ∃ s, (fastaRead Scenario.fastaLines).2[q.2]? = some s ∧
          IsWindowFrom s.seq q.1.2.targetEnd.val (2 : GoInt).val o.downstream)
      [Scenario.joined]
      (matchedPairs (fun r => r.target) [Scenario.filtered]
        (fastaRead Scenario.fastaLines).1) :=
  (downstream_window (fastaRead Scenario.fastaLines).1 (fastaRead Scenario.fastaLines).2
    2 2).1 [Scenario.filtered] [Scenario.joined] (by decide)

/-! ## The FASTA loader -/

theorem fastaRead_foldl :
    ∀ (lines : List GoString) (a : List fastPredID) (b : List fastPredSeq),
      lines.foldl
        (fun st line =>
          let st1 :=
            if hasPrefix line ['>'] then (st.1 ++ [⟨replaceAll line ['>'] []⟩], st.2) else st
          if !hasPrefix line ['>'] then (st1.1, st1.2 ++ [⟨line⟩]) else st1)
        (a, b) =
      (a ++ (lines.filter (fun l => hasPrefix l ['>'])).map
          (fun l => (⟨replaceAll l ['>'] []⟩ : fastPredID)),
       b ++ (lines.filter (fun l => !hasPrefix l ['>'])).map
          (fun l => (⟨l⟩ : fastPredSeq))) := by
  intro lines
  induction lines with
  | nil => intro a b; simp
  | cons l lines ih =>
    intro a b
    rw [List.foldl_cons]
    cases h : hasPrefix l ['>'] with
    | true =>
      simp only [if_true, Bool.not_true, Bool.false_eq_true, if_false]
      rw [ih]
      simp [List.filter_cons, h]
    | false =>
      simp only [Bool.false_eq_true, if_false, Bool.not_false, if_true]
      rw [ih]
      simp [List.filter_cons, h]

theorem fastaRead_ids (lines : List GoString) :
    (fastaRead lines).1 =
      (lines.filter (fun l => hasPrefix l ['>'])).map
        (fun l => (⟨replaceAll l ['>'] []⟩ : fastPredID)) := by
  unfold fastaRead
  rw [fastaRead_foldl]
  simp

theorem fastaRead_seqs (lines : List GoString) :
    (fastaRead lines).2 =
      (lines.filter (fun l => !hasPrefix l ['>'])).map (fun l => (⟨l⟩ : fastPredSeq)) := by
  unfold fastaRead
  rw [fastaRead_foldl]
  simp

theorem replaceAllAux_cons_zero (old new : GoString) (c : Char) (cs : GoString) :
    replaceAllAux old new (c :: cs) 0 =
      if old.isPrefixOf (c :: cs) then new ++ replaceAllAux old new cs (old.length - 1)
      else c :: replaceAllAux old new cs 0 := by
  rw [replaceAllAux]

theorem isPrefixOf_single (c x : Char) (xs : GoString) :
    List.isPrefixOf [c] (x :: xs) = decide (c = x) := by
  simp only [List.isPrefixOf, Bool.and_true]
  rfl

theorem replaceAllAux_single (c : Char) :
    ∀ (s : GoString), replaceAllAux [c] [] s 0 = s.filter (fun x => decide (x ≠ c)) := by
  intro s
  induction s with
  | nil => rfl
  | cons x xs ih =>
    rw [replaceAllAux_cons_zero, isPrefixOf_single, List.filter_cons]
    by_cases h : c = x
    · subst h
      simpa using ih
    · have h2 : x ≠ c := fun e => h e.symm
      simp only [h, decide_False, Bool.false_eq_true, if_false, ne_eq, h2, not_false_eq_true,
        decide_True, if_true, ih]

theorem replaceAll_single (s : GoString) (c : Char) :
    replaceAll s [c] [] = s.filter (fun x => decide (x ≠ c)) :=
  replaceAllAux_single c s

theorem hasPrefix_single (l : GoString) (c : Char) :
    hasPrefix l [c] = true ↔ ∃ t, l = c :: t := by
  cases l with
  | nil =>
    constructor
    · intro h
      exact absurd h (by simp [hasPrefix, List.isPrefixOf])
    · rintro ⟨t, ht⟩
      exact absurd ht (by simp)
  | cons x xs =>
    unfold hasPrefix
    rw [isPrefixOf_single]
    constructor
    · intro h
      exact ⟨xs, by rw [of_decide_eq_true h]⟩
    · rintro ⟨t, ht⟩
      have := (List.cons.inj ht).1
      exact decide_eq_true this.symm

/-! ## FASTA identifiers -/

/-- C7 as stated fails: the header line `>a>b` gives the identifier `ab`, where
the claim gives `a>b`. -/
theorem fasta_identifiers_counterexample :
    ((fastaRead [">a>b".toList]).1.map (fun f => f.id) = ["ab".toList]) ∧
      specIdentifiers [">a>b".toList] = ["a>b".toList] ∧
      (fastaRead [">a>b".toList]).1.map (fun f => f.id) ≠ specIdentifiers [">a>b".toList] := by
  decide

/-- C7, amended. The identifiers are, in order, the lines that start with `>`,
each with every `>` byte removed and its other bytes unchanged; a line that
does not start with `>` gives no identifier. When the rest of a header line has
no `>`, its identifier is the line without the leading marker. -/
theorem fasta_identifiers (lines : List GoString) :
    (fastaRead lines).1.map (fun f => f.id) =
        (lines.filter (fun l => hasPrefix l ['>'])).map
          (fun l => l.filter (fun x => decide (x ≠ '>'))) ∧
      (∀ l : GoString, hasPrefix l ['>'] = true → '>' ∉ l.drop 1 →
        replaceAll l ['>'] [] = l.drop 1) := by
  constructor
  · rw [fastaRead_ids, List.map_map]
    apply List.map_congr_left
    intro l _
    exact replaceAll_single l '>'
  · intro l hl hn
    obtain ⟨t, rfl⟩ := (hasPrefix_single l '>').mp hl
    rw [replaceAll_single]
    simp only [List.drop_succ_cons, List.drop_zero] at hn ⊢
    rw [List.filter_cons]
    simp only [ne_eq, not_true_eq_false, decide_False, Bool.false_eq_true, if_false]
    rw [List.filter_eq_self]
    intro x hx
    have : x ≠ '>' := fun e => hn (e ▸ hx)
    simpa using this

/-- C7, amended, at a concrete input. -/
theorem fasta_identifiers_witness :
    replaceAll ">seq 1".toList ['>'] [] = (">seq 1".toList).drop 1 :=
  (fasta_identifiers []).2 ">seq 1".toList (by decide) (by decide)

/-! ## FASTA files with one sequence line per header -/

theorem fastaLinesOf_cons (e : GoString × GoString) (es : List (GoString × GoString)) :
    fastaLinesOf (e :: es) = e.1 :: e.2 :: fastaLinesOf es := by
  simp [fastaLinesOf]

theorem fastaRead_entries_ids (entries : List (GoString × GoString))
    (hwf : WellFormedEntries entries) :
    (fastaRead (fastaLinesOf entries)).1 =
      entries.map (fun e => (⟨replaceAll e.1 ['>'] []⟩ : fastPredID)) := by
  rw [fastaRead_ids]
  induction entries with
  | nil => rfl
  | cons e es ih =>
    have he := hwf e (by simp)
    rw [fastaLinesOf_cons, List.filter_cons, List.filter_cons]
    simp only [he.1, he.2, if_true, Bool.false_eq_true, if_false, List.map_cons]
    rw [ih (fun x hx => hwf x (by simp [hx]))]

theorem fastaRead_entries_seqs (entries : List (GoString × GoString))
    (hwf : WellFormedEntries entries) :
    (fastaRead (fastaLinesOf entries)).2 =
      entries.map (fun e => (⟨e.2⟩ : fastPredSeq)) := by
  rw [fastaRead_seqs]
  induction entries with
  | nil => rfl
  | cons e es ih =>
    have he := hwf e (by simp)
    rw [fastaLinesOf_cons, List.filter_cons, List.filter_cons]
    simp only [he.1, he.2, Bool.not_true, Bool.not_false, if_true, Bool.false_eq_true,
      if_false, List.map_cons]
    rw [ih (fun x hx => hwf x (by simp [hx]))]

theorem specSequences_entries (entries : List (GoString × GoString))
    (hwf : WellFormedEntries entries) :
    specSequences (fastaLinesOf entries) = entries.map (fun e => e.2) := by
  induction entries with
  | nil => rfl
  | cons e es ih =>
    have he := hwf e (by simp)
    have ih2 := ih (fun x hx => hwf x (by simp [hx]))
    rw [fastaLinesOf_cons, specSequences, if_pos he.1, List.map_cons]
    have h2 : specSequences (e.2 :: fastaLinesOf es) = specSequences (fastaLinesOf es) := by
      rw [specSequences]
      simp [he.2]
    rw [h2, ih2]
    congr 1
    rw [List.takeWhile_cons]
    simp only [he.2, Bool.not_false, if_true]
    cases es with
    | nil => simp [fastaLinesOf]
    | cons e2 es2 =>
      have he2 := hwf e2 (by simp)
      rw [fastaLinesOf_cons, List.takeWhile_cons]
      simp [he2.1]

/-! ## The sequence that the join uses for an identifier -/

/-- C9 as stated fails: in the file `>a`, `AC`, `GT`, `>b`, `TT` the second
identifier is `b` and the lines of its entry concatenate to `TT`, but the join
builds the record for `b` from `GT`, the second line of the entry of `a`. -/
theorem fasta_multiline_counterexample :
    psRNAFunc.targetExtract (fastaRead Scenario.multiLines).1
        (fastaRead Scenario.multiLines).2 [Scenario.multiRecord] 0 0 =
      some [Scenario.multiJoined] ∧
      idPositions (fastaRead Scenario.multiLines).1 "b".toList = [1] ∧
      (specSequences Scenario.multiLines)[1]? = some "TT".toList ∧
      Scenario.multiJoined.targetcomp = "GT".toList ∧
      some Scenario.multiJoined.targetcomp ≠ (specSequences Scenario.multiLines)[1]? := by
  decide

/-- C9, amended. The sequence list holds the lines that do not start with `>`,
in order, one element per line; the join builds the record of a pair (record,
position `j` of an identifier) from the `j`-th of these lines; and in a file
with exactly one sequence line per header that line is the concatenation of the
lines of the `j`-th entry. -/
theorem fasta_sequence_by_position (lines : List GoString) :
    (fastaRead lines).2.map (fun f => f.seq) =
        lines.filter (fun l => !hasPrefix l ['>']) ∧
      (∀ (recs : List psRNAStructFiltered) (up down : GoInt) (out : List extractSeq),
        psRNAFunc.targetExtract (fastaRead lines).1 (fastaRead lines).2 recs up down =
          some out →
        List.Forall₂
          (fun o (q : (Nat × psRNAStructFiltered) × Nat) =>
            (lines.filter (fun l => !hasPrefix l ['>']))[q.2]? = some o.targetcomp)
          out (matchedPairs (fun r => r.target) recs (fastaRead lines).1)) ∧
      (∀ entries : List (GoString × GoString), WellFormedEntries entries →
        lines = fastaLinesOf entries →
        (fastaRead lines).2.map (fun f => f.seq) = specSequences lines) := by
  have h1 : (fastaRead lines).2.map (fun f => f.seq) =
      lines.filter (fun l => !hasPrefix l ['>']) := by
    rw [fastaRead_seqs, List.map_map]
    exact List.map_id _
  refine ⟨h1, ?_, ?_⟩
  · intro recs up down out h
    refine (psRNA_join_pairs _ _ recs up down out h).imp ?_
    intro o q hq
    obtain ⟨s, hs, _, _, _, _, _, _, rfl⟩ :=
      (psRNA_joinLit_eq_some _ up down q.1.2 q.2 o).mp hq
    rw [← h1, List.getElem?_map, hs]
    rfl
  · intro entries hwf hl
    subst hl
    rw [specSequences_entries entries hwf, fastaRead_entries_seqs entries hwf, List.map_map]
    rfl

/-- C9, amended, at the input of the scenario. -/
theorem fasta_sequence_by_position_witness :
    (fastaRead Scenario.fastaLines).2.map (fun f => f.seq) =
      specSequences Scenario.fastaLines :=
  (fasta_sequence_by_position Scenario.fastaLines).2.2
    [(">seq1".toList, "ACGTACGTACGTACGT".toList), (">seq2".toList, "TTTTAAAACCCCGGGG".toList)]
    (by decide) (by decide)

/-! ## The joined records, entry by entry -/

theorem forall2_enum_filter {ε γ β : Type} (fid : ε → γ) (c : γ → Bool) (S : β → Nat → Prop) :
    ∀ (entries : List ε) (n : Nat) (ys : List β),
      List.Forall₂ S ys
        ((((entries.map fid).enumFrom n).filter (fun q => c q.2)).map (fun q => q.1)) →
      List.Forall₂ (fun o e => ∃ j, entries[j - n]? = some e ∧ n ≤ j ∧ S o j) ys
        (entries.filter (fun e => c (fid e))) := by
  intro entries
  induction entries with
  | nil =>
    intro n ys h
    simpa using h
  | cons e es ih =>
    intro n ys h
    have lift : ∀ zs, List.Forall₂ S zs
          ((((es.map fid).enumFrom (n + 1)).filter (fun q => c q.2)).map (fun q => q.1)) →
        List.Forall₂ (fun o e2 => ∃ j, (e :: es)[j - n]? = some e2 ∧ n ≤ j ∧ S o j) zs
          (es.filter (fun e => c (fid e))) := by
      intro zs hz
      refine (ih (n + 1) zs hz).imp ?_
      rintro o e2 ⟨j, hj, hn, hs⟩
      refine ⟨j, ?_, by omega, hs⟩
      have : j - n = (j - (n + 1)) + 1 := by omega
      rw [this, List.getElem?_cons_succ]
      exact hj
    rw [List.map_cons, List.enumFrom_cons, List.filter_cons] at h
    rw [List.filter_cons]
    cases hc : c (fid e) with
    | true =>
      simp only [hc, if_true, List.map_cons] at h ⊢
      cases h with
      | cons h1 h2 =>
        refine List.Forall₂.cons ⟨n, by simp, le_refl n, h1⟩ (lift _ h2)
    | false =>
      simp only [hc, Bool.false_eq_true, if_false] at h ⊢
      exact lift _ h

theorem collect_join_entries {α β : Type} (key : α → GoString)
    (lit : Nat → α → Nat → Option β) (entries : List (GoString × GoString))
    (recs : List α) (out : List β)
    (h : collect
        (fun i r =>
          collect
            (fun j (f : fastPredID) =>
              if key r = f.id then (lit i r j).map (fun o => [o]) else some [])
            (entries.map (fun e => (⟨replaceAll e.1 ['>'] []⟩ : fastPredID))) 0)
        recs 0 = some out) :
    List.Forall₂
      (fun o (q : (Nat × α) × (GoString × GoString)) =>
        ∃ j, entries[j]? = some q.2 ∧ lit q.1.1 q.1.2 j = some o)
      out (matchedEntries key recs entries) := by
  unfold matchedEntries
  rw [List.enum]
  refine collect_forall2_flatMap _
    (fun _ r => entries.filter (fun e => decide (key r = replaceAll e.1 ['>'] [])))
    (fun i r o e => ∃ j, entries[j]? = some e ∧ lit i r j = some o) ?_ recs 0 out h
  intro i r ys hys
  have h1 := collect_guard_forall2 (fun (f : fastPredID) => decide (key r = f.id)) (lit i r) _
    (fun j f zs hz => guard_lit_cases (key r = f.id) (lit i r j) zs hz) _ 0 ys hys
  refine (forall2_enum_filter (fun e => (⟨replaceAll e.1 ['>'] []⟩ : fastPredID))
    (fun f => decide (key r = f.id)) (fun o j => lit i r j = some o) entries 0 ys h1).imp ?_
  rintro o e ⟨j, hj, _, hs⟩
  exact ⟨j, by simpa using hj, hs⟩

theorem collect_join_isSome {α β : Type} (key : α → GoString)
    (lit : Nat → α → Nat → Option β) (ids : List fastPredID) (recs : List α)
    (h : ∀ i r, recs[i]? = some r → ∀ j f, ids[j]? = some f → key r = f.id →
      (lit i r j).isSome = true) :
    (collect
        (fun i r =>
          collect
            (fun j (f : fastPredID) =>
              if key r = f.id then (lit i r j).map (fun o => [o]) else some [])
            ids 0)
        recs 0).isSome = true := by
  apply collect_isSome
  intro i r hi
  apply collect_guard_isSome (fun (f : fastPredID) => key r = f.id) (lit (0 + i) r) ids 0
  intro j f hj hk
  simp only [Nat.zero_add] at hi ⊢
  exact h i r hi j f hj hk

/-! ## The scanner of the FASTA file -/

theorem scanLines_nil : scanLines [] = [] := rfl

theorem scanLines_cons_short (line : GoString) (rest : List GoString)
    (h : line.length < maxScanTokenSize) :
    scanLines (line :: rest) = dropCR line :: scanLines rest := by
  rw [scanLines, if_pos h]

theorem scanLines_cons_long (line : GoString) (rest : List GoString)
    (h : maxScanTokenSize ≤ line.length) :
    scanLines (line :: rest) = [] := by
  rw [scanLines, if_neg (by omega)]

theorem hasPrefix_dropCR (line : GoString) :
    hasPrefix (dropCR line) ['>'] = hasPrefix line ['>'] := by
  unfold dropCR
  split
  · next h =>
    cases line with
    | nil => rfl
    | cons c cs =>
      cases cs with
      | nil =>
        simp only [List.getLast?_singleton, Option.some.injEq] at h
        subst h
        decide
      | cons d ds =>
        rw [List.dropLast_cons₂]
        simp only [hasPrefix, List.isPrefixOf]
  · rfl

theorem dropCR_length_le (line : GoString) : (dropCR line).length ≤ line.length := by
  unfold dropCR
  split
  · simp
  · exact le_refl _

theorem scanLines_fastaLinesOf (entries : List (GoString × GoString))
    (hshort : ∀ e ∈ entries, e.1.length < maxScanTokenSize ∧ e.2.length < maxScanTokenSize) :
    scanLines (fastaLinesOf entries) = fastaLinesOf (scannedEntries entries) := by
  induction entries with
  | nil => rfl
  | cons e es ih =>
    have he := hshort e (by simp)
    rw [fastaLinesOf_cons, scanLines_cons_short _ _ he.1, scanLines_cons_short _ _ he.2,
      ih (fun x hx => hshort x (by simp [hx]))]
    simp [scannedEntries, fastaLinesOf]

theorem wellFormed_scannedEntries (entries : List (GoString × GoString))
    (hwf : WellFormedEntries entries) : WellFormedEntries (scannedEntries entries) := by
  intro e he
  simp only [scannedEntries, List.mem_map] at he
  obtain ⟨e0, h0, rfl⟩ := he
  have := hwf e0 h0
  simp only [hasPrefix_dropCR]
  exact this

theorem longLine_length : Scenario.longLine.length = 70000 := by
  unfold Scenario.longLine
  exact List.length_replicate _ _

theorem limitLine_length : Scenario.limitLine.length = 65536 := by
  unfold Scenario.limitLine
  exact List.length_replicate _ _

theorem scanLines_header_long (header line : GoString) (rest : List GoString)
    (hh : header.length < maxScanTokenSize) (hl : maxScanTokenSize ≤ line.length) :
    scanLines (header :: line :: rest) = [dropCR header] := by
  rw [scanLines_cons_short _ _ hh, scanLines_cons_long _ _ hl]

theorem scannedEntries_length_lt (entries : List (GoString × GoString))
    (hshort : ∀ e ∈ entries, e.1.length < maxScanTokenSize ∧ e.2.length < maxScanTokenSize) :
    ∀ e ∈ scannedEntries entries, (e.2.length : Int) < 2 ^ 63 := by
  intro e he
  simp only [scannedEntries, List.mem_map] at he
  obtain ⟨e0, h0, rfl⟩ := he
  have h1 := (hshort e0 h0).2
  have h2 := dropCR_length_le e0.2
  have h3 : maxScanTokenSize = 65536 := rfl
  show ((dropCR e0.2).length : Int) < 2 ^ 63
  omega

theorem dropCR_replicate (n : Nat) (c : Char) (hc : c ≠ '\r') :
    dropCR (List.replicate n c) = List.replicate n c := by
  unfold dropCR
  rw [if_neg]
  intro h
  have hm : '\r' ∈ List.replicate n c := List.mem_of_getLast?_eq_some h
  exact hc (List.eq_of_mem_replicate hm).symm

/-- The limit of the scanner: a line of 65535 bytes is taken, a line of 65536
bytes ends the scan. -/
theorem scanLines_at_limit (rest : List GoString) :
    scanLines (List.replicate 65535 'A' :: rest) =
        List.replicate 65535 'A' :: scanLines rest ∧
      scanLines (List.replicate 65536 'A' :: rest) = [] := by
  constructor
  · rw [scanLines_cons_short _ _ (by rw [List.length_replicate]; decide),
      dropCR_replicate _ _ (by decide)]
  · exact scanLines_cons_long _ _ (by rw [List.length_replicate]; decide)

/-- The carriage return that `dropCR` drops is the one at the end of the line,
and only one. -/
theorem dropCR_examples :
    dropCR "ACGT\r".toList = "ACGT".toList ∧ dropCR "AC\rGT".toList = "AC\rGT".toList ∧
      dropCR "ACGT\r\r".toList = "ACGT\r".toList ∧ dropCR [] = [] := by
  decide

/-! ## The core slice of the psRNATarget join -/

theorem psRNA_joinLit_isSome (seqs : List fastPredSeq) (up down : GoInt)
    (r : psRNAStructFiltered) (j : Nat) (s : fastPredSeq) (hs : seqs[j]? = some s)
    (h1 : (slice s.seq r.targetStart r.targetEnd).isSome = true)
    (h2 : (slice s.seq (subInt r.targetStart up) r.targetStart).isSome = true)
    (h3 : (slice s.seq r.targetEnd (addInt r.targetEnd down)).isSome = true) :
    (psRNAFunc.joinLit seqs up down r j).isSome = true := by
  have b1 := (slice_isSome _ _ _).mp h1
  have b2 := (slice_isSome _ _ _).mp h2
  have h2b : (slice s.seq (subInt r.targetStart up) r.targetEnd).isSome = true :=
    (slice_isSome _ _ _).mpr ⟨b2.1, le_trans b2.2.1 b1.2.1, b1.2.2⟩
  obtain ⟨a, ha⟩ := Option.isSome_iff_exists.mp h1
  obtain ⟨b, hb⟩ := Option.isSome_iff_exists.mp h2b
  obtain ⟨c, hc⟩ := Option.isSome_iff_exists.mp h3
  apply Option.isSome_iff_exists.mpr
  exact ⟨_, (psRNA_joinLit_eq_some seqs up down r j _).mpr ⟨s, hs, a, ha, b, hb, c, hc, rfl⟩⟩

/-- C3 does not hold for every FASTA file with one sequence line per header:
in the file `>seq1` / a sequence line of 70000 bytes the three slices of the
record of the scenario (`targetStart` 4, `targetEnd` 8, widths 2 and 2) are
within the bounds of the sequence line, but the scanner stops at that line, so
the loader has the identifier `seq1` and no sequence, and the join panics at
`fastSeq[0]`: there is no joined record. -/
theorem psRNA_core_slice_counterexample :
    WellFormedEntries [(">seq1".toList, Scenario.longLine)] ∧
      Scenario.filtered.target = replaceAll ">seq1".toList ['>'] [] ∧
      (slice Scenario.longLine Scenario.filtered.targetStart
        Scenario.filtered.targetEnd).isSome = true ∧
      (slice Scenario.longLine (subInt Scenario.filtered.targetStart 2)
        Scenario.filtered.targetStart).isSome = true ∧
      (slice Scenario.longLine Scenario.filtered.targetEnd
        (addInt Scenario.filtered.targetEnd 2)).isSome = true ∧
      psRNAFunc.targetExtract
          (fastaRead (scanLines (fastaLinesOf [(">seq1".toList, Scenario.longLine)]))).1
          (fastaRead (scanLines (fastaLinesOf [(">seq1".toList, Scenario.longLine)]))).2
          [Scenario.filtered] 2 2 = none := by
  have hscan : scanLines (fastaLinesOf [(">seq1".toList, Scenario.longLine)]) =
      [">seq1".toList] := by
    rw [fastaLinesOf_cons, scanLines_header_long _ _ _ (by decide)
      (by rw [longLine_length]; decide)]
    decide
  refine ⟨?_, by decide, ?_, ?_, ?_, ?_⟩
  · intro e he
    simp only [List.mem_singleton] at he
    subst he
    exact ⟨by decide, rfl⟩
  · rw [slice_isSome, longLine_length]; decide
  · rw [slice_isSome, longLine_length]; decide
  · rw [slice_isSome, longLine_length]; decide
  · rw [hscan]; decide

/-- C3. For a FASTA file with exactly one sequence line per header, each line
shorter than `maxScanTokenSize` = 65536 bytes, and filtered records whose
three slices (core, upstream window, downstream window) are within bounds for
every entry with an equal identifier, the join succeeds, and its records are,
in order, one for each pair (record, entry with an equal identifier): the core
of the record is the half-open slice `s[targetStart:targetEnd)` of the
sequence `s` of the entry, and its full sequence is `s`. The sequence of an
entry is its sequence line as the scanner gives it, that is without the
carriage return at its end, if it has one. -/
theorem psRNA_core_slice (entries : List (GoString × GoString))
    (hwf : WellFormedEntries entries)
    (hshort : ∀ e ∈ entries, e.1.length < maxScanTokenSize ∧ e.2.length < maxScanTokenSize)
    (recs : List psRNAStructFiltered) (up down : GoInt)
    (hb : ∀ r ∈ recs, ∀ e ∈ scannedEntries entries, r.target = replaceAll e.1 ['>'] [] →
      (slice e.2 r.targetStart r.targetEnd).isSome = true ∧
      (slice e.2 (subInt r.targetStart up) r.targetStart).isSome = true ∧
      (slice e.2 r.targetEnd (addInt r.targetEnd down)).isSome = true) :
    ∃ out,
      psRNAFunc.targetExtract (fastaRead (scanLines (fastaLinesOf entries))).1
          (fastaRead (scanLines (fastaLinesOf entries))).2 recs up down = some out ∧
        List.Forall₂
          (fun o (q : (Nat × psRNAStructFiltered) × (GoString × GoString)) =>
            o.target = q.1.2.target ∧
            o.targetSeq =
              substr q.2.2 q.1.2.targetStart.val.toNat q.1.2.targetEnd.val.toNat ∧
            o.targetcomp = q.2.2)
          out (matchedEntries (fun r => r.target) recs (scannedEntries entries)) := by
  rw [scanLines_fastaLinesOf entries hshort]
  have hwf2 := wellFormed_scannedEntries entries hwf
  revert hb
  generalize scannedEntries entries = es at hwf2 ⊢
  intro hb
  rw [fastaRead_entries_ids es hwf2, fastaRead_entries_seqs es hwf2,
    psRNA_targetExtract_eq]
  have hsome := collect_join_isSome (fun (r : psRNAStructFiltered) => r.target)
    (fun _ r j => psRNAFunc.joinLit (es.map (fun e => (⟨e.2⟩ : fastPredSeq))) up down r j)
    (es.map (fun e => (⟨replaceAll e.1 ['>'] []⟩ : fastPredID))) recs
    (by
      intro i r hi j f hj hk
      rw [List.getElem?_map] at hj
      cases he : es[j]? with
      | none => rw [he] at hj; simp at hj
      | some e =>
        rw [he] at hj
        simp only [Option.map_some', Option.some.injEq] at hj
        subst hj
        have hmem : e ∈ es := List.getElem?_mem he
        have hr : r ∈ recs := List.getElem?_mem hi
        obtain ⟨h1, h2, h3⟩ := hb r hr e hmem hk
        exact psRNA_joinLit_isSome _ up down r j ⟨e.2⟩ (by simp [he]) h1 h2 h3)
  obtain ⟨out, hout⟩ := Option.isSome_iff_exists.mp hsome
  refine ⟨out, hout, ?_⟩
  refine (collect_join_entries (fun (r : psRNAStructFiltered) => r.target)
    (fun _ r j => psRNAFunc.joinLit (es.map (fun e => (⟨e.2⟩ : fastPredSeq))) up down r j)
    es recs out hout).imp ?_
  rintro o q ⟨j, hj, hl⟩
  obtain ⟨s, hs, core, hcore, _, _, _, _, rfl⟩ :=
    (psRNA_joinLit_eq_some _ up down q.1.2 j o).mp hl
  rw [List.getElem?_map, hj] at hs
  simp only [Option.map_some', Option.some.injEq] at hs
  subst hs
  exact ⟨rfl, ((slice_eq_some _ _ _ _).mp hcore).2, rfl⟩

/-- C3 at the input of the scenario: two entries, one record for `seq1` with
`targetStart` 4 and `targetEnd` 8, and the widths 2 and 2. -/
theorem psRNA_core_slice_witness :
    ∃ out,
      psRNAFunc.targetExtract
          (fastaRead (scanLines (fastaLinesOf
            [(">seq1".toList, "ACGTACGTACGTACGT".toList),
             (">seq2".toList, "TTTTAAAACCCCGGGG".toList)]))).1
          (fastaRead (scanLines (fastaLinesOf
            [(">seq1".toList, "ACGTACGTACGTACGT".toList),
             (">seq2".toList, "TTTTAAAACCCCGGGG".toList)]))).2
          [Scenario.filtered] 2 2 = some out ∧
        List.Forall₂
          (fun o (q : (Nat × psRNAStructFiltered) × (GoString × GoString)) =>
            o.target = q.1.2.target ∧
            o.targetSeq =
              substr q.2.2 q.1.2.targetStart.val.toNat q.1.2.targetEnd.val.toNat ∧
            o.targetcomp = q.2.2)
          out
          (matchedEntries (fun r => r.target) [Scenario.filtered]
            (scannedEntries
              [(">seq1".toList, "ACGTACGTACGTACGT".toList),
               (">seq2".toList, "TTTTAAAACCCCGGGG".toList)])) :=
  psRNA_core_slice
    [(">seq1".toList, "ACGTACGTACGTACGT".toList), (">seq2".toList, "TTTTAAAACCCCGGGG".toList)]
    (by decide) (by decide) [Scenario.filtered] 2 2 (by decide)

/-! ## Identifiers that occur more than once -/

theorem mem_idPositions (ids : List fastPredID) (key : GoString) (j : Nat) :
    j ∈ idPositions ids key ↔ ids[j]? = some ⟨key⟩ := by
  unfold idPositions
  simp only [List.mem_map, List.mem_filter, decide_eq_true_eq]
  constructor
  · rintro ⟨⟨i, f⟩, ⟨hm, hk⟩, rfl⟩
    have := List.mk_mem_enum_iff_getElem?.mp hm
    rw [this]
    cases f
    simp only at hk
    rw [hk]
  · intro h
    exact ⟨(j, ⟨key⟩), ⟨List.mk_mem_enum_iff_getElem?.mpr h, rfl⟩, rfl⟩

theorem idPositions_sorted (ids : List fastPredID) (key : GoString) :
    (idPositions ids key).Pairwise (fun a b => a < b) := by
  unfold idPositions
  have h1 : ((ids.enum.filter (fun p => decide (key = p.2.id))).map (fun p => p.1)).Sublist
      (ids.enum.map Prod.fst) :=
    (List.filter_sublist _).map _
  rw [List.enum_map_fst] at h1
  exact (List.pairwise_lt_range _).sublist h1

theorem length_filter_enumFrom {γ : Type} (p : γ → Bool) :
    ∀ (l : List γ) (n : Nat),
      ((l.enumFrom n).filter (fun q => p q.2)).length = (l.filter p).length := by
  intro l
  induction l with
  | nil => intro n; rfl
  | cons x xs ih =>
    intro n
    rw [List.enumFrom_cons, List.filter_cons, List.filter_cons]
    cases p x <;> simp [ih]

theorem idPositions_length (ids : List fastPredID) (key : GoString) :
    (idPositions ids key).length = (ids.filter (fun f => decide (key = f.id))).length := by
  unfold idPositions
  rw [List.length_map, List.enum]
  exact length_filter_enumFrom (fun f => decide (key = f.id)) ids 0

theorem collect_groups {α β : Type} (G : Nat → α → Option (List β)) :
    ∀ (recs : List α) (i0 : Nat) (out : List β), collect G recs i0 = some out →
      ∃ groups : List (List β), out = groups.flatten ∧
        List.Forall₂ (fun os (ir : Nat × α) => G ir.1 ir.2 = some os) groups
          (recs.enumFrom i0) := by
  intro recs
  induction recs with
  | nil =>
    intro i0 out h
    simp only [collect_nil, Option.some.injEq] at h
    exact ⟨[], by simp [← h], List.Forall₂.nil⟩
  | cons r recs ih =>
    intro i0 out h
    obtain ⟨ys, zs, h1, h2, rfl⟩ := (collect_cons_eq_some G r recs i0 out).mp h
    obtain ⟨gs, hg, hf⟩ := ih (i0 + 1) zs h2
    exact ⟨ys :: gs, by simp [hg], List.Forall₂.cons h1 hf⟩

/-- C8 as stated fails: in the file `>a`, `ACGT`, `>a`, `TTTT` the identifier
`a` occurs in two header lines, and a record for `a` gets two joined records,
one from each entry, not one. -/
theorem fasta_duplicate_counterexample :
    psRNAFunc.targetExtract (fastaRead Scenario.dupLines).1 (fastaRead Scenario.dupLines).2
        [Scenario.dupRecord] 0 0 = some Scenario.dupJoined ∧
      Scenario.dupJoined.length = 2 ∧ Scenario.dupJoined.length ≠ 1 ∧
      Scenario.dupJoined.map (fun o => o.targetcomp) = ["ACGT".toList, "TTTT".toList] := by
  decide

/-- C8, amended. The joined records come in one group per prediction record,
in the order of the records; the group of a record holds one joined record for
each position of the identifier list that carries the join key of the record,
in ascending order of the positions, built from the sequence at that position.
The positions of a key are exactly the places of the identifiers equal to it,
as many as there are header lines with that identifier. -/
theorem psRNA_join_per_identifier (ids : List fastPredID) (seqs : List fastPredSeq)
    (recs : List psRNAStructFiltered) (up down : GoInt) (out : List extractSeq)
    (h : psRNAFunc.targetExtract ids seqs recs up down = some out) :
    (∃ groups : List (List extractSeq), out = groups.flatten ∧
      List.Forall₂
        (fun os (r : psRNAStructFiltered) =>
          List.Forall₂
            (fun (o : extractSeq) j =>
              o.target = r.target ∧ ∃ s, seqs[j]? = some s ∧ o.targetcomp = s.seq)
            os (idPositions ids r.target))
        groups recs) ∧
      (∀ key j, j ∈ idPositions ids key ↔ ids[j]? = some ⟨key⟩) ∧
      (∀ key, (idPositions ids key).Pairwise (fun a b => a < b)) ∧
      (∀ key, (idPositions ids key).length =
        (ids.filter (fun f => decide (key = f.id))).length) := by
  refine ⟨?_, mem_idPositions ids, idPositions_sorted ids, idPositions_length ids⟩
  rw [psRNA_targetExtract_eq] at h
  obtain ⟨groups, hg, hf⟩ := collect_groups _ recs 0 out h
  refine ⟨groups, hg, ?_⟩
  have hf2 : List.Forall₂
      (fun os (ir : Nat × psRNAStructFiltered) =>
        List.Forall₂
          (fun (o : extractSeq) j =>
            o.target = ir.2.target ∧ ∃ s, seqs[j]? = some s ∧ o.targetcomp = s.seq)
          os (idPositions ids ir.2.target))
      groups (recs.enumFrom 0) := by
    refine hf.imp ?_
    intro os ir hos
    have h1 := collect_guard_forall2 (fun (f : fastPredID) => decide (ir.2.target = f.id))
      (fun j => psRNAFunc.joinLit seqs up down ir.2 j) _
      (fun j f zs hz =>
        guard_lit_cases (ir.2.target = f.id) (psRNAFunc.joinLit seqs up down ir.2 j) zs hz)
      ids 0 os hos
    unfold idPositions
    rw [List.enum]
    refine h1.imp ?_
    intro o j hj
    obtain ⟨s, hs, _, _, _, _, _, _, rfl⟩ :=
      (psRNA_joinLit_eq_some seqs up down ir.2 j o).mp hj
    exact ⟨rfl, s, hs, rfl⟩
  have hm : recs = (recs.enumFrom 0).map Prod.snd := by
    rw [List.enumFrom_map_snd]
  rw [hm, List.forall₂_map_right_iff]
  exact hf2

/-- C8, amended, at the file `>a`, `ACGT`, `>a`, `TTTT` and one record for
`a`. -/
theorem psRNA_join_per_identifier_witness :
    ∃ groups : List (List extractSeq), Scenario.dupJoined = groups.flatten ∧
      List.Forall₂
        (fun os (r : psRNAStructFiltered) =>
          List.Forall₂
            (fun (o : extractSeq) j =>
              o.target = r.target ∧
                ∃ s, (fastaRead Scenario.dupLines).2[j]? = some s ∧ o.targetcomp = s.seq)
            os (idPositions (fastaRead Scenario.dupLines).1 r.target))
        groups [Scenario.dupRecord] :=
  (psRNA_join_per_identifier (fastaRead Scenario.dupLines).1 (fastaRead Scenario.dupLines).2
    [Scenario.dupRecord] 0 0 Scenario.dupJoined (by decide)).1

/-! ## A record whose key is no identifier -/

theorem collect_erase {α β : Type} (G G2 : Nat → α → Option (List β)) :
    ∀ (recs : List α) (k i0 : Nat) (r : α), recs[k]? = some r →
      G (i0 + k) r = some [] →
      (∀ i x, i < k → G2 (i0 + i) x = G (i0 + i) x) →
      (∀ i x, k ≤ i → G2 (i0 + i) x = G (i0 + i + 1) x) →
      collect G2 (recs.eraseIdx k) i0 = collect G recs i0 := by
  intro recs
  induction recs with
  | nil => intro k i0 r hk; simp at hk
  | cons x xs ih =>
    intro k i0 r hk hr hlt hge
    cases k with
    | zero =>
      simp only [List.getElem?_cons_zero, Option.some.injEq] at hk
      subst hk
      simp only [Nat.add_zero] at hr
      rw [List.eraseIdx_cons_zero, collect_cons, hr]
      simp only [Option.some_bind, List.nil_append]
      rw [collect_congr G2 G xs i0 (i0 + 1)]
      · cases collect G xs (i0 + 1) <;> simp
      · intro i y _
        have := hge i y (Nat.zero_le i)
        rw [this]
        congr 1
        omega
    | succ k =>
      rw [List.getElem?_cons_succ] at hk
      rw [List.eraseIdx_cons_succ, collect_cons, collect_cons]
      have h0 := hlt 0 x (Nat.succ_pos k)
      simp only [Nat.add_zero] at h0
      rw [h0]
      rw [ih k (i0 + 1) r hk]
      · have : i0 + 1 + k = i0 + (k + 1) := by omega
        rw [this]
        exact hr
      · intro i y hi
        have := hlt (i + 1) y (by omega)
        have e : i0 + 1 + i = i0 + (i + 1) := by omega
        rw [e]
        exact this
      · intro i y hi
        have := hge (i + 1) y (by omega)
        have e : i0 + 1 + i = i0 + (i + 1) := by omega
        rw [e]
        exact this

theorem collect_erase_const {α β : Type} (G : α → Option (List β)) (recs : List α) (k : Nat)
    (r : α) (hk : recs[k]? = some r) (hr : G r = some []) :
    collect (fun _ x => G x) (recs.eraseIdx k) 0 = collect (fun _ x => G x) recs 0 :=
  collect_erase (fun _ x => G x) (fun _ x => G x) recs k 0 r hk hr (fun _ _ _ => rfl)
    (fun _ _ _ => rfl)

theorem collect_single_nil {α β : Type} (G : Nat → α → Option (List β)) (r : α)
    (hr : G 0 r = some []) : collect G [r] 0 = some [] := by
  rw [collect_cons, hr, collect_nil]
  rfl

theorem tapir_joinLit_congr (seqs : List fastPredSeq) (start end_ start2 end2 : List GoInt)
    (up down : GoInt) (i i2 : Nat) (t : GoString) (j : Nat)
    (h1 : start2[i2]? = start[i]?) (h2 : end2[i2]? = end_[i]?) :
    tapirFunc.joinLit seqs start2 end2 up down i2 t j =
      tapirFunc.joinLit seqs start end_ up down i t j := by
  simp only [tapirFunc.joinLit, h1, h2]

/-- C6. In the psRNATarget, TAPIR, TarHunter, TargetFinder and psRobot joins,
a prediction record whose join key equals no identifier is skipped: joined
alone it gives the empty list of records without a panic, whatever its
coordinates and whatever the widths are, and removing it from the prediction
records changes neither the joined records of the others nor whether the join
panics. For TAPIR a prediction record is the `i`-th entry of each of the slices
`target`, `start` and `end`. -/
theorem silent_join_miss (ids : List fastPredID) (seqs : List fastPredSeq)
    (up down : GoInt) :
    (∀ (recs : List psRNAStructFiltered) (k : Nat) (r : psRNAStructFiltered),
      recs[k]? = some r → (∀ f ∈ ids, r.target ≠ f.id) →
      psRNAFunc.targetExtract ids seqs [r] up down = some [] ∧
      psRNAFunc.targetExtract ids seqs (recs.eraseIdx k) up down =
        psRNAFunc.targetExtract ids seqs recs up down) ∧
    (∀ (target : List GoString) (start end_ : List GoInt) (k : Nat) (t : GoString),
      target[k]? = some t → (∀ f ∈ ids, t ≠ f.id) →
      (∀ start1 end1 : List GoInt,
        tapirFunc.tapSeq ids seqs [t] start1 end1 up down = some []) ∧
      tapirFunc.tapSeq ids seqs (target.eraseIdx k) (start.eraseIdx k) (end_.eraseIdx k)
          up down =
        tapirFunc.tapSeq ids seqs target start end_ up down) ∧
    (∀ (recs : List tarAnalyze) (k : Nat) (r : tarAnalyze),
      recs[k]? = some r → (∀ f ∈ ids, r.targetSeq ≠ f.id) →
      tarFunc.tarStoreCapture ids seqs [r] up down = some [] ∧
      tarFunc.tarStoreCapture ids seqs (recs.eraseIdx k) up down =
        tarFunc.tarStoreCapture ids seqs recs up down) ∧
    (∀ (recs : List tarFinderCap) (k : Nat) (r : tarFinderCap),
      recs[k]? = some r → (∀ f ∈ ids, r.sequence ≠ f.id) →
      tarFinderFunc.tarFinderSeqAdd ids seqs [r] up down = some [] ∧
      tarFinderFunc.tarFinderSeqAdd ids seqs (recs.eraseIdx k) up down =
        tarFinderFunc.tarFinderSeqAdd ids seqs recs up down) ∧
    (∀ (recs : List psRobotCapture) (k : Nat) (r : psRobotCapture),
      recs[k]? = some r → (∀ f ∈ ids, r.query ≠ f.id) →
      psRobotFunc.finalpsRobotSeq ids seqs [r] up down = some [] ∧
      psRobotFunc.finalpsRobotSeq ids seqs (recs.eraseIdx k) up down =
        psRobotFunc.finalpsRobotSeq ids seqs recs up down) := by
  refine ⟨?_, ?_, ?_, ?_, ?_⟩
  · intro recs k r hk hr
    have h0 := collect_guard_none (fun (f : fastPredID) => r.target = f.id)
      (fun j => psRNAFunc.joinLit seqs up down r j) ids 0 hr
    simp only [psRNA_targetExtract_eq]
    exact ⟨collect_single_nil _ r h0, collect_erase_const _ recs k r hk h0⟩
  · intro target start end_ k t hk hr
    have h0 : ∀ (st en : List GoInt) (i : Nat),
        collect
          (fun j (f : fastPredID) =>
            if t = f.id then (tapirFunc.joinLit seqs st en up down i t j).map (fun o => [o])
            else some [])
          ids 0 = some [] :=
      fun st en i => collect_guard_none (fun (f : fastPredID) => t = f.id)
        (fun j => tapirFunc.joinLit seqs st en up down i t j) ids 0 hr
    simp only [tapir_tapSeq_eq]
    refine ⟨fun st en => collect_single_nil _ t (h0 st en 0), ?_⟩
    refine collect_erase _ _ target k 0 t hk (h0 start end_ (0 + k)) ?_ ?_
    · intro i x hi
      simp only [Nat.zero_add]
      have e1 := List.getElem?_eraseIdx_of_lt start k i hi
      have e2 := List.getElem?_eraseIdx_of_lt end_ k i hi
      simp only [tapir_joinLit_congr seqs start end_ _ _ up down i i x _ e1 e2]
    · intro i x hi
      simp only [Nat.zero_add]
      have e1 := List.getElem?_eraseIdx_of_ge start k i hi
      have e2 := List.getElem?_eraseIdx_of_ge end_ k i hi
      simp only [tapir_joinLit_congr seqs start end_ _ _ up down (i + 1) i x _ e1 e2]
  · intro recs k r hk hr
    have h0 := collect_guard_none (fun (f : fastPredID) => r.targetSeq = f.id)
      (fun j => tarFunc.joinLit seqs up down r j) ids 0 hr
    simp only [tarFunc_tarStoreCapture_eq]
    exact ⟨collect_single_nil _ r h0, collect_erase_const _ recs k r hk h0⟩
  · intro recs k r hk hr
    have h0 := collect_guard_none (fun (f : fastPredID) => r.sequence = f.id)
      (fun j => tarFinderFunc.joinLit seqs up down r j) ids 0 hr
    simp only [tarFinder_tarFinderSeqAdd_eq]
    exact ⟨collect_single_nil _ r h0, collect_erase_const _ recs k r hk h0⟩
  · intro recs k r hk hr
    have h0 := collect_guard_none (fun (f : fastPredID) => f.id = r.query)
      (fun j => psRobotFunc.joinLit seqs up down r j) ids 0
      (fun f hf e => hr f hf e.symm)
    simp only [psRobot_finalpsRobotSeq_eq]
    exact ⟨collect_single_nil _ r h0, collect_erase_const _ recs k r hk h0⟩

/-- C6 at a concrete input, for the psRNATarget join: next to the record of
the scenario, a record for `seq9`, which is no identifier, with `targetStart`
100 and `targetEnd` 5. -/
theorem silent_join_miss_witness :
    psRNAFunc.targetExtract (fastaRead Scenario.fastaLines).1
        (fastaRead Scenario.fastaLines).2 [Scenario.missRecord] 2 2 = some [] ∧
      psRNAFunc.targetExtract (fastaRead Scenario.fastaLines).1
          (fastaRead Scenario.fastaLines).2
          ([Scenario.filtered, Scenario.missRecord].eraseIdx 1) 2 2 =
        psRNAFunc.targetExtract (fastaRead Scenario.fastaLines).1
          (fastaRead Scenario.fastaLines).2 [Scenario.filtered, Scenario.missRecord] 2 2 :=
  (silent_join_miss (fastaRead Scenario.fastaLines).1 (fastaRead Scenario.fastaLines).2
    2 2).1 [Scenario.filtered, Scenario.missRecord] 1 Scenario.missRecord (by decide)
    (by decide)

/-! ## The psRNATarget record parser -/

theorem getElem?_eq_some_getD {α : Type} (l : List α) (i : Nat) (d : α) (h : i < l.length) :
    l[i]? = some (l.getD i d) := by
  rw [List.getD_eq_getElem?_getD, List.getElem?_eq_getElem h]
  rfl

theorem psRNA_lineRecord_eq (parseFloat : GoString → Float64) (line : GoString)
    (h : 10 ≤ (split line ' ').length) :
    psRNAFunc.lineRecord parseFloat line =
      some
        { miRNA := (split line ' ').getD 0 [], target := (split line ' ').getD 1 [],
          evalue := parseFloat ((split line ' ').getD 2 []),
          targetStart := atoi ((split line ' ').getD 6 []),
          targetEnd := atoi ((split line ' ').getD 7 []),
          miRNAAligned := (split line ' ').getD 8 [],
          targetAligned := (split line ' ').getD 9 [] } := by
  unfold psRNAFunc.lineRecord
  rw [getElem?_eq_some_getD _ 2 [] (by omega), getElem?_eq_some_getD _ 6 [] (by omega),
    getElem?_eq_some_getD _ 7 [] (by omega), getElem?_eq_some_getD _ 0 [] (by omega),
    getElem?_eq_some_getD _ 1 [] (by omega), getElem?_eq_some_getD _ 8 [] (by omega),
    getElem?_eq_some_getD _ 9 [] (by omega)]
  rfl

theorem psRNA_storemiRNA_eq (parseFloat : GoString → Float64) (lines : List GoString) :
    psRNAFunc.storemiRNA parseFloat lines =
      collect
        (fun _ line =>
          if hasPrefix line ['#'] then some []
          else (psRNAFunc.lineRecord parseFloat line).map (fun r => [r]))
        lines 0 := by
  unfold psRNAFunc.storemiRNA
  rw [forRange_eq_collect _
    (fun _ line =>
      if hasPrefix line ['#'] then some []
      else (psRNAFunc.lineRecord parseFloat line).map (fun r => [r]))]
  · cases collect
      (fun _ line =>
        if hasPrefix line ['#'] then some []
        else (psRNAFunc.lineRecord parseFloat line).map (fun r => [r]))
      lines 0 <;> simp
  · intro i line out
    cases h : hasPrefix line ['#'] with
    | true => simp
    | false =>
      cases hl : psRNAFunc.lineRecord parseFloat line <;> simp [appendLit]

theorem collect_filter_map {α β : Type} (p : α → Bool) (f : α → β)
    (g : α → Option (List β)) :
    ∀ (lines : List α) (i : Nat),
      (∀ l ∈ lines, g l = if p l then some [f l] else some []) →
      collect (fun _ l => g l) lines i = some ((lines.filter p).map f) := by
  intro lines
  induction lines with
  | nil => intro i _; rfl
  | cons l ls ih =>
    intro i h
    rw [collect_cons, h l (by simp), ih (i + 1) (fun x hx => h x (by simp [hx])),
      List.filter_cons]
    cases p l <;> simp

/-- C10. When every line that does not start with `#` has at least 10 fields
between single spaces, the parser succeeds and gives, in order, one record per
line that does not start with `#`, built from the fields 0, 1, 2, 6, 7, 8 and 9
of the line: the e-value is the float value of field 2, the coordinates are the
integer values of the fields 6 and 7. A line that starts with `#` gives no
record: with or without such a line the result is the same. -/
theorem psRNA_parser_layout (parseFloat : GoString → Float64) (lines : List GoString)
    (h : ∀ l ∈ lines, hasPrefix l ['#'] = false → 10 ≤ (split l ' ').length) :
    psRNAFunc.storemiRNA parseFloat lines =
        some
          ((lines.filter (fun l => !hasPrefix l ['#'])).map
            (fun l =>
              { miRNA := (split l ' ').getD 0 [], target := (split l ' ').getD 1 [],
                evalue := parseFloat ((split l ' ').getD 2 []),
                targetStart := atoi ((split l ' ').getD 6 []),
                targetEnd := atoi ((split l ' ').getD 7 []),
                miRNAAligned := (split l ' ').getD 8 [],
                targetAligned := (split l ' ').getD 9 [] })) ∧
      (∀ (xs ys : List GoString) (c : GoString), hasPrefix c ['#'] = true →
        psRNAFunc.storemiRNA parseFloat (xs ++ c :: ys) =
          psRNAFunc.storemiRNA parseFloat (xs ++ ys)) := by
  constructor
  · rw [psRNA_storemiRNA_eq]
    apply collect_filter_map
    intro l hl
    cases hp : hasPrefix l ['#'] with
    | true => simp
    | false =>
      rw [psRNA_lineRecord_eq parseFloat l (h l hl hp)]
      simp
  · intro xs ys c hc
    rw [psRNA_storemiRNA_eq, psRNA_storemiRNA_eq]
    have e : xs ++ ys = (xs ++ c :: ys).eraseIdx xs.length := by
      rw [List.eraseIdx_append_of_length_le (le_refl _)]
      simp
    rw [e]
    have hk : (xs ++ c :: ys)[xs.length]? = some c := by
      rw [List.getElem?_append_right (le_refl _)]
      simp
    exact (collect_erase_const _ (xs ++ c :: ys) xs.length c hk (by simp [hc])).symm

/-- C10 at a concrete input: a comment line and the prediction line of the
scenario. -/
theorem psRNA_parser_layout_witness :
    psRNAFunc.storemiRNA (fun s => (decimalFloat s).getD ⟨0⟩)
        ["# psRNATarget".toList, "miR1 seq1 0.2 . . . 4 8 AAUU UUAA".toList] =
      some
        [{ miRNA := "miR1".toList, target := "seq1".toList, evalue := Scenario.evalue02,
           targetStart := 4, targetEnd := 8, miRNAAligned := "AAUU".toList,
           targetAligned := "UUAA".toList }] :=
  ((psRNA_parser_layout (fun s => (decimalFloat s).getD ⟨0⟩)
    ["# psRNATarget".toList, "miR1 seq1 0.2 . . . 4 8 AAUU UUAA".toList]
    (by decide)).1).trans (by decide)

/-! ## The upstream window of four joins -/

/-- C20. In the TAPIR, psRNA-map, TargetFinder and psRobot joins, every joined
record is built from a pair (prediction record, position `j`) that passed the
test, and its upstream field is the window of the sequence `fastSeq[j]` that
ends at the start coordinate of the record and has `upstreamWidth` bytes. The
start coordinate is `start[i]` (TAPIR), `start` (psRNA-map, TargetFinder) and
`subjectStart` (psRobot). -/
theorem upstream_window (ids : List fastPredID) (seqs : List fastPredSeq)
    (up down : GoInt) :
    (∀ (target : List GoString) (start end_ : List GoInt) (out : List tapirExtract),
      tapirFunc.tapSeq ids seqs target start end_ up down = some out →
      List.Forall₂
        (fun o (q : (Nat × GoString) × Nat) =>
          ∃ s st, seqs[q.2]? = some s ∧ start[q.1.1]? = some st ∧
            IsWindowTo s.seq st.val up.val o.upstream)
        out (matchedPairs (fun t => t) target ids)) ∧
    (∀ (recs : List psRNAfunc) (out : List readMapSeq),
      psRNAMapFunc.readMapSeqStore ids seqs recs up down = some out →
      List.Forall₂
        (fun o (q : (Nat × psRNAfunc) × Nat) =>
          ∃ s, seqs[q.2]? = some s ∧
            IsWindowTo s.seq q.1.2.start.val up.val o.upstream)
        out (psRNAMapFunc.matchedPairs recs ids)) ∧
    (∀ (recs : List tarFinderCap) (out : List tarFinderSeqStore),
      tarFinderFunc.tarFinderSeqAdd ids seqs recs up down = some out →
      List.Forall₂
        (fun o (q : (Nat × tarFinderCap) × Nat) =>
          ∃ s, seqs[q.2]? = some s ∧
            IsWindowTo s.seq q.1.2.start.val up.val o.upstream)
        out (matchedPairs (fun r => r.sequence) recs ids)) ∧
    (∀ (recs : List psRobotCapture) (out : List psRobotSeq),
      psRobotFunc.finalpsRobotSeq ids seqs recs up down = some out →
      List.Forall₂
        (fun o (q : (Nat × psRobotCapture) × Nat) =>
          ∃ s, seqs[q.2]? = some s ∧
            IsWindowTo s.seq q.1.2.subjectStart.val up.val o.upstream)
        out (matchedPairs (fun r => r.query) recs ids)) := by
  refine ⟨?_, ?_, ?_, ?_⟩
  · intro target start end_ out h
    refine (tapir_join_pairs ids seqs target start end_ up down out h).imp ?_
    intro o q hq
    obtain ⟨s, hs, st, hst, _, _, _, _, u, hu, _, _, rfl⟩ :=
      (tapir_joinLit_eq_some seqs start end_ up down q.1.1 q.1.2 q.2 o).mp hq
    exact ⟨s, st, hs, hst, slice_subInt_window _ _ _ _ hu⟩
  · intro recs out h
    refine (psRNAMap_join_pairs ids seqs recs up down out h).imp ?_
    intro o q hq
    obtain ⟨s, hs, _, _, u, hu, _, _, rfl⟩ :=
      (psRNAMap_joinLit_eq_some seqs up down q.1.2 q.2 o).mp hq
    exact ⟨s, hs, slice_subInt_window _ _ _ _ hu⟩
  · intro recs out h
    refine (tarFinder_join_pairs ids seqs recs up down out h).imp ?_
    intro o q hq
    obtain ⟨s, hs, u, hu, _, _, rfl⟩ :=
      (tarFinder_joinLit_eq_some seqs up down q.1.2 q.2 o).mp hq
    exact ⟨s, hs, slice_subInt_window _ _ _ _ hu⟩
  · intro recs out h
    refine (psRobot_join_pairs ids seqs recs up down out h).imp ?_
    intro o q hq
    obtain ⟨s, hs, _, _, u, hu, _, _, rfl⟩ :=
      (psRobot_joinLit_eq_some seqs up down q.1.2 q.2 o).mp hq
    exact ⟨s, hs, slice_subInt_window _ _ _ _ hu⟩

/-- C20 at a concrete input, for the TargetFinder join: the sequence of the
scenario, a record for `seq1` with `start` 4 and `end` 8, and the widths 2 and
2. The upstream field `GT` is the window of 2 bytes that ends at position 4. -/
theorem upstream_window_witness :
    List.Forall₂
      (fun (o : tarFinderSeqStore) (q : (Nat × tarFinderCap) × Nat) =>
        ∃ s, (fastaRead Scenario.fastaLines).2[q.2]? = some s ∧
          IsWindowTo s.seq q.1.2.start.val (2 : GoInt).val o.upstream)
      [{ miRNA := "miR1".toList, sequence := "seq1".toList,
         compseq := "ACGTACGTACGTACGT".toList, upstream := "GT".toList,
         downstream := "AC".toList }]
      (matchedPairs (fun r => r.sequence)
        [{ miRNA := "miR1".toList, sequence := "seq1".toList, start := 4, end_ := 8,
           mfe := ⟨0⟩ }]
        (fastaRead Scenario.fastaLines).1) :=
  (upstream_window (fastaRead Scenario.fastaLines).1 (fastaRead Scenario.fastaLines).2
    2 2).2.2.1
    [{ miRNA := "miR1".toList, sequence := "seq1".toList, start := 4, end_ := 8,
       mfe := ⟨0⟩ }]
    [{ miRNA := "miR1".toList, sequence := "seq1".toList,
       compseq := "ACGTACGTACGTACGT".toList, upstream := "GT".toList,
       downstream := "AC".toList }]
    (by decide)

/-! ## Records are joined one by one -/

theorem collect_const_shift {α β : Type} (G : α → Option (List β)) (xs : List α) (i j : Nat) :
    collect (fun _ x => G x) xs i = collect (fun _ x => G x) xs j :=
  collect_congr _ _ xs i j (fun _ _ _ => rfl)

theorem psRNA_join_append (ids : List fastPredID) (seqs : List fastPredSeq) (up down : GoInt)
    (xs ys : List psRNAStructFiltered) :
    psRNAFunc.targetExtract ids seqs (xs ++ ys) up down =
      (psRNAFunc.targetExtract ids seqs xs up down).bind
        (fun a => (psRNAFunc.targetExtract ids seqs ys up down).map (fun b => a ++ b)) := by
  simp only [psRNA_targetExtract_eq]
  rw [collect_append, collect_const_shift _ ys (0 + xs.length) 0]

theorem psRNA_join_cons (ids : List fastPredID) (seqs : List fastPredSeq) (up down : GoInt)
    (x : psRNAStructFiltered) (xs : List psRNAStructFiltered) :
    psRNAFunc.targetExtract ids seqs (x :: xs) up down =
      (psRNAFunc.targetExtract ids seqs [x] up down).bind
        (fun a => (psRNAFunc.targetExtract ids seqs xs up down).map (fun b => a ++ b)) :=
  psRNA_join_append ids seqs up down [x] xs

theorem psRNA_join_perm (ids : List fastPredID) (seqs : List fastPredSeq) (up down : GoInt)
    (xs ys : List psRNAStructFiltered) (h : xs.Perm ys) :
    (psRNAFunc.targetExtract ids seqs xs up down = none ∧
        psRNAFunc.targetExtract ids seqs ys up down = none) ∨
      ∃ a b, psRNAFunc.targetExtract ids seqs xs up down = some a ∧
        psRNAFunc.targetExtract ids seqs ys up down = some b ∧ a.Perm b := by
  induction h with
  | nil =>
    right
    exact ⟨[], [], rfl, rfl, List.Perm.refl _⟩
  | @cons x l1 l2 _ ih =>
    rw [psRNA_join_cons ids seqs up down x l1, psRNA_join_cons ids seqs up down x l2]
    cases hx : psRNAFunc.targetExtract ids seqs [x] up down with
    | none => left; simp
    | some a0 =>
      rcases ih with ⟨h1, h2⟩ | ⟨a, b, h1, h2, hp⟩
      · left; simp [h1, h2]
      · right
        exact ⟨a0 ++ a, a0 ++ b, by simp [h1], by simp [h2], hp.append_left a0⟩
  | swap x y l =>
    rw [psRNA_join_cons ids seqs up down y (x :: l), psRNA_join_cons ids seqs up down x l,
      psRNA_join_cons ids seqs up down x (y :: l), psRNA_join_cons ids seqs up down y l]
    cases hx : psRNAFunc.targetExtract ids seqs [x] up down with
    | none =>
      left
      cases psRNAFunc.targetExtract ids seqs [y] up down <;> simp
    | some a =>
      cases hy : psRNAFunc.targetExtract ids seqs [y] up down with
      | none => left; simp
      | some b =>
        cases hl : psRNAFunc.targetExtract ids seqs l up down with
        | none => left; simp
        | some c =>
          right
          refine ⟨b ++ (a ++ c), a ++ (b ++ c), by simp, by simp, ?_⟩
          rw [← List.append_assoc, ← List.append_assoc]
          exact List.Perm.append_right c List.perm_append_comm
  | trans _ _ ih1 ih2 =>
    rcases ih1 with ⟨h1, h2⟩ | ⟨a, b, h1, h2, hp⟩
    · rcases ih2 with ⟨_, h4⟩ | ⟨c, d, h3, _, _⟩
      · left; exact ⟨h1, h4⟩
      · rw [h2] at h3; exact absurd h3 (by simp)
    · rcases ih2 with ⟨h3, _⟩ | ⟨c, d, h3, h4, hq⟩
      · rw [h2] at h3; exact absurd h3 (by simp)
      · rw [h2] at h3
        have : b = c := Option.some.inj h3
        subst this
        right
        exact ⟨a, d, h1, h4, hp.trans hq⟩

/-- C15. For a fixed FASTA index and fixed widths, the psRNATarget join of the
concatenation of two record lists is the concatenation of the joins of the two
lists, and it panics when the join of either list panics. Hence the joined
records of a list are those of its records joined one at a time, in order, and
a reordering of the records only reorders the joined records. -/
theorem psRNA_join_independent (ids : List fastPredID) (seqs : List fastPredSeq)
    (up down : GoInt) :
    (∀ xs ys : List psRNAStructFiltered,
      psRNAFunc.targetExtract ids seqs (xs ++ ys) up down =
        match psRNAFunc.targetExtract ids seqs xs up down,
          psRNAFunc.targetExtract ids seqs ys up down with
        | some a, some b => some (a ++ b)
        | _, _ => none) ∧
    (∀ (x : psRNAStructFiltered) (xs : List psRNAStructFiltered),
      psRNAFunc.targetExtract ids seqs (x :: xs) up down =
        match psRNAFunc.targetExtract ids seqs [x] up down,
          psRNAFunc.targetExtract ids seqs xs up down with
        | some a, some b => some (a ++ b)
        | _, _ => none) ∧
    (∀ xs ys : List psRNAStructFiltered, xs.Perm ys →
      (psRNAFunc.targetExtract ids seqs xs up down = none ∧
          psRNAFunc.targetExtract ids seqs ys up down = none) ∨
        ∃ a b, psRNAFunc.targetExtract ids seqs xs up down = some a ∧
          psRNAFunc.targetExtract ids seqs ys up down = some b ∧ a.Perm b) := by
  refine ⟨?_, ?_, psRNA_join_perm ids seqs up down⟩
  · intro xs ys
    rw [psRNA_join_append]
    cases psRNAFunc.targetExtract ids seqs xs up down <;>
      cases psRNAFunc.targetExtract ids seqs ys up down <;> rfl
  · intro x xs
    rw [psRNA_join_cons]
    cases psRNAFunc.targetExtract ids seqs [x] up down <;>
      cases psRNAFunc.targetExtract ids seqs xs up down <;> rfl

/-- C15 at a concrete input: the record of the scenario and a record whose
target is no identifier, in the two orders. -/
theorem psRNA_join_independent_witness :
    (psRNAFunc.targetExtract (fastaRead Scenario.fastaLines).1
          (fastaRead Scenario.fastaLines).2 [Scenario.missRecord, Scenario.filtered] 2 2 =
        none ∧
      psRNAFunc.targetExtract (fastaRead Scenario.fastaLines).1
          (fastaRead Scenario.fastaLines).2 [Scenario.filtered, Scenario.missRecord] 2 2 =
        none) ∨
      ∃ a b,
        psRNAFunc.targetExtract (fastaRead Scenario.fastaLines).1
            (fastaRead Scenario.fastaLines).2 [Scenario.missRecord, Scenario.filtered] 2 2 =
          some a ∧
        psRNAFunc.targetExtract (fastaRead Scenario.fastaLines).1
            (fastaRead Scenario.fastaLines).2 [Scenario.filtered, Scenario.missRecord] 2 2 =
          some b ∧ a.Perm b :=
  (psRNA_join_independent (fastaRead Scenario.fastaLines).1
    (fastaRead Scenario.fastaLines).2 2 2).2.2 _ _ (List.Perm.swap _ _ [])

/-! ## A slice out of bounds -/

theorem collect_eq_none_of {α β : Type} (g : Nat → α → Option (List β)) :
    ∀ (xs : List α) (i k : Nat) (x : α), xs[k]? = some x → g (i + k) x = none →
      collect g xs i = none := by
  intro xs
  induction xs with
  | nil => intro i k x hk; simp at hk
  | cons y ys ih =>
    intro i k x hk hg
    rw [collect_cons]
    cases k with
    | zero =>
      simp only [List.getElem?_cons_zero, Option.some.injEq] at hk
      subst hk
      simp only [Nat.add_zero] at hg
      rw [hg]
      rfl
    | succ k =>
      rw [List.getElem?_cons_succ] at hk
      have e : i + (k + 1) = i + 1 + k := by omega
      rw [e] at hg
      rw [ih (i + 1) k x hk hg]
      cases g i y <;> rfl

theorem collect_join_eq_none {α β : Type} (key : α → GoString) (c : α → fastPredID → Prop)
    [∀ r f, Decidable (c r f)] (hc : ∀ r f, c r f ↔ key r = f.id)
    (lit : Nat → α → Nat → Option β) (ids : List fastPredID) (recs : List α)
    (i : Nat) (r : α) (j : Nat) (f : fastPredID)
    (hi : recs[i]? = some r) (hj : ids[j]? = some f) (hk : key r = f.id)
    (hl : lit i r j = none) :
    collect
        (fun i r =>
          collect (fun j f => if c r f then (lit i r j).map (fun o => [o]) else some [])
            ids 0)
        recs 0 = none := by
  refine collect_eq_none_of _ recs 0 i r hi ?_
  refine collect_eq_none_of _ ids 0 j f hj ?_
  simp only [Nat.zero_add]
  rw [if_pos ((hc r f).mpr hk), hl]
  rfl

theorem psRNA_joinLit_eq_none_of_bounds (seqs : List fastPredSeq) (up down : GoInt)
    (r : psRNAStructFiltered) (j : Nat) (s : fastPredSeq) (hs : seqs[j]? = some s)
    (hb : r.targetStart.val - up.val < 0 ∨
      r.targetEnd.val + down.val > (s.seq.length : Int)) :
    psRNAFunc.joinLit seqs up down r j = none := by
  apply Option.eq_none_iff_forall_not_mem.mpr
  intro o ho
  obtain ⟨s2, hs2, core, hcore, u, hu, d, hd, _⟩ :=
    (psRNA_joinLit_eq_some seqs up down r j o).mp ho
  rw [hs] at hs2
  have e : s = s2 := Option.some.inj hs2
  subst e
  obtain ⟨⟨c0, c1, c2⟩, _⟩ := (slice_eq_some _ _ _ _).mp hcore
  obtain ⟨⟨u0, u1, u2⟩, _⟩ := (slice_eq_some _ _ _ _).mp hu
  obtain ⟨⟨d0, d1, d2⟩, _⟩ := (slice_eq_some _ _ _ _).mp hd
  have p1 := r.targetStart.property
  have p2 := r.targetEnd.property
  have p3 := up.property
  have p4 := down.property
  rw [subInt_val] at u0
  rw [addInt_val] at d1 d2
  omega

/-- C13 as stated fails: with the upstream width 2, a record for `seq1` with
`targetStart` 1 makes the join of it and the record of the scenario panic,
where the claim gives the joined record of the scenario. -/
theorem psRNA_out_of_bounds_counterexample :
    Scenario.lowRecord.targetStart.val - (2 : GoInt).val < 0 ∧
      psRNAFunc.targetExtract (fastaRead Scenario.fastaLines).1
          (fastaRead Scenario.fastaLines).2 [Scenario.lowRecord, Scenario.filtered] 2 2 =
        none ∧
      psRNAFunc.targetExtract (fastaRead Scenario.fastaLines).1
          (fastaRead Scenario.fastaLines).2 [Scenario.filtered] 2 2 =
        some [Scenario.joined] := by
  decide

/-- C13, amended. In the psRNATarget join, a filtered record whose target is
the identifier at a position `j` that has a sequence, and for which
`targetStart - upstreamWidth < 0` or `targetEnd + downstreamWidth` exceeds the
length of that sequence, makes the whole join panic: no joined record is
produced for any record. -/
theorem psRNA_out_of_bounds_panics (ids : List fastPredID) (seqs : List fastPredSeq)
    (recs : List psRNAStructFiltered) (up down : GoInt) (r : psRNAStructFiltered)
    (j : Nat) (s : fastPredSeq) (hr : r ∈ recs) (hj : ids[j]? = some ⟨r.target⟩)
    (hs : seqs[j]? = some s)
    (hb : r.targetStart.val - up.val < 0 ∨
      r.targetEnd.val + down.val > (s.seq.length : Int)) :
    psRNAFunc.targetExtract ids seqs recs up down = none := by
  obtain ⟨i, hi⟩ := List.mem_iff_getElem?.mp hr
  rw [psRNA_targetExtract_eq]
  exact collect_join_eq_none (fun (r : psRNAStructFiltered) => r.target)
    (fun (r : psRNAStructFiltered) (f : fastPredID) => r.target = f.id) (fun _ _ => Iff.rfl)
    (fun _ r j => psRNAFunc.joinLit seqs up down r j) ids recs i r j ⟨r.target⟩ hi hj rfl
    (psRNA_joinLit_eq_none_of_bounds seqs up down r j s hs hb)

/-- C13, amended, at the input of the counterexample. -/
theorem psRNA_out_of_bounds_panics_witness :
    psRNAFunc.targetExtract (fastaRead Scenario.fastaLines).1
        (fastaRead Scenario.fastaLines).2 [Scenario.lowRecord, Scenario.filtered] 2 2 =
      none :=
  psRNA_out_of_bounds_panics (fastaRead Scenario.fastaLines).1
    (fastaRead Scenario.fastaLines).2 [Scenario.lowRecord, Scenario.filtered] 2 2
    Scenario.lowRecord 0 ⟨"ACGTACGTACGTACGT".toList⟩ (by decide) (by decide) (by decide)
    (Or.inl (by decide))

/-! ## The upstream slice of the TarHunter join -/

theorem forall2_exists_of_mem_left {α β : Type} {R : α → β → Prop} {l1 : List α}
    {l2 : List β} (h : List.Forall₂ R l1 l2) {a : α} (ha : a ∈ l1) : ∃ b ∈ l2, R a b := by
  induction h with
  | nil => simp at ha
  | cons hr _ ih =>
    rcases List.mem_cons.mp ha with rfl | ha2
    · exact ⟨_, List.mem_cons_self _ _, hr⟩
    · obtain ⟨b, hb, hab⟩ := ih ha2
      exact ⟨b, List.mem_cons_of_mem _ hb, hab⟩

theorem tarFunc_upstream_slice_none (s : GoString) (st up : GoInt) (h : 0 < up.val) :
    slice s st (subInt st up) = none := by
  apply Option.eq_none_iff_forall_not_mem.mpr
  intro w hw
  obtain ⟨⟨h0, h1, _⟩, _⟩ := (slice_eq_some _ _ _ _).mp hw
  have p1 := st.property
  have p2 := up.property
  rw [subInt_val] at h1
  omega

theorem tarFunc_joinLit_none (seqs : List fastPredSeq) (up down : GoInt) (r : tarAnalyze)
    (j : Nat) (h : 0 < up.val) : tarFunc.joinLit seqs up down r j = none := by
  apply Option.eq_none_iff_forall_not_mem.mpr
  intro o ho
  obtain ⟨s, _, u, hu, _⟩ := (tarFunc_joinLit_eq_some seqs up down r j o).mp ho
  rw [tarFunc_upstream_slice_none s.seq r.start up h] at hu
  exact absurd hu (by simp)

/-- C17. The join key of a TarHunter record is field 1 of its line, and the
TarHunter join takes the upstream field as the slice
`s[start : start-upstreamWidth]`. With `upstreamWidth > 0` that slice panics for
every sequence and every start coordinate, so a run in which a record has a
join key equal to an identifier panics and gives no joined record. With
`upstreamWidth = 0`, a start coordinate within the sequence and a downstream
slice in bounds, the record is built and its upstream field is the empty
string. -/
theorem tarHunter_inverted_upstream (ids : List fastPredID) (seqs : List fastPredSeq)
    (up down : GoInt) :
    (∀ (line : GoString) (r : tarAnalyze), tarFunc.lineRecord line = some r →
      (split line ' ')[1]? = some r.targetSeq) ∧
    (∀ (r : tarAnalyze) (j : Nat) (o : tarSeqStore),
      tarFunc.joinLit seqs up down r j = some o →
      ∃ s, seqs[j]? = some s ∧
        slice s.seq r.start (subInt r.start up) = some o.targetUpstream) ∧
    (0 < up.val →
      (∀ (s : GoString) (st : GoInt), slice s st (subInt st up) = none) ∧
      (∀ (recs : List tarAnalyze) (r : tarAnalyze) (j : Nat), r ∈ recs →
        ids[j]? = some ⟨r.targetSeq⟩ →
        tarFunc.tarStoreCapture ids seqs recs up down = none)) ∧
    (up.val = 0 →
      (∀ (r : tarAnalyze) (j : Nat) (s : fastPredSeq), seqs[j]? = some s →
        0 ≤ r.start.val → r.start.val ≤ (s.seq.length : Int) →
        (slice s.seq r.end_ (addInt r.end_ down)).isSome = true →
        ∃ o, tarFunc.joinLit seqs up down r j = some o ∧ o.targetUpstream = []) ∧
      (∀ (recs : List tarAnalyze) (out : List tarSeqStore),
        tarFunc.tarStoreCapture ids seqs recs up down = some out →
        ∀ o ∈ out, o.targetUpstream = [])) := by
  refine ⟨?_, ?_, ?_, ?_⟩
  · intro line r hr
    simp only [tarFunc.lineRecord, Option.bind_eq_bind, Option.bind_eq_some, Option.pure_def,
      Option.some.injEq] at hr
    obtain ⟨_, _, _, _, _, _, f1, h1, _, _, _, _, rfl⟩ := hr
    exact h1
  · intro r j o ho
    obtain ⟨s, hs, u, hu, _, _, rfl⟩ := (tarFunc_joinLit_eq_some seqs up down r j o).mp ho
    exact ⟨s, hs, hu⟩
  · intro hup
    refine ⟨fun s st => tarFunc_upstream_slice_none s st up hup, ?_⟩
    intro recs r j hr hj
    obtain ⟨i, hi⟩ := List.mem_iff_getElem?.mp hr
    rw [tarFunc_tarStoreCapture_eq]
    exact collect_join_eq_none (fun (r : tarAnalyze) => r.targetSeq)
      (fun (r : tarAnalyze) (f : fastPredID) => r.targetSeq = f.id) (fun _ _ => Iff.rfl)
      (fun _ r j => tarFunc.joinLit seqs up down r j) ids recs i r j ⟨r.targetSeq⟩ hi hj rfl
      (tarFunc_joinLit_none seqs up down r j hup)
  · intro hup
    have hsub : ∀ st : GoInt, (subInt st up).val = st.val := by
      intro st
      have p1 := st.property
      rw [subInt_val, hup]
      omega
    have hempty : ∀ (s : GoString) (st : GoInt) (u : GoString),
        slice s st (subInt st up) = some u → u = [] := by
      intro s st u hu
      obtain ⟨_, hw⟩ := (slice_eq_some _ _ _ _).mp hu
      rw [hw, hsub st]
      simp [substr]
    constructor
    · intro r j s hs h0 h1 hd
      obtain ⟨d, hd⟩ := Option.isSome_iff_exists.mp hd
      have hu : (slice s.seq r.start (subInt r.start up)).isSome = true := by
        rw [slice_isSome, hsub]
        exact ⟨h0, le_refl _, h1⟩
      obtain ⟨u, hu⟩ := Option.isSome_iff_exists.mp hu
      exact ⟨_, (tarFunc_joinLit_eq_some seqs up down r j _).mpr ⟨s, hs, u, hu, d, hd, rfl⟩,
        hempty _ _ _ hu⟩
    · intro recs out h o ho
      have hf := tarFunc_join_pairs ids seqs recs up down out h
      obtain ⟨q, _, hq⟩ := forall2_exists_of_mem_left hf ho
      obtain ⟨s, _, u, hu, _, _, rfl⟩ :=
        (tarFunc_joinLit_eq_some seqs up down q.1.2 q.2 o).mp hq
      exact hempty _ _ _ hu

/-- C17 at a concrete input: the FASTA file of the scenario and a record with
the join key `seq1`, `start` 4 and `end` 8; with the upstream width 2 the join
panics. -/
theorem tarHunter_inverted_upstream_witness :
    tarFunc.tarStoreCapture (fastaRead Scenario.fastaLines).1
        (fastaRead Scenario.fastaLines).2
        [{ targetID := "t1".toList, targetSeq := "seq1".toList, miRID := "m".toList,
           miRSeq := "UGAC".toList, start := 4, end_ := 8 }] 2 2 = none :=
  ((tarHunter_inverted_upstream (fastaRead Scenario.fastaLines).1
    (fastaRead Scenario.fastaLines).2 2 2).2.2.1 (by decide)).2 _
    { targetID := "t1".toList, targetSeq := "seq1".toList, miRID := "m".toList,
      miRSeq := "UGAC".toList, start := 4, end_ := 8 } 0 (by decide) (by decide)

/-! ## The test of the psRNA-map join -/

/-- C16. The code at three inputs over the FASTA file of the scenario
(identifiers `seq1`, `seq2`) with the widths 2 and 2. A single record with the
id `seq2` is compared with the identifier at its own index 0, `seq1`, and gets
no joined record. A single record with the id `seq1` passes that test for
every `j` and gets two joined records, the second built from the sequence of
`seq2`. Three records, one more than there are identifiers, make the join
panic at `fastID[2]`. -/
theorem psRNAMap_join_index_defect :
    psRNAMapFunc.readMapSeqStore (fastaRead Scenario.fastaLines).1
        (fastaRead Scenario.fastaLines).2 [Scenario.mapRecordB] 2 2 = some [] ∧
      psRNAMapFunc.readMapSeqStore (fastaRead Scenario.fastaLines).1
          (fastaRead Scenario.fastaLines).2 [Scenario.mapRecordA] 2 2 =
        some
          [{ read := "readA".toList, start := 4, stop := 8, refseq := "ACGT".toList,
             refcomp := "ACGTACGTACGTACGT".toList, upstream := "GT".toList,
             downstream := "AC".toList },
           { read := "readA".toList, start := 4, stop := 8, refseq := "AAAA".toList,
             refcomp := "TTTTAAAACCCCGGGG".toList, upstream := "TT".toList,
             downstream := "CC".toList }] ∧
      psRNAMapFunc.readMapSeqStore (fastaRead Scenario.fastaLines).1
          (fastaRead Scenario.fastaLines).2
          [Scenario.mapRecordA, Scenario.mapRecordB, Scenario.mapRecordA] 2 2 = none := by
  decide

/-! ## The value and the error of `Atoi` -/

theorem wrapInt_val (x : Int) : (wrapInt x).val = (x + 2 ^ 63) % 2 ^ 64 - 2 ^ 63 := rfl

theorem zero_val : (0 : GoInt).val = 0 := by decide

theorem parseIntValue_syntax (neg : Bool) (res : Option (Option Nat))
    (h : parseIntErr neg res = some NumError.ErrSyntax) : (parseIntValue neg res).val = 0 := by
  cases res with
  | none => exact zero_val
  | some r =>
    cases r with
    | none => simp [parseIntErr] at h
    | some un =>
      simp only [parseIntErr] at h
      split at h
      · simp at h
      · split at h <;> simp at h

theorem parseIntValue_range (neg : Bool) (res : Option (Option Nat))
    (h : parseIntErr neg res = some NumError.ErrRange) :
    (parseIntValue neg res).val = 2 ^ 63 - 1 ∨ (parseIntValue neg res).val = -(2 ^ 63) := by
  cases res with
  | none => simp [parseIntErr] at h
  | some r =>
    cases r with
    | none =>
      cases neg
      · left; simp only [parseIntValue, Bool.false_eq_true, if_false, wrapInt_val]; omega
      · right; simp only [parseIntValue, if_true, wrapInt_val]; omega
    | some un =>
      simp only [parseIntErr] at h
      simp only [parseIntValue]
      split at h
      · rename_i h1
        rw [if_pos h1]
        left; rw [wrapInt_val]; omega
      · rename_i h1
        rw [if_neg h1]
        split at h
        · rename_i h2
          rw [if_pos h2]
          right; rw [wrapInt_val]; omega
        · simp at h

theorem atoi_syntax (s : GoString) (h : atoiErr s = some NumError.ErrSyntax) :
    (atoi s).val = 0 := by
  unfold atoiErr at h
  unfold atoi
  cases s with
  | nil => exact zero_val
  | cons c cs =>
    simp only at h ⊢
    by_cases h1 : c = '+'
    · rw [if_pos h1] at h ⊢
      by_cases h2 : cs = []
      · rw [if_pos h2]; exact zero_val
      · rw [if_neg h2] at h ⊢; exact parseIntValue_syntax _ _ h
    · rw [if_neg h1] at h ⊢
      by_cases h3 : c = '-'
      · rw [if_pos h3] at h ⊢
        by_cases h2 : cs = []
        · rw [if_pos h2]; exact zero_val
        · rw [if_neg h2] at h ⊢; exact parseIntValue_syntax _ _ h
      · rw [if_neg h3] at h ⊢
        exact parseIntValue_syntax _ _ h

theorem atoi_range (s : GoString) (h : atoiErr s = some NumError.ErrRange) :
    (atoi s).val = 2 ^ 63 - 1 ∨ (atoi s).val = -(2 ^ 63) := by
  unfold atoiErr at h
  unfold atoi
  cases s with
  | nil => simp at h
  | cons c cs =>
    simp only at h ⊢
    by_cases h1 : c = '+'
    · rw [if_pos h1] at h ⊢
      by_cases h2 : cs = []
      · rw [if_pos h2] at h; simp at h
      · rw [if_neg h2] at h ⊢; exact parseIntValue_range _ _ h
    · rw [if_neg h1] at h ⊢
      by_cases h3 : c = '-'
      · rw [if_pos h3] at h ⊢
        by_cases h2 : cs = []
        · rw [if_pos h2] at h; simp at h
        · rw [if_neg h2] at h ⊢; exact parseIntValue_range _ _ h
      · rw [if_neg h3] at h ⊢
        exact parseIntValue_range _ _ h

theorem digitsValue_le : ∀ (cs : GoString) (n v : Nat), digitsValue cs n = some v → n ≤ v := by
  intro cs
  induction cs with
  | nil =>
    intro n v h
    simp only [digitsValue, Option.some.injEq] at h
    omega
  | cons c cs ih =>
    intro n v h
    simp only [digitsValue] at h
    cases hd : digitVal c with
    | none => rw [hd] at h; simp at h
    | some d =>
      rw [hd] at h
      have := ih _ _ h
      omega

theorem parseUintLoop_digits :
    ∀ (cs : GoString) (n v : Nat), n ≤ 2 ^ 64 - 1 → digitsValue cs n = some v →
      parseUintLoop cs n = if v > 2 ^ 64 - 1 then some none else some (some v) := by
  intro cs
  induction cs with
  | nil =>
    intro n v hn h
    simp only [digitsValue, Option.some.injEq] at h
    subst h
    rw [if_neg (by omega)]
    rfl
  | cons c cs ih =>
    intro n v hn h
    simp only [digitsValue] at h
    simp only [parseUintLoop]
    cases hd : digitVal c with
    | none => rw [hd] at h; simp at h
    | some d =>
      rw [hd] at h
      simp only
      by_cases hov : n * 10 + d > 2 ^ 64 - 1
      · rw [if_pos hov]
        have := digitsValue_le _ _ _ h
        rw [if_pos (by omega)]
      · rw [if_neg hov]
        exact ih _ _ (by omega) h

theorem digitVal_not_sign (c : Char) (d : Nat) (h : digitVal c = some d) :
    c ≠ '+' ∧ c ≠ '-' := by
  have hp : digitVal '+' = none := by decide
  have hm : digitVal '-' = none := by decide
  constructor
  · rintro rfl
    rw [hp] at h
    exact absurd h (by simp)
  · rintro rfl
    rw [hm] at h
    exact absurd h (by simp)

theorem atoi_digits (ds : GoString) (v : Nat) (hne : ds ≠ [])
    (hv : digitsValue ds 0 = some v) :
    (atoi ds).val = min (v : Int) (2 ^ 63 - 1) ∧ (atoiErr ds = none ↔ v < 2 ^ 63) ∧
      (2 ^ 63 ≤ v → atoiErr ds = some NumError.ErrRange) := by
  have hp := parseUintLoop_digits ds 0 v (by omega) hv
  cases ds with
  | nil => exact absurd rfl hne
  | cons c cs =>
    have hd : ∃ d, digitVal c = some d := by
      simp only [digitsValue] at hv
      cases hd : digitVal c with
      | none => rw [hd] at hv; simp at hv
      | some d => exact ⟨d, rfl⟩
    obtain ⟨d, hd⟩ := hd
    obtain ⟨n1, n2⟩ := digitVal_not_sign c d hd
    have e1 : atoi (c :: cs) = parseIntValue false (parseUintLoop (c :: cs) 0) := by
      simp only [atoi, if_neg n1, if_neg n2]
    have e2 : atoiErr (c :: cs) = parseIntErr false (parseUintLoop (c :: cs) 0) := by
      simp only [atoiErr, if_neg n1, if_neg n2]
    rw [e1, e2, hp]
    by_cases h64 : v > 2 ^ 64 - 1
    · rw [if_pos h64]
      simp only [parseIntValue, parseIntErr, Bool.false_eq_true, if_false, wrapInt_val]
      refine ⟨by omega, ⟨fun h => absurd h (by simp), fun h => by omega⟩, fun _ => trivial⟩
    · rw [if_neg h64]
      by_cases h63 : v ≥ 2 ^ 63
      · have hc : (!false && decide (v ≥ 2 ^ 63)) = true := by simpa using h63
        simp only [parseIntValue, parseIntErr, hc, if_true, wrapInt_val]
        refine ⟨by omega, ⟨fun h => absurd h (by simp), fun h => by omega⟩, fun _ => trivial⟩
      · have hc : (!false && decide (v ≥ 2 ^ 63)) = false := by simpa using h63
        have hc2 : (false && decide (v > 2 ^ 63)) = false := rfl
        simp only [parseIntValue, parseIntErr, hc, hc2, Bool.false_eq_true, if_false,
          wrapInt_val]
        refine ⟨by omega, ⟨fun _ => by omega, fun _ => trivial⟩, fun h => by omega⟩

/-! ## Fields that are no numbers -/

theorem psRNA_storemiRNA_single (parseFloat : GoString → Float64) (line : GoString)
    (hc : hasPrefix line ['#'] = false) (hf : 10 ≤ (split line ' ').length) :
    psRNAFunc.storemiRNA parseFloat [line] =
      some
        [{ miRNA := (split line ' ').getD 0 [], target := (split line ' ').getD 1 [],
           evalue := parseFloat ((split line ' ').getD 2 []),
           targetStart := atoi ((split line ' ').getD 6 []),
           targetEnd := atoi ((split line ' ').getD 7 []),
           miRNAAligned := (split line ' ').getD 8 [],
           targetAligned := (split line ' ').getD 9 [] }] := by
  rw [psRNA_storemiRNA_eq, collect_cons, collect_nil, psRNA_lineRecord_eq parseFloat line hf]
  simp [hc]

/-- C11 as stated fails: field 6 of the line is `9223372036854775808`, a
numeral outside the range of `int`, on which `Atoi` reports an error of range;
the record has `targetStart` 9223372036854775807, not 0. -/
theorem psRNA_lenient_numbers_counterexample :
    atoiErr ((split Scenario.rangeLine ' ').getD 6 []) = some NumError.ErrRange ∧
      (psRNAFunc.storemiRNA (fun s => (decimalFloat s).getD ⟨0⟩) [Scenario.rangeLine]).map
          (fun rs => rs.map (fun r => r.targetStart.val)) =
        some [9223372036854775807] ∧
      (9223372036854775807 : Int) ≠ 0 := by
  decide

/-- C11, amended. A line that does not start with `#` and has at least 10
fields between single spaces gives exactly one record, without a panic,
whatever its fields 2, 6 and 7 are. The e-value is the value that `ParseFloat`
returns for field 2, with the error discarded. A coordinate is the value that
`Atoi` returns for its field, with the error discarded: 0 when `Atoi` reports
an error of syntax, and the nearest bound of `int` (2^63 - 1 or -2^63), not 0,
when it reports an error of range; for a field of decimal digits with the
value `v` that is the smaller of `v` and 2^63 - 1. -/
theorem psRNA_lenient_numbers (parseFloat : GoString → Float64) (line : GoString)
    (hc : hasPrefix line ['#'] = false) (hf : 10 ≤ (split line ' ').length) :
    ∃ r, psRNAFunc.storemiRNA parseFloat [line] = some [r] ∧
      r.evalue = parseFloat ((split line ' ').getD 2 []) ∧
      r.targetStart = atoi ((split line ' ').getD 6 []) ∧
      r.targetEnd = atoi ((split line ' ').getD 7 []) ∧
      (atoiErr ((split line ' ').getD 6 []) = some NumError.ErrSyntax →
        r.targetStart.val = 0) ∧
      (atoiErr ((split line ' ').getD 7 []) = some NumError.ErrSyntax →
        r.targetEnd.val = 0) ∧
      (atoiErr ((split line ' ').getD 6 []) = some NumError.ErrRange →
        r.targetStart.val = 2 ^ 63 - 1 ∨ r.targetStart.val = -(2 ^ 63)) ∧
      (atoiErr ((split line ' ').getD 7 []) = some NumError.ErrRange →
        r.targetEnd.val = 2 ^ 63 - 1 ∨ r.targetEnd.val = -(2 ^ 63)) ∧
      (∀ v : Nat, (split line ' ').getD 6 [] ≠ [] →
        digitsValue ((split line ' ').getD 6 []) 0 = some v →
        r.targetStart.val = min (v : Int) (2 ^ 63 - 1)) ∧
      (∀ v : Nat, (split line ' ').getD 7 [] ≠ [] →
        digitsValue ((split line ' ').getD 7 []) 0 = some v →
        r.targetEnd.val = min (v : Int) (2 ^ 63 - 1)) := by
  refine ⟨_, psRNA_storemiRNA_single parseFloat line hc hf, rfl, rfl, rfl, ?_, ?_, ?_, ?_,
    ?_, ?_⟩
  · exact atoi_syntax _
  · exact atoi_syntax _
  · exact atoi_range _
  · exact atoi_range _
  · intro v hne hv
    exact (atoi_digits _ v hne hv).1
  · intro v hne hv
    exact (atoi_digits _ v hne hv).1

/-- C11, amended, at a concrete input: field 6 is `x4`, no number, and field
7 is `99999999999999999999`; the first coordinate is 0 and the second is a
bound of `int`. -/
theorem psRNA_lenient_numbers_witness :
    ∃ r,
      psRNAFunc.storemiRNA (fun s => (decimalFloat s).getD ⟨0⟩)
          ["miR1 seq1 0.2 . . . x4 99999999999999999999 AAUU UUAA".toList] = some [r] ∧
        r.targetStart.val = 0 ∧
        (r.targetEnd.val = 2 ^ 63 - 1 ∨ r.targetEnd.val = -(2 ^ 63)) := by
  obtain ⟨r, h, _, _, _, h6, _, _, h7, _⟩ :=
    psRNA_lenient_numbers (fun s => (decimalFloat s).getD ⟨0⟩)
      "miR1 seq1 0.2 . . . x4 99999999999999999999 AAUU UUAA".toList (by decide) (by decide)
  exact ⟨r, h, h6 (by decide), h7 (by decide)⟩

/-! ## The TargetFinder record parser -/

theorem tarFinder_tarFinderAdd_eq (parseFloat : GoString → Float64) (lines : List GoString) :
    tarFinderFunc.tarFinderAdd parseFloat lines =
      collect (fun _ line => (tarFinderFunc.lineRecord parseFloat line).map (fun r => [r]))
        lines 0 := by
  unfold tarFinderFunc.tarFinderAdd
  rw [forRange_eq_collect _
    (fun _ line => (tarFinderFunc.lineRecord parseFloat line).map (fun r => [r]))]
  · cases collect
      (fun _ line => (tarFinderFunc.lineRecord parseFloat line).map (fun r => [r]))
      lines 0 <;> simp
  · intro i line out
    cases hl : tarFinderFunc.lineRecord parseFloat line <;> simp [appendLit]

theorem tarFinder_lineRecord_eq (parseFloat : GoString → Float64) (line : GoString)
    (h : 19 ≤ (split line ' ').length) :
    tarFinderFunc.lineRecord parseFloat line =
      some
        { miRNA := (split line ' ').getD 0 [], sequence := (split line ' ').getD 11 [],
          start := atoi ((split line ' ').getD 15 []),
          end_ := atoi ((split line ' ').getD 16 []),
          mfe := parseFloat ((split line ' ').getD 18 []) } := by
  unfold tarFinderFunc.lineRecord
  rw [getElem?_eq_some_getD _ 15 [] (by omega), getElem?_eq_some_getD _ 16 [] (by omega),
    getElem?_eq_some_getD _ 18 [] (by omega), getElem?_eq_some_getD _ 0 [] (by omega),
    getElem?_eq_some_getD _ 11 [] (by omega)]
  rfl

theorem tarFinder_lineRecord_short (parseFloat : GoString → Float64) (line : GoString)
    (h : (split line ' ').length < 19) : tarFinderFunc.lineRecord parseFloat line = none := by
  apply Option.eq_none_iff_forall_not_mem.mpr
  intro r hr
  simp only [tarFinderFunc.lineRecord, Option.mem_def, Option.bind_eq_bind,
    Option.bind_eq_some, Option.pure_def] at hr
  obtain ⟨_, _, _, _, f18, h18, _⟩ := hr
  have := (List.getElem?_eq_some.mp h18).1
  omega

/-- C12 as stated fails: a line with 2 fields before a line with 19 fields
makes the parser panic, where the claim gives the record of the second line,
which the parser gives for the second line alone. -/
theorem tarFinder_short_line_counterexample :
    (split Scenario.shortLine ' ').length = 2 ∧
      tarFinderFunc.tarFinderAdd (fun s => (decimalFloat s).getD ⟨0⟩)
          [Scenario.shortLine, Scenario.finderLine] = none ∧
      tarFinderFunc.tarFinderAdd (fun s => (decimalFloat s).getD ⟨0⟩)
          [Scenario.finderLine] =
        some
          [{ miRNA := "miR1".toList, sequence := "seq1".toList, start := 4, end_ := 8,
             mfe := ⟨0x3FE0000000000000⟩ }] := by
  decide

/-- C12, amended. A TargetFinder input with a line of fewer than 19 fields
between single spaces makes the parser panic, and no record is parsed, also
not from the lines after it. When every line has at least 19 fields, the
parser gives, in order, one record per line, built from the fields 0, 11, 15,
16 and 18 of the line. -/
theorem tarFinder_short_line (parseFloat : GoString → Float64) (lines : List GoString) :
    ((∃ l ∈ lines, (split l ' ').length < 19) →
      tarFinderFunc.tarFinderAdd parseFloat lines = none) ∧
    ((∀ l ∈ lines, 19 ≤ (split l ' ').length) →
      tarFinderFunc.tarFinderAdd parseFloat lines =
        some
          (lines.map
            (fun l =>
              { miRNA := (split l ' ').getD 0 [], sequence := (split l ' ').getD 11 [],
                start := atoi ((split l ' ').getD 15 []),
                end_ := atoi ((split l ' ').getD 16 []),
                mfe := parseFloat ((split l ' ').getD 18 []) }))) := by
  constructor
  · rintro ⟨l, hl, hs⟩
    obtain ⟨k, hk⟩ := List.mem_iff_getElem?.mp hl
    rw [tarFinder_tarFinderAdd_eq]
    refine collect_eq_none_of _ lines 0 k l hk ?_
    rw [tarFinder_lineRecord_short parseFloat l hs]
    rfl
  · intro h
    rw [tarFinder_tarFinderAdd_eq]
    have := collect_filter_map (fun _ => true)
      (fun l =>
        ({ miRNA := (split l ' ').getD 0 [], sequence := (split l ' ').getD 11 [],
           start := atoi ((split l ' ').getD 15 []),
           end_ := atoi ((split l ' ').getD 16 []),
           mfe := parseFloat ((split l ' ').getD 18 []) } : tarFinderCap))
      (fun line => (tarFinderFunc.lineRecord parseFloat line).map (fun r => [r])) lines 0
      (by
        intro l hl
        show (tarFinderFunc.lineRecord parseFloat l).map (fun r => [r]) = _
        rw [tarFinder_lineRecord_eq parseFloat l (h l hl)]
        rfl)
    rw [this]
    simp

/-- C12, amended, at the input of the counterexample. -/
theorem tarFinder_short_line_witness :
    tarFinderFunc.tarFinderAdd (fun s => (decimalFloat s).getD ⟨0⟩)
      [Scenario.shortLine, Scenario.finderLine] = none :=
  (tarFinder_short_line (fun s => (decimalFloat s).getD ⟨0⟩)
    [Scenario.shortLine, Scenario.finderLine]).1 ⟨Scenario.shortLine, by decide, by decide⟩

/-! ## The text of the output file -/

theorem written_foldl (recs : List extractSeq) :
    ∀ file : GoString,
      recs.foldl (fun file r => file ++ psRNAFunc.writeArg r) file =
        file ++ (recs.map psRNAFunc.writeArg).flatten := by
  induction recs with
  | nil => intro file; simp
  | cons r rs ih =>
    intro file
    rw [List.foldl_cons, ih]
    simp

theorem written_eq (recs : List extractSeq) :
    psRNAFunc.written recs = (recs.map psRNAFunc.writeArg).flatten := by
  unfold psRNAFunc.written
  rw [written_foldl]
  rfl

theorem writeArg_eq (r : extractSeq) :
    psRNAFunc.writeArg r =
      List.intercalate ['\t']
        [r.target, '>' :: r.targetSeq, r.targetcomp, r.upstream, r.downstream] := by
  simp [psRNAFunc.writeArg, List.intercalate, List.intersperse]

/-- C14 as stated fails: for the joined record of the scenario the text of
the file has no newline, so no line that a newline ends, where the claim
counts one line; and the second of its fields between tabs is `>ACGT`, not
the core `ACGT`. -/
theorem psRNA_written_counterexample :
    psRNAFunc.written [Scenario.joined] =
        "seq1\t>ACGT\tACGTACGTACGTACGT\tGTACGT\tAC".toList ∧
      (psRNAFunc.written [Scenario.joined]).count '\n' = 0 ∧
      (psRNAFunc.written [Scenario.joined]).count '\n' ≠ [Scenario.joined].length ∧
      (split (psRNAFunc.written [Scenario.joined]) '\t')[1]? = some ">ACGT".toList := by
  decide

/-- C14, amended. The text written to `psRNANeural.fasta` is the concatenation,
in the order of the records and with nothing between or after them, of one
piece per joined record: the fields target, `>` followed by the core, full
sequence, upstream and downstream, with one tab between two fields. No newline
is written: when no field has a newline, the text has none, so it has no line
that a newline ends, however many records there are. -/
theorem psRNA_written_text (recs : List extractSeq) :
    psRNAFunc.written recs =
        (recs.map
          (fun r =>
            List.intercalate ['\t']
              [r.target, '>' :: r.targetSeq, r.targetcomp, r.upstream, r.downstream])).flatten ∧
      ((∀ r ∈ recs, '\n' ∉ r.target ∧ '\n' ∉ r.targetSeq ∧ '\n' ∉ r.targetcomp ∧
          '\n' ∉ r.upstream ∧ '\n' ∉ r.downstream) →
        (psRNAFunc.written recs).count '\n' = 0) := by
  constructor
  · rw [written_eq]
    congr 1
    apply List.map_congr_left
    intro r _
    exact writeArg_eq r
  · intro h
    rw [List.count_eq_zero, written_eq]
    intro hm
    obtain ⟨l, hl, hc⟩ := List.mem_flatten.mp hm
    obtain ⟨r, hr, rfl⟩ := List.mem_map.mp hl
    obtain ⟨h1, h2, h3, h4, h5⟩ := h r hr
    simp only [psRNAFunc.writeArg, List.mem_append, List.mem_singleton] at hc
    have ht : '\n' ≠ '\t' := by decide
    have hg : '\n' ≠ '>' := by decide
    tauto

/-- C14, amended, at the joined record of the scenario. -/
theorem psRNA_written_text_witness :
    (psRNAFunc.written [Scenario.joined]).count '\n' = 0 :=
  (psRNA_written_text [Scenario.joined]).2 (by decide)

/-! ## The TAPIR record parser -/

/-- C18. A line that starts with `target_5'` also starts with `target`, so the
parser appends its field 1 to the target names as well. The code at an input
of two logical records for the targets `seq1` and `seq2`: the parser yields four
target names for two starts and two ends, and the second target name is the
aligned string `ACGU` of the first record, not `seq2`. In the join, `seq2` has
the index 2 and the read of `start[2]` panics. -/
theorem tapir_alignment_defect :
    (∀ line : GoString, hasPrefix line "target_5'".toList = true →
      hasPrefix line "target".toList = true) ∧
    (tapirFunc.scan Scenario.tapirLines ⟨[], [], [], [], [], []⟩).map
        (fun p => (p.target, p.start, p.end_)) =
      some
        (["seq1".toList, "ACGU".toList, "seq2".toList, "ACGUAC".toList], [2, 3], [4, 6]) ∧
      tapirFunc.run Scenario.fastaLines Scenario.tapirLines 1 1 = none ∧
      tapirFunc.run Scenario.fastaLines (Scenario.tapirLines.take 6) 1 1 =
        some
          [{ tapid := "seq1".toList, tapseq := "GT".toList,
             tapcomp := "ACGTACGTACGTACGT".toList, upstream := "C".toList,
             downstream := "A".toList }] := by
  refine ⟨?_, by decide⟩
  intro line h
  unfold hasPrefix at h ⊢
  rw [List.isPrefixOf_iff_prefix] at h ⊢
  have e : "target_5'".toList = "target".toList ++ "_5'".toList := by decide
  rw [e] at h
  exact (List.prefix_append _ _).trans h

/-! ## The psRobot record parser -/

theorem mem_split_no_sep (c : Char) :
    ∀ (s x : GoString), x ∈ split s c → c ∉ x := by
  intro s
  induction s with
  | nil =>
    intro x hx
    simp only [split, List.mem_singleton] at hx
    subst hx
    simp
  | cons a t ih =>
    intro x hx
    simp only [split] at hx
    by_cases hac : a = c
    · rw [if_pos hac] at hx
      rcases List.mem_cons.mp hx with rfl | hx2
      · simp
      · exact ih x hx2
    · rw [if_neg hac] at hx
      cases hs : split t c with
      | nil =>
        rw [hs] at hx
        simp only [List.mem_singleton] at hx
        subst hx
        simp only [List.mem_singleton]
        exact fun e => hac e.symm
      | cons f fs =>
        rw [hs] at hx
        rcases List.mem_cons.mp hx with rfl | hx2
        · have hf : c ∉ f := ih f (by rw [hs]; exact List.mem_cons_self _ _)
          intro hm
          rcases List.mem_cons.mp hm with e | hm2
          · exact hac e.symm
          · exact hf hm2
        · exact ih x (by rw [hs]; exact List.mem_cons_of_mem _ hx2)

theorem split_no_sep (c : Char) : ∀ (x : GoString), c ∉ x → split x c = [x] := by
  intro x
  induction x with
  | nil => intro _; rfl
  | cons a t ih =>
    intro h
    have hac : ¬ a = c := fun e => h (by rw [e]; exact List.mem_cons_self _ _)
    have ht : c ∉ t := fun hm => h (List.mem_cons_of_mem _ hm)
    simp only [split, if_neg hac, ih ht]

theorem split_field_third (line f : GoString) (c : Char) (k : Nat)
    (h : (split line c)[k]? = some f) : (split f c)[2]? = none := by
  rw [split_no_sep c f (mem_split_no_sep c line f (List.getElem?_mem h))]
  rfl

/-- C19. Every line that starts with `Query` or with `Sbjct` makes the psRobot
parser panic, whatever its fields are: the parser splits field 1 of the line
on the tab once more, which gives one piece, and reads the piece of index 2.
So an input with such a line gives no record. -/
theorem psRobot_coordinate_line_panics (parseFloat : GoString → Float64)
    (st : psRobotFunc.Sorted) (line : GoString)
    (h : hasPrefix line "Query".toList = true ∨ hasPrefix line "Sbjct".toList = true) :
    psRobotFunc.scanLine parseFloat st line = none ∧
      ∀ (before after : List GoString) (st0 : psRobotFunc.Sorted),
        psRobotFunc.scan parseFloat before st0 = some st →
        psRobotFunc.scan parseFloat (before ++ line :: after) st0 = none := by
  have hq : ∀ st, hasPrefix line "Query".toList = true →
      psRobotFunc.queryStep st line = none := by
    intro st hp
    apply Option.eq_none_iff_forall_not_mem.mpr
    intro r hr
    simp only [psRobotFunc.queryStep, if_pos hp, Option.mem_def, Option.bind_eq_some] at hr
    obtain ⟨_, _, _, _, g1, hg1, b, hb, _⟩ := hr
    rw [split_field_third line g1 '\t' 1 hg1] at hb
    exact absurd hb (by simp)
  have hs : ∀ st, hasPrefix line "Sbjct".toList = true →
      psRobotFunc.sbjctStep st line = none := by
    intro st hp
    apply Option.eq_none_iff_forall_not_mem.mpr
    intro r hr
    simp only [psRobotFunc.sbjctStep, if_pos hp, Option.mem_def, Option.bind_eq_some] at hr
    obtain ⟨_, _, _, _, g1, hg1, b, hb, _⟩ := hr
    rw [split_field_third line g1 '\t' 1 hg1] at hb
    exact absurd hb (by simp)
  have hline : ∀ st, psRobotFunc.scanLine parseFloat st line = none := by
    intro st
    unfold psRobotFunc.scanLine
    cases psRobotFunc.headerStep parseFloat st line with
    | none => rfl
    | some st1 =>
      simp only [Option.some_bind]
      rcases h with hp | hp
      · rw [hq st1 hp]
        rfl
      · cases psRobotFunc.queryStep st1 line with
        | none => rfl
        | some st2 =>
          simp only [Option.some_bind]
          exact hs st2 hp
  refine ⟨hline st, ?_⟩
  intro before
  induction before with
  | nil =>
    intro after st0 _
    simp only [List.nil_append, psRobotFunc.scan, hline]
  | cons l ls ih =>
    intro after st0 h0
    simp only [List.cons_append, psRobotFunc.scan] at h0 ⊢
    cases hl : psRobotFunc.scanLine parseFloat st0 l with
    | none => rfl
    | some st1 =>
      rw [hl] at h0
      exact ih after st1 h0

/-- C19 at a concrete input: one logical record of three lines; the parser
panics at the `Query` line. -/
theorem psRobot_coordinate_line_panics_witness :
    psRobotFunc.scan (fun s => (decimalFloat s).getD ⟨0⟩) Scenario.robotLines
        ⟨[], [], [], [], [], []⟩ = none ∧
      psRobotFunc.parse (fun s => (decimalFloat s).getD ⟨0⟩) Scenario.robotLines = none :=
  ⟨(psRobot_coordinate_line_panics (fun s => (decimalFloat s).getD ⟨0⟩)
      ⟨["seq1".toList], [⟨0x4004000000000000⟩], [], [], [], []⟩
      "Query\t1 UGACAGAAGAGAGUGAGCAC 20".toList (Or.inl (by decide))).2
      [">seq1\tscore:2.5".toList] ["Sbjct\t4 ACUGUCUUCUCUCACUCGUG 24".toList]
      ⟨[], [], [], [], [], []⟩ (by decide),
    by decide⟩

/-! ## The psRNATarget join under the bounds precondition -/

/-- C22 does not hold for every FASTA file with one sequence line per header.
The record of the scenario (`targetStart` 4, `targetEnd` 8) with the widths 2
and 2 satisfies the three bounds for a sequence line of 65536 bytes and for
the sequence line of `seq1` in the scenario. In the file `>seq1` / a line of
65536 bytes the scanner stops at the sequence line and the join panics at
`fastSeq[0]`. In the file `>seq0` / a line of 65536 bytes / `>seq1` / the
sequence line of the scenario the scanner stops at the second line, so the
join returns no record at all, where the file has one entry with the
identifier of the record. -/
theorem psRNA_join_safe_counterexample :
    (0 ≤ Scenario.filtered.targetStart.val - (2 : GoInt).val ∧
        Scenario.filtered.targetStart.val ≤ Scenario.filtered.targetEnd.val ∧
        Scenario.filtered.targetEnd.val + (2 : GoInt).val ≤
          (Scenario.limitLine.length : Int) ∧
        Scenario.filtered.targetEnd.val + (2 : GoInt).val ≤
          (("ACGTACGTACGTACGT".toList).length : Int)) ∧
      WellFormedEntries [(">seq1".toList, Scenario.limitLine)] ∧
      psRNAFunc.targetExtract
          (fastaRead (scanLines (fastaLinesOf [(">seq1".toList, Scenario.limitLine)]))).1
          (fastaRead (scanLines (fastaLinesOf [(">seq1".toList, Scenario.limitLine)]))).2
          [Scenario.filtered] 2 2 = none ∧
      WellFormedEntries
        [(">seq0".toList, Scenario.limitLine), (">seq1".toList, "ACGTACGTACGTACGT".toList)] ∧
      psRNAFunc.targetExtract
          (fastaRead (scanLines (fastaLinesOf
            [(">seq0".toList, Scenario.limitLine),
             (">seq1".toList, "ACGTACGTACGTACGT".toList)]))).1
          (fastaRead (scanLines (fastaLinesOf
            [(">seq0".toList, Scenario.limitLine),
             (">seq1".toList, "ACGTACGTACGTACGT".toList)]))).2
          [Scenario.filtered] 2 2 = some [] ∧
      (matchedEntries (fun r => r.target) [Scenario.filtered]
        [(">seq0".toList, Scenario.limitLine),
         (">seq1".toList, "ACGTACGTACGTACGT".toList)]).length = 1 := by
  have hlong : maxScanTokenSize ≤ Scenario.limitLine.length := by
    rw [limitLine_length]; decide
  have hA : scanLines (fastaLinesOf [(">seq1".toList, Scenario.limitLine)]) =
      [">seq1".toList] := by
    rw [fastaLinesOf_cons, scanLines_header_long _ _ _ (by decide) hlong]
    decide
  have hB : scanLines (fastaLinesOf
      [(">seq0".toList, Scenario.limitLine), (">seq1".toList, "ACGTACGTACGTACGT".toList)]) =
      [">seq0".toList] := by
    rw [fastaLinesOf_cons, scanLines_header_long _ _ _ (by decide) hlong]
    decide
  have hpre : hasPrefix Scenario.limitLine ['>'] = false := rfl
  refine ⟨⟨by decide, by decide, ?_, by decide⟩, ?_, ?_, ?_, ?_, ?_⟩
  · rw [limitLine_length]; decide
  · intro e he
    simp only [List.mem_singleton] at he
    subst he
    exact ⟨by decide, hpre⟩
  · rw [hA]; decide
  · intro e he
    simp only [List.mem_cons, List.mem_singleton, List.not_mem_nil, or_false] at he
    rcases he with rfl | rfl
    · exact ⟨by decide, hpre⟩
    · exact ⟨by decide, by decide⟩
  · rw [hB]; decide
  · decide

/-- C22. For a FASTA file with exactly one sequence line per header, each line
shorter than `maxScanTokenSize` = 65536 bytes, widths that are not negative,
and filtered records that satisfy `0 <= targetStart - upstreamWidth`,
`targetStart <= targetEnd` and `targetEnd + downstreamWidth <= len(s)` for the
sequence `s` of every entry with an equal identifier, the psRNATarget join does
not panic. Its records are, in order, exactly one for each pair (filtered
record, entry with an equal identifier), and each has a core of
`targetEnd - targetStart` bytes and a downstream field of `downstreamWidth`
bytes. The sequence of an entry is its sequence line as the scanner gives it,
that is without the carriage return at its end, if it has one. -/
theorem psRNA_join_safe (entries : List (GoString × GoString))
    (hwf : WellFormedEntries entries)
    (hshort : ∀ e ∈ entries, e.1.length < maxScanTokenSize ∧ e.2.length < maxScanTokenSize)
    (recs : List psRNAStructFiltered) (up down : GoInt)
    (hup : 0 ≤ up.val) (hdown : 0 ≤ down.val)
    (hb : ∀ r ∈ recs, ∀ e ∈ scannedEntries entries, r.target = replaceAll e.1 ['>'] [] →
      0 ≤ r.targetStart.val - up.val ∧ r.targetStart.val ≤ r.targetEnd.val ∧
      r.targetEnd.val + down.val ≤ (e.2.length : Int)) :
    ∃ out,
      psRNAFunc.targetExtract (fastaRead (scanLines (fastaLinesOf entries))).1
          (fastaRead (scanLines (fastaLinesOf entries))).2 recs up down = some out ∧
        out.length =
          (matchedEntries (fun r => r.target) recs (scannedEntries entries)).length ∧
        List.Forall₂
          (fun o (q : (Nat × psRNAStructFiltered) × (GoString × GoString)) =>
            o.target = q.1.2.target ∧ o.targetcomp = q.2.2 ∧
            (o.targetSeq.length : Int) = q.1.2.targetEnd.val - q.1.2.targetStart.val ∧
            (o.downstream.length : Int) = down.val)
          out (matchedEntries (fun r => r.target) recs (scannedEntries entries)) := by
  rw [scanLines_fastaLinesOf entries hshort]
  have hwf2 := wellFormed_scannedEntries entries hwf
  have hlen := scannedEntries_length_lt entries hshort
  revert hb hlen
  generalize scannedEntries entries = es at hwf2 ⊢
  intro hb hlen
  rw [fastaRead_entries_ids es hwf2, fastaRead_entries_seqs es hwf2,
    psRNA_targetExtract_eq]
  have hsome := collect_join_isSome (fun (r : psRNAStructFiltered) => r.target)
    (fun _ r j => psRNAFunc.joinLit (es.map (fun e => (⟨e.2⟩ : fastPredSeq))) up down r j)
    (es.map (fun e => (⟨replaceAll e.1 ['>'] []⟩ : fastPredID))) recs
    (by
      intro i r hi j f hj hk
      rw [List.getElem?_map] at hj
      cases he : es[j]? with
      | none => rw [he] at hj; simp at hj
      | some e =>
        rw [he] at hj
        simp only [Option.map_some', Option.some.injEq] at hj
        subst hj
        have hmem : e ∈ es := List.getElem?_mem he
        have hr : r ∈ recs := List.getElem?_mem hi
        obtain ⟨h1, h2, h3⟩ := hb r hr e hmem hk
        have hl := hlen e hmem
        have p1 := r.targetStart.property
        have p2 := r.targetEnd.property
        have p3 := up.property
        have p4 := down.property
        refine psRNA_joinLit_isSome _ up down r j ⟨e.2⟩ (by simp [he]) ?_ ?_ ?_
        · show (slice e.2 r.targetStart r.targetEnd).isSome = true
          rw [slice_isSome]
          exact ⟨by omega, h2, by omega⟩
        · show (slice e.2 (subInt r.targetStart up) r.targetStart).isSome = true
          rw [slice_isSome, subInt_val]
          exact ⟨by omega, by omega, by omega⟩
        · show (slice e.2 r.targetEnd (addInt r.targetEnd down)).isSome = true
          rw [slice_isSome, addInt_val]
          exact ⟨by omega, by omega, by omega⟩)
  obtain ⟨out, hout⟩ := Option.isSome_iff_exists.mp hsome
  have hf : List.Forall₂
      (fun (o : extractSeq) (q : (Nat × psRNAStructFiltered) × (GoString × GoString)) =>
        o.target = q.1.2.target ∧ o.targetcomp = q.2.2 ∧
        (o.targetSeq.length : Int) = q.1.2.targetEnd.val - q.1.2.targetStart.val ∧
        (o.downstream.length : Int) = down.val)
      out (matchedEntries (fun r => r.target) recs es) := by
    refine (collect_join_entries (fun (r : psRNAStructFiltered) => r.target)
      (fun _ r j =>
        psRNAFunc.joinLit (es.map (fun e => (⟨e.2⟩ : fastPredSeq))) up down r j)
      es recs out hout).imp ?_
    rintro o q ⟨j, hj, hl⟩
    obtain ⟨s, hs, core, hcore, _, _, d, hd, rfl⟩ :=
      (psRNA_joinLit_eq_some _ up down q.1.2 j o).mp hl
    rw [List.getElem?_map, hj] at hs
    simp only [Option.map_some', Option.some.injEq] at hs
    subst hs
    obtain ⟨⟨c0, c1, c2⟩, hc⟩ := (slice_eq_some _ _ _ _).mp hcore
    have hw := slice_addInt_window _ _ _ _ hd
    refine ⟨rfl, rfl, ?_, hw.2.2.2.2⟩
    show ((core.length : Nat) : Int) = _
    rw [hc, substr_length _ _ _ (by omega) (by omega)]
    omega
  exact ⟨out, hout, hf.length_eq, hf⟩

/-- C22 at the input of the scenario: two entries, one record for `seq1` with
`targetStart` 4 and `targetEnd` 8, and the widths 2 and 2. -/
theorem psRNA_join_safe_witness :
    ∃ out,
      psRNAFunc.targetExtract
          (fastaRead (scanLines (fastaLinesOf
            [(">seq1".toList, "ACGTACGTACGTACGT".toList),
             (">seq2".toList, "TTTTAAAACCCCGGGG".toList)]))).1
          (fastaRead (scanLines (fastaLinesOf
            [(">seq1".toList, "ACGTACGTACGTACGT".toList),
             (">seq2".toList, "TTTTAAAACCCCGGGG".toList)]))).2
          [Scenario.filtered] 2 2 = some out ∧
        out.length =
          (matchedEntries (fun r => r.target) [Scenario.filtered]
            (scannedEntries
              [(">seq1".toList, "ACGTACGTACGTACGT".toList),
               (">seq2".toList, "TTTTAAAACCCCGGGG".toList)])).length ∧
        List.Forall₂
          (fun o (q : (Nat × psRNAStructFiltered) × (GoString × GoString)) =>
            o.target = q.1.2.target ∧ o.targetcomp = q.2.2 ∧
            (o.targetSeq.length : Int) = q.1.2.targetEnd.val - q.1.2.targetStart.val ∧
            (o.downstream.length : Int) = (2 : GoInt).val)
          out
          (matchedEntries (fun r => r.target) [Scenario.filtered]
            (scannedEntries
              [(">seq1".toList, "ACGTACGTACGTACGT".toList),
               (">seq2".toList, "TTTTAAAACCCCGGGG".toList)])) :=
  psRNA_join_safe
    [(">seq1".toList, "ACGTACGTACGTACGT".toList), (">seq2".toList, "TTTTAAAACCCCGGGG".toList)]
    (by decide) (by decide) [Scenario.filtered] 2 2 (by decide) (by decide) (by decide)

/-! ## The copied key of the TargetFinder and TarHunter joins -/

theorem forall2_imp_mem_right {α β : Type} {R S : α → β → Prop} {l1 : List α} {l2 : List β}
    (h : List.Forall₂ R l1 l2) (hs : ∀ a b, b ∈ l2 → R a b → S a b) :
    List.Forall₂ S l1 l2 := by
  induction h with
  | nil => exact List.Forall₂.nil
  | cons hr _ ih =>
    refine List.Forall₂.cons (hs _ _ (List.mem_cons_self _ _) hr) (ih ?_)
    intro a b hb hab
    exact hs a b (List.mem_cons_of_mem _ hb) hab

theorem mem_matchedPairs {α : Type} (key : α → GoString) (recs : List α)
    (ids : List fastPredID) (q : (Nat × α) × Nat) (h : q ∈ matchedPairs key recs ids) :
    recs[q.1.1]? = some q.1.2 ∧ ids[q.2]? = some ⟨key q.1.2⟩ := by
  unfold matchedPairs at h
  obtain ⟨r, hr, hq⟩ := List.mem_flatMap.mp h
  obtain ⟨j, hj, rfl⟩ := List.mem_map.mp hq
  obtain ⟨i, x⟩ := r
  exact ⟨List.mk_mem_enum_iff_getElem?.mp hr, (mem_idPositions ids (key x) j).mp hj⟩

/-- C21 as stated fails: for the FASTA file of the scenario and a record with
the join key `seq1`, `start` 4 and `end` 8, the TargetFinder join (widths 2
and 2) and the TarHunter join (widths 0 and 2) give a joined record whose
`sequence`, respectively `targetSeq`, is the key `seq1`, not the slice `ACGT`
of the positions 4 to 8. -/
theorem key_copied_counterexample :
    tarFinderFunc.tarFinderSeqAdd (fastaRead Scenario.fastaLines).1
        (fastaRead Scenario.fastaLines).2
        [{ miRNA := "miR1".toList, sequence := "seq1".toList, start := 4, end_ := 8,
           mfe := ⟨0⟩ }] 2 2 =
      some
        [{ miRNA := "miR1".toList, sequence := "seq1".toList,
           compseq := "ACGTACGTACGTACGT".toList, upstream := "GT".toList,
           downstream := "AC".toList }] ∧
      tarFunc.tarStoreCapture (fastaRead Scenario.fastaLines).1
          (fastaRead Scenario.fastaLines).2
          [{ targetID := "t1".toList, targetSeq := "seq1".toList, miRID := "m".toList,
             miRSeq := "UGAC".toList, start := 4, end_ := 8 }] 0 2 =
        some
          [{ targetID := "t1".toList, targetSeq := "seq1".toList, miRNAID := [],
             miRANSeq := [], targetSeqComp := "ACGTACGTACGTACGT".toList,
             targetUpstream := [], targetdownStream := "AC".toList }] ∧
      "seq1".toList ≠ substr "ACGTACGTACGTACGT".toList 4 8 ∧
      substr "ACGTACGTACGTACGT".toList 4 8 = "ACGT".toList := by
  decide

/-- C21, amended. In the TargetFinder and TarHunter joins, every joined record
is built from a pair (prediction record, position `j` of an identifier) that
passed the test. Its field `sequence` (TargetFinder), respectively `targetSeq`
(TarHunter), is the field of the same name of the prediction record, which is
the join key and so equals the identifier at position `j`; no slice
`s[start:end]` is taken. Its field `compseq`, respectively `targetSeqComp`, is
the sequence `fastSeq[j]`. -/
theorem key_copied (ids : List fastPredID) (seqs : List fastPredSeq) (up down : GoInt) :
    (∀ (recs : List tarFinderCap) (out : List tarFinderSeqStore),
      tarFinderFunc.tarFinderSeqAdd ids seqs recs up down = some out →
      List.Forall₂
        (fun o (q : (Nat × tarFinderCap) × Nat) =>
          o.sequence = q.1.2.sequence ∧ ids[q.2]? = some ⟨o.sequence⟩ ∧
            ∃ s, seqs[q.2]? = some s ∧ o.compseq = s.seq)
        out (matchedPairs (fun r => r.sequence) recs ids)) ∧
    (∀ (recs : List tarAnalyze) (out : List tarSeqStore),
      tarFunc.tarStoreCapture ids seqs recs up down = some out →
      List.Forall₂
        (fun o (q : (Nat × tarAnalyze) × Nat) =>
          o.targetSeq = q.1.2.targetSeq ∧ ids[q.2]? = some ⟨o.targetSeq⟩ ∧
            ∃ s, seqs[q.2]? = some s ∧ o.targetSeqComp = s.seq)
        out (matchedPairs (fun r => r.targetSeq) recs ids)) := by
  constructor
  · intro recs out h
    refine forall2_imp_mem_right (tarFinder_join_pairs ids seqs recs up down out h) ?_
    intro o q hm hq
    obtain ⟨s, hs, _, _, _, _, rfl⟩ :=
      (tarFinder_joinLit_eq_some seqs up down q.1.2 q.2 o).mp hq
    exact ⟨rfl, (mem_matchedPairs _ recs ids q hm).2, s, hs, rfl⟩
  · intro recs out h
    refine forall2_imp_mem_right (tarFunc_join_pairs ids seqs recs up down out h) ?_
    intro o q hm hq
    obtain ⟨s, hs, _, _, _, _, rfl⟩ :=
      (tarFunc_joinLit_eq_some seqs up down q.1.2 q.2 o).mp hq
    exact ⟨rfl, (mem_matchedPairs _ recs ids q hm).2, s, hs, rfl⟩

/-- C21, amended, at the input of the counterexample, for the TargetFinder
join. -/
theorem key_copied_witness :
    List.Forall₂
      (fun (o : tarFinderSeqStore) (q : (Nat × tarFinderCap) × Nat) =>
        o.sequence = q.1.2.sequence ∧
          (fastaRead Scenario.fastaLines).1[q.2]? = some ⟨o.sequence⟩ ∧
          ∃ s, (fastaRead Scenario.fastaLines).2[q.2]? = some s ∧ o.compseq = s.seq)
      [{ miRNA := "miR1".toList, sequence := "seq1".toList,
         compseq := "ACGTACGTACGTACGT".toList, upstream := "GT".toList,
         downstream := "AC".toList }]
      (matchedPairs (fun r => r.sequence)
        [{ miRNA := "miR1".toList, sequence := "seq1".toList, start := 4, end_ := 8,
           mfe := ⟨0⟩ }]
        (fastaRead Scenario.fastaLines).1) :=
  (key_copied (fastaRead Scenario.fastaLines).1 (fastaRead Scenario.fastaLines).2 2 2).1
    [{ miRNA := "miR1".toList, sequence := "seq1".toList, start := 4, end_ := 8,
       mfe := ⟨0⟩ }]
    [{ miRNA := "miR1".toList, sequence := "seq1".toList,
       compseq := "ACGTACGTACGTACGT".toList, upstream := "GT".toList,
       downstream := "AC".toList }]
    (by decide)

end MicroRNA
